import Mathlib

/-!
# PanelOS: the terminal session broker

A shallow embedding of `services/terminal.service.js` (class `TerminalService`) and of the
`terminal:*` socket handlers of `server.js`.

* JavaScript values that the code inspects with `!x` and `typeof x` are `JsVal`.
* A `rows` or `cols` value is an integer or `undefined` (`Option Int`, with `none` for
  `undefined`).  In `startSession` an `undefined` value triggers the destructuring defaults
  `rows = 24, cols = 80`; in `resizeTerminal` it reaches the dimension test, where every
  comparison is false because its number value is NaN.  Other values (NaN, strings, numbers
  that are not integers) are not modelled.
* `this.sessions` is a JavaScript `Map`.  It is modelled as the entry list of ECMA-262
  (`[[MapData]]`): `Map.prototype.delete` empties the record in place, `Map.prototype.set`
  overwrites the value of an existing key or appends a record, and a `for ... of` loop walks
  the list by index while the loop body may delete records.
* SSH clients and shell streams are opaque handles (`Nat`).  Calls made on them are recorded,
  in order, in `TerminalService.effects`; whether such a call throws is decided by `Env`.
* `Date.now()` is an explicit argument `now`.
-/

namespace PanelOS

/-! ## JavaScript values -/

/-- The JavaScript values that reach the validation code. -/
inductive JsVal where
  | undefined
  | null
  | bool (b : Bool)
  | num (n : Int)
  | str (s : String)
  deriving DecidableEq

/-- Truthiness, as used by `!x`. -/
def JsVal.truthy : JsVal → Bool
  | .undefined => false
  | .null => false
  | .bool b => b
  | .num n => n != 0
  | .str s => s != ""

/-- The test `typeof x === 'string'`. -/
def JsVal.isString : JsVal → Bool
  | .str _ => true
  | _ => false

/-- The string carried by a value that passed the `typeof x === 'string'` test. -/
def JsVal.asString : JsVal → String
  | .str s => s
  | _ => ""

/-! ## Sessions and the session map -/

/-- The object stored in `this.sessions` by `startSession` (lines 89-98). -/
structure Session where
  client : Option Nat
  stream : Option Nat
  username : String
  createdAt : Int
  lastActivityAt : Int
  rows : Option Int
  cols : Option Int
  buffer : List String
  deriving DecidableEq

/-- The `[[MapData]]` list of a `Map`: `none` is a record emptied by `delete`. -/
abbrev MapData := List (Option (String × Session))

/-- The method `Map.prototype.get`; `none` is `undefined`. -/
def mapGet : MapData → String → Option Session
  | [], _ => none
  | none :: rest, k => mapGet rest k
  | some (k', v) :: rest, k => if k' = k then some v else mapGet rest k

/-- The method `Map.prototype.has`. -/
def mapHas (m : MapData) (k : String) : Bool := (mapGet m k).isSome

/-- The method `Map.prototype.set`: overwrite the value of the record with this key, or append. -/
def mapSet : MapData → String → Session → MapData
  | [], k, v => [some (k, v)]
  | none :: rest, k, v => none :: mapSet rest k v
  | some (k', v') :: rest, k, v =>
    if k' = k then some (k, v) :: rest else some (k', v') :: mapSet rest k v

/-- The method `Map.prototype.delete`: empty the record with this key, in place. -/
def mapDelete : MapData → String → MapData
  | [], _ => []
  | none :: rest, k => none :: mapDelete rest k
  | some (k', v') :: rest, k =>
    if k' = k then none :: rest else some (k', v') :: mapDelete rest k

/-- The live records of the map, in insertion order. -/
def mapEntries (m : MapData) : List (String × Session) := m.filterMap id

/-- The keys of the live records. -/
def mapKeys (m : MapData) : List String := (mapEntries m).map Prod.fst

/-- A `Map` holds each key in at most one live record. -/
def MapWF (m : MapData) : Prop := (mapKeys m).Nodup

instance (m : MapData) : Decidable (MapWF m) := by unfold MapWF; infer_instance

/-! ## The service object and its observable effects -/

/-- Levels of the logger. -/
inductive LogLevel where
  | debug | info | warn | error
  deriving DecidableEq

/-- Calls made on collaborators, in the order the code makes them. -/
inductive Effect where
  | clientConnect (client : Nat) (username password : String)
  | clientShell (client : Nat) (rows cols : Int)
  | clientEnd (client : Nat)
  | streamWrite (stream : Nat) (data : String)
  | streamSetWindow (stream : Nat) (rows cols : Option Int)
  | streamEnd (stream : Nat)
  | clearInterval (timer : Nat)
  | log (level : LogLevel) (message : String) (detail : Option String)
  deriving DecidableEq

/-- Which collaborator calls throw, and with what error message. -/
structure Env where
  streamWrite : Nat → String → Option String
  streamSetWindow : Nat → Option Int → Option Int → Option String
  streamEnd : Nat → Option String
  clientEnd : Nat → Option String

/-- An environment in which no collaborator call throws. -/
def Env.quiet : Env :=
  { streamWrite := fun _ _ => none
    streamSetWindow := fun _ _ _ => none
    streamEnd := fun _ => none
    clientEnd := fun _ => none }

/-- The fields of a `TerminalService` instance, the interval timers that are still armed, and
the trace of effects so far. -/
structure TerminalService where
  sessions : MapData
  maxSessionTimeout : Int
  sessionIdleTimeout : Int
  cleanupInterval : Option Nat
  armedIntervals : List Nat
  effects : List Effect
  deriving DecidableEq

/-- The constructor (lines 9-20); `timer` is the handle returned by `setInterval`. -/
def TerminalService.new (timer : Nat) : TerminalService :=
  { sessions := []
    maxSessionTimeout := 3600000
    sessionIdleTimeout := 1800000
    cleanupInterval := some timer
    armedIntervals := [timer]
    effects := [] }

/-- Record one effect. -/
def TerminalService.emit (svc : TerminalService) (e : Effect) : TerminalService :=
  { svc with effects := svc.effects ++ [e] }

/-- Lines 207-214 of `closeSession`: end the stream if there is one, swallowing a throw. -/
def endStream (env : Env) (sessionId : String) (session : Session)
    (svc : TerminalService) : TerminalService :=
  match session.stream with
  | none => svc
  | some h =>
    match env.streamEnd h with
    | none => svc.emit (.streamEnd h)
    | some msg =>
      (svc.emit (.streamEnd h)).emit
        (.log .debug ("Error ending stream for " ++ sessionId ++ ":") (some msg))

/-- Lines 215-221 of `closeSession`: end the client if there is one, swallowing a throw. -/
def endClient (env : Env) (sessionId : String) (session : Session)
    (svc : TerminalService) : TerminalService :=
  match session.client with
  | none => svc
  | some c =>
    match env.clientEnd c with
    | none => svc.emit (.clientEnd c)
    | some msg =>
      (svc.emit (.clientEnd c)).emit
        (.log .debug ("Error ending client for " ++ sessionId ++ ":") (some msg))

/-- The method `closeSession` (lines 203-227). -/
def closeSession (env : Env) (sessionId : String) (svc : TerminalService) : TerminalService :=
  match mapGet svc.sessions sessionId with
  | none => svc
  | some session =>
    let svc1 := endStream env sessionId session svc
    let svc2 := endClient env sessionId session svc1
    let svc3 := { svc2 with sessions := mapDelete svc2.sessions sessionId }
    svc3.emit (.log .info ("Terminal session closed: " ++ sessionId) none)

/-- The method `hasSession` (lines 233-235). -/
def hasSession (svc : TerminalService) (sessionId : String) : Bool :=
  mapHas svc.sessions sessionId

/-- The method `getStream` (lines 194-197); `none` is `null` or `undefined`. -/
def getStream (svc : TerminalService) (sessionId : String) : Option Nat :=
  match mapGet svc.sessions sessionId with
  | some session => session.stream
  | none => none

/-- The comparison `x < n` of a `rows` or `cols` value with a number.  The value is an integer,
or `undefined` (`none`), whose number value is NaN, for which every comparison is false. -/
def lessThan (x : Option Int) (n : Int) : Bool :=
  match x with
  | none => false
  | some k => decide (k < n)

/-- The comparison `x > n` of a `rows` or `cols` value with a number. -/
def greaterThan (x : Option Int) (n : Int) : Bool :=
  match x with
  | none => false
  | some k => decide (k > n)

/-- The dimension test shared by `startSession` (line 56) and `resizeTerminal` (line 172):
true when the pair is rejected. -/
def invalidDimensions (rows cols : Option Int) : Bool :=
  lessThan rows 5 || lessThan cols 10 || greaterThan rows 500 || greaterThan cols 500

/-- How a `rows` or `cols` value prints inside a template literal. -/
def renderDimension : Option Int → String
  | none => "undefined"
  | some k => toString k

/-- The method `sendInput` (lines 141-156). -/
def sendInput (env : Env) (now : Int) (sessionId : String) (data : String)
    (svc : TerminalService) : Bool × TerminalService :=
  match mapGet svc.sessions sessionId with
  | none => (false, svc.emit (.log .warn ("Session not found: " ++ sessionId) none))
  | some session =>
    match session.stream with
    | none => (false, svc.emit (.log .warn ("Session not found: " ++ sessionId) none))
    | some h =>
      match env.streamWrite h data with
      | some msg =>
        (false, (svc.emit (.streamWrite h data)).emit
          (.log .error ("Error writing to session " ++ sessionId ++ ":") (some msg)))
      | none =>
        let svc1 := svc.emit (.streamWrite h data)
        (true, { svc1 with
          sessions := mapSet svc1.sessions sessionId { session with lastActivityAt := now } })

/-- The method `resizeTerminal` (lines 164-187).  The handler of `terminal:resize` passes on
the `rows` and `cols` of the payload as they are, so each is an integer or `undefined`. -/
def resizeTerminal (env : Env) (now : Int) (sessionId : String) (rows cols : Option Int)
    (svc : TerminalService) : Bool × TerminalService :=
  match mapGet svc.sessions sessionId with
  | none => (false, svc.emit (.log .warn ("Session not found: " ++ sessionId) none))
  | some session =>
    match session.stream with
    | none => (false, svc.emit (.log .warn ("Session not found: " ++ sessionId) none))
    | some h =>
      if invalidDimensions rows cols then
        (false, svc.emit (.log .warn
          ("Invalid terminal dimensions: " ++ renderDimension rows ++ "x"
            ++ renderDimension cols) none))
      else
        match env.streamSetWindow h rows cols with
        | some msg =>
          (false, (svc.emit (.streamSetWindow h rows cols)).emit
            (.log .error ("Error resizing session " ++ sessionId ++ ":") (some msg)))
        | none =>
          let svc1 := svc.emit (.streamSetWindow h rows cols)
          (true, { svc1 with
            sessions := mapSet svc1.sessions sessionId
              { session with rows := rows, cols := cols, lastActivityAt := now } })

/-! ## Loops over the session map -/

/-- The loop `for (const [sessionId, session] of this.sessions) body`, following the Map
iterator of ECMA-262: the record at `index` is read from the live map, an emptied record is
skipped, and the length is read again after each step.  `fuel` bounds the number of steps. -/
def forOfSessions (body : String → Session → TerminalService → TerminalService) :
    Nat → Nat → TerminalService → TerminalService
  | 0, _, svc => svc
  | fuel + 1, index, svc =>
    match svc.sessions[index]? with
    | none => svc
    | some none => forOfSessions body fuel (index + 1) svc
    | some (some (sessionId, session)) =>
      forOfSessions body fuel (index + 1) (body sessionId session svc)

/-- The body of the loop of `_cleanupIdleSessions` (lines 29-33). -/
def cleanupIdleBody (env : Env) (now : Int) (sessionId : String) (session : Session)
    (svc : TerminalService) : TerminalService :=
  let idleTime := now - session.lastActivityAt
  if idleTime > svc.sessionIdleTimeout then
    closeSession env sessionId
      (svc.emit (.log .info
        ("Closing idle session: " ++ sessionId ++ " (idle for "
          ++ toString ((idleTime + 500) / 1000) ++ "s)") none))
  else svc

/-- The method `_cleanupIdleSessions` (lines 26-35).  The body never adds a record, so one step
per record of the map is enough fuel. -/
def _cleanupIdleSessions (env : Env) (now : Int) (svc : TerminalService) : TerminalService :=
  forOfSessions (cleanupIdleBody env now) svc.sessions.length 0 svc

/-- Lines 242-244 of `cleanup`: clear the reaper interval if there is one. -/
def clearCleanupInterval (svc : TerminalService) : TerminalService :=
  match svc.cleanupInterval with
  | none => svc
  | some t =>
    { svc with
      armedIntervals := svc.armedIntervals.filter (fun x => x != t)
      effects := svc.effects ++ [.clearInterval t] }

/-- The method `cleanup` (lines 240-251). -/
def cleanup (env : Env) (svc : TerminalService) : TerminalService :=
  let svc1 := clearCleanupInterval svc
  let svc2 := forOfSessions (fun sessionId _ s => closeSession env sessionId s)
    svc1.sessions.length 0 svc1
  svc2.emit (.log .info "Terminal service cleaned up - all sessions closed" none)

/-! ## startSession -/

/-- The state of the promise returned by `startSession`; an error is its `message`. -/
inductive Promise where
  | pending
  | resolved
  | rejected (message : String)
  deriving DecidableEq

/-- The call `resolve(...)`: only a pending promise changes. -/
def Promise.resolve : Promise → Promise
  | .pending => .resolved
  | p => p

/-- The call `reject(err)`: only a pending promise changes. -/
def Promise.reject (message : String) : Promise → Promise
  | .pending => .rejected message
  | p => p

/-- The closure of one `startSession` call that passed validation: its arguments, the local
variables `client`, `stream`, `connectionEstablished`, whether the timer `timeoutId` is still
armed, how many `client.shell` callbacks are outstanding, and the promise. -/
structure StartCall where
  sessionId : String
  username : String
  password : String
  rows : Int
  cols : Int
  client : Nat
  stream : Option Nat
  connectionEstablished : Bool
  timeoutArmed : Bool
  shellRequests : Nat
  promise : Promise
  deriving DecidableEq

/-- What the synchronous part of `startSession` leaves behind. -/
inductive StartResult where
  | invalid (message : String)
  | started (call : StartCall)
  deriving DecidableEq

/-- The promise of a `startSession` call after its synchronous part. -/
def StartResult.promise : StartResult → Promise
  | .invalid message => .rejected message
  | .started call => call.promise

/-- The synchronous part of `startSession` (lines 44-71 and 116-133): validation, then the
client is created, the timer is armed and `client.connect` is called.  `newClient` is the handle
of the client that `new Client()` creates, `connectThrows` the message of the error thrown by
`client.connect`, if it throws. -/
def startSession (newClient : Nat) (connectThrows : Option String)
    (sessionId username password : JsVal) (rows cols : Option Int)
    (svc : TerminalService) : StartResult × TerminalService :=
  let rows := rows.getD 24
  let cols := cols.getD 80
  if !sessionId.truthy || !sessionId.isString then
    (.invalid "Invalid session ID", svc)
  else if !username.truthy || !username.isString || !password.truthy || !password.isString then
    (.invalid "Invalid credentials", svc)
  else if invalidDimensions (some rows) (some cols) then
    (.invalid "Invalid terminal dimensions", svc)
  else
    let call : StartCall :=
      { sessionId := sessionId.asString
        username := username.asString
        password := password.asString
        rows := rows
        cols := cols
        client := newClient
        stream := none
        connectionEstablished := false
        timeoutArmed := true
        shellRequests := 0
        promise := .pending }
    let svc1 := svc.emit (.clientConnect newClient call.username call.password)
    match connectThrows with
    | none => (.started call, svc1)
    | some msg =>
      (.started { call with timeoutArmed := false, promise := call.promise.reject msg },
        svc1.emit (.log .error
          ("SSH connection error for session " ++ call.sessionId ++ ":") (some msg)))

/-- What can happen to a pending `startSession` call: the client emits `ready` or `error`, the
callback given to `client.shell` is invoked with `(err, shellStream)`, or the timer fires. -/
inductive StartEvent where
  | ready
  | shell (err : Option String) (shellStream : Option Nat)
  | error (message : String)
  | timeout
  deriving DecidableEq

/-- The timer callback (lines 65-71); a timer that was cleared or has fired does not fire. -/
def onTimeout (call : StartCall) (svc : TerminalService) : StartCall × TerminalService :=
  if call.timeoutArmed then
    let call1 := { call with timeoutArmed := false }
    if !call1.connectionEstablished then
      let svc1 := match call1.stream with
        | some h => svc.emit (.streamEnd h)
        | none => svc
      ({ call1 with promise := call1.promise.reject "SSH connection timeout" },
        svc1.emit (.clientEnd call1.client))
    else (call1, svc)
  else (call, svc)

/-- The `ready` listener up to the call of `client.shell` (lines 73-78). -/
def onReady (call : StartCall) (svc : TerminalService) : StartCall × TerminalService :=
  ({ call with connectionEstablished := true, shellRequests := call.shellRequests + 1 },
    (svc.emit (.log .debug ("SSH ready for session " ++ call.sessionId) none)).emit
      (.clientShell call.client call.rows call.cols))

/-- The callback given to `client.shell` (lines 78-103); it runs once per `client.shell`
call. -/
def onShell (now : Int) (err : Option String) (shellStream : Option Nat)
    (call : StartCall) (svc : TerminalService) : StartCall × TerminalService :=
  match call.shellRequests with
  | 0 => (call, svc)
  | n + 1 =>
    let call1 := { call with shellRequests := n }
    match err with
    | some msg =>
      ({ call1 with timeoutArmed := false, promise := call1.promise.reject msg },
        (svc.emit (.clientEnd call1.client)).emit
          (.log .error ("Failed to open shell for session " ++ call1.sessionId ++ ":")
            (some msg)))
    | none =>
      let session : Session :=
        { client := some call1.client
          stream := shellStream
          username := call1.username
          createdAt := now
          lastActivityAt := now
          rows := some call1.rows
          cols := some call1.cols
          buffer := [] }
      let svc1 := { svc with sessions := mapSet svc.sessions call1.sessionId session }
      ({ call1 with
          stream := shellStream, timeoutArmed := false, promise := call1.promise.resolve },
        svc1.emit (.log .info
          ("Terminal session started: " ++ call1.sessionId ++ " for user " ++ call1.username)
          none))

/-- The `error` listener (lines 106-114). -/
def onError (message : String) (call : StartCall) (svc : TerminalService) :
    StartCall × TerminalService :=
  ({ call with timeoutArmed := false, promise := call.promise.reject message },
    if call.connectionEstablished then
      svc.emit (.log .warn
        ("SSH error for session " ++ call.sessionId ++ ": " ++ message) none)
    else
      svc.emit (.log .error
        ("SSH connection error for session " ++ call.sessionId ++ ":") (some message)))

/-- One event delivered to a `startSession` call at time `now`. -/
def startStep (st : StartCall × TerminalService) (ev : Int × StartEvent) :
    StartCall × TerminalService :=
  match ev.2 with
  | .ready => onReady st.1 st.2
  | .shell err shellStream => onShell ev.1 err shellStream st.1 st.2
  | .error message => onError message st.1 st.2
  | .timeout => onTimeout st.1 st.2

/-- A sequence of timed events delivered to a `startSession` call, in order. -/
def runStart (st : StartCall × TerminalService) (evs : List (Int × StartEvent)) :
    StartCall × TerminalService :=
  evs.foldl startStep st

/-! ## The terminal:start handler of server.js -/

/-- Events emitted to the browser with `socket.emit`. -/
inductive ClientEvent where
  | terminalError (error : String)
  | terminalReady (sessionId : String)
  | terminalOutput (data : String)
  | terminalClosed
  deriving DecidableEq

/-- How a value prints inside a template literal. -/
def JsVal.render : JsVal → String
  | .undefined => "undefined"
  | .null => "null"
  | .bool b => if b then "true" else "false"
  | .num n => toString n
  | .str s => s

/-- A socket: its `id` and `socket.request.session?.user`, given by the `username` of that
object when it exists. -/
structure Socket where
  id : String
  user : Option JsVal

/-- The payload of `terminal:start`. -/
structure StartPayload where
  rows : Option Int
  cols : Option Int
  username : JsVal
  password : JsVal

/-- A run of the `terminal:start` handler (lines 490-545): the service, the events emitted to
the browser, the number of `startSession` calls made, the closure of a call that passed
validation, whether the handler is suspended at `await`, and the stream on which the `data`,
`close` and `error` listeners were attached. -/
structure HandlerRun where
  service : TerminalService
  emitted : List ClientEvent
  startCalls : Nat
  call : Option StartCall
  awaiting : Bool
  listening : Option Nat

/-- The handler stops after emitting one `terminal:error` (lines 496, 503, 509, 543). -/
def HandlerRun.fail (svc : TerminalService) (startCalls : Nat) (call : Option StartCall)
    (error : String) : HandlerRun :=
  { service := svc
    emitted := [.terminalError error]
    startCalls := startCalls
    call := call
    awaiting := false
    listening := none }

/-- The handler resumes after `await` once the promise is settled (lines 518-544). -/
def afterAwait (run : HandlerRun) : HandlerRun :=
  match run.awaiting, run.call with
  | true, some call =>
    match call.promise with
    | .pending => run
    | .rejected message =>
      { run with
        awaiting := false
        emitted := run.emitted ++ [.terminalError message]
        service := run.service.emit (.log .error "Terminal start error:" (some message)) }
    | .resolved =>
      { run with
        awaiting := false
        listening := getStream run.service call.sessionId
        emitted := run.emitted ++ [.terminalReady call.sessionId]
        service := run.service.emit (.log .info
          ("Terminal session started: " ++ call.sessionId ++ " for user " ++ call.username)
          none) }
  | _, _ => run

/-- The `terminal:start` handler up to its `await` (lines 490-516), continued when
`startSession` has already settled the promise. -/
def terminalStart (newClient : Nat) (connectThrows : Option String) (socket : Socket)
    (data : StartPayload) (svc : TerminalService) : HandlerRun :=
  match socket.user with
  | none => HandlerRun.fail svc 0 none "Not authenticated"
  | some sessionUsername =>
    if data.username ≠ sessionUsername then
      HandlerRun.fail
        (svc.emit (.log .warn
          ("Terminal: Username mismatch for " ++ sessionUsername.render) none))
        0 none "Invalid username"
    else if !data.username.truthy || !data.password.truthy then
      HandlerRun.fail svc 0 none "Credentials required"
    else
      match startSession newClient connectThrows (.str ("term-" ++ socket.id))
          data.username data.password data.rows data.cols svc with
      | (.invalid message, svc1) =>
        HandlerRun.fail
          (svc1.emit (.log .error "Terminal start error:" (some message))) 1 none message
      | (.started call, svc1) =>
        afterAwait
          { service := svc1
            emitted := []
            startCalls := 1
            call := some call
            awaiting := true
            listening := none }

/-- One event of the pending `startSession` call reaches the run, after which the handler
resumes if the promise got settled. -/
def handlerStep (run : HandlerRun) (ev : Int × StartEvent) : HandlerRun :=
  match run.call with
  | none => run
  | some call =>
    let st := startStep (call, run.service) ev
    afterAwait { run with call := some st.1, service := st.2 }

/-- The `terminal:start` handler followed by the events of its `startSession` call. -/
def terminalStartRun (newClient : Nat) (connectThrows : Option String) (socket : Socket)
    (data : StartPayload) (evs : List (Int × StartEvent)) (svc : TerminalService) :
    HandlerRun :=
  evs.foldl handlerStep (terminalStart newClient connectThrows socket data svc)

/-! ## The other terminal handlers and the stream listeners of server.js -/

/-- The session id that every terminal handler derives from its socket (lines 513, 549, 566,
580 and 610). -/
def Socket.sessionId (socket : Socket) : String := "term-" ++ socket.id

/-- The `terminal:input` handler (lines 547-562): the events it emits and the service
afterwards.  `sendInput` catches what `write` throws, so the `catch` of the handler is not
reached. -/
def terminalInput (env : Env) (now : Int) (socket : Socket) (input : String)
    (svc : TerminalService) : List ClientEvent × TerminalService :=
  if !hasSession svc socket.sessionId then
    ([.terminalError "Terminal session not active"], svc)
  else
    ([], (sendInput env now socket.sessionId input svc).2)

/-- The `terminal:resize` handler (lines 564-577). -/
def terminalResize (env : Env) (now : Int) (socket : Socket) (rows cols : Option Int)
    (svc : TerminalService) : List ClientEvent × TerminalService :=
  if !hasSession svc socket.sessionId then
    ([], svc)
  else
    ([], (resizeTerminal env now socket.sessionId rows cols svc).2)

/-- The `terminal:close` handler (lines 579-582). -/
def terminalClose (env : Env) (socket : Socket) (svc : TerminalService) : TerminalService :=
  closeSession env socket.sessionId svc

/-- The terminal part of the `disconnect` handler (lines 609-615). -/
def socketDisconnect (env : Env) (socket : Socket) (svc : TerminalService) :
    TerminalService :=
  let svc1 := if hasSession svc socket.sessionId then closeSession env socket.sessionId svc
    else svc
  svc1.emit (.log .info ("Client disconnected: " ++ socket.id) none)

/-- The `data` listener (lines 521-524); a chunk is given by its `toString('utf8')`.  It runs
when the stream on which the handler attached its listeners emits `data`. -/
def onStreamData (stream : Nat) (chunk : String) (run : HandlerRun) : HandlerRun :=
  if run.listening = some stream then
    { run with emitted := run.emitted ++ [.terminalOutput chunk] }
  else run

/-- The `close` listener (lines 526-530). -/
def onStreamClose (env : Env) (socket : Socket) (stream : Nat) (run : HandlerRun) :
    HandlerRun :=
  if run.listening = some stream then
    { run with
      service := closeSession env socket.sessionId run.service
      emitted := run.emitted ++ [.terminalClosed] }
  else run

/-- The `error` listener (lines 532-536). -/
def onStreamError (socket : Socket) (stream : Nat) (message : String) (run : HandlerRun) :
    HandlerRun :=
  if run.listening = some stream then
    { run with
      service := run.service.emit
        (.log .error ("Terminal stream error for " ++ socket.sessionId ++ ":") (some message))
      emitted := run.emitted ++ [.terminalError message] }
  else run

/-- What can happen on a socket once its `terminal:start` handler has run: an event of the
pending `startSession` call, a command of the client, the disconnect of the socket, a tick of
the idle reaper, or an event of a shell stream. -/
inductive SocketEvent where
  | start (ev : StartEvent)
  | input (data : String)
  | resize (rows cols : Option Int)
  | close
  | disconnect
  | sweep
  | streamData (stream : Nat) (chunk : String)
  | streamClose (stream : Nat)
  | streamError (stream : Nat) (message : String)
  deriving DecidableEq

/-- One event on the socket at time `ev.1`. -/
def socketStep (env : Env) (socket : Socket) (run : HandlerRun) (ev : Int × SocketEvent) :
    HandlerRun :=
  match ev.2 with
  | .start e => handlerStep run (ev.1, e)
  | .input data =>
    { run with
      emitted := run.emitted ++ (terminalInput env ev.1 socket data run.service).1
      service := (terminalInput env ev.1 socket data run.service).2 }
  | .resize rows cols =>
    { run with
      emitted := run.emitted ++ (terminalResize env ev.1 socket rows cols run.service).1
      service := (terminalResize env ev.1 socket rows cols run.service).2 }
  | .close => { run with service := terminalClose env socket run.service }
  | .disconnect => { run with service := socketDisconnect env socket run.service }
  | .sweep => { run with service := _cleanupIdleSessions env ev.1 run.service }
  | .streamData stream chunk => onStreamData stream chunk run
  | .streamClose stream => onStreamClose env socket stream run
  | .streamError stream message => onStreamError socket stream message run

/-- A sequence of timed events on the socket, in order. -/
def socketRun (env : Env) (socket : Socket) (run : HandlerRun)
    (evs : List (Int × SocketEvent)) : HandlerRun :=
  evs.foldl (socketStep env socket) run

/-! ## The service as a whole -/

/-- The service together with the closures of the `startSession` calls made so far. -/
structure Broker where
  service : TerminalService
  calls : List StartCall

/-- The operations of the service, with the arguments and the time of each call; `startEvent`
delivers an event to the closure of the `startSession` call number `index`. -/
inductive Op where
  | startSession (newClient : Nat) (connectThrows : Option String)
      (sessionId username password : JsVal) (rows cols : Option Int)
  | startEvent (index : Nat) (now : Int) (ev : StartEvent)
  | sendInput (now : Int) (sessionId data : String)
  | resizeTerminal (now : Int) (sessionId : String) (rows cols : Option Int)
  | closeSession (sessionId : String)
  | idleSweep (now : Int)
  | cleanup

/-- One operation, in an environment that decides which collaborator calls throw. -/
def Broker.step (b : Broker) (op : Env × Op) : Broker :=
  match op.2 with
  | .startSession newClient connectThrows sessionId username password rows cols =>
    match startSession newClient connectThrows sessionId username password rows cols
        b.service with
    | (.invalid _, svc) => { b with service := svc }
    | (.started call, svc) => { service := svc, calls := b.calls ++ [call] }
  | .startEvent index now ev =>
    match b.calls[index]? with
    | none => b
    | some call =>
      { service := (startStep (call, b.service) (now, ev)).2
        calls := b.calls.set index (startStep (call, b.service) (now, ev)).1 }
  | .sendInput now sessionId data =>
    { b with service := (sendInput op.1 now sessionId data b.service).2 }
  | .resizeTerminal now sessionId rows cols =>
    { b with service := (resizeTerminal op.1 now sessionId rows cols b.service).2 }
  | .closeSession sessionId => { b with service := closeSession op.1 sessionId b.service }
  | .idleSweep now => { b with service := _cleanupIdleSessions op.1 now b.service }
  | .cleanup => { b with service := cleanup op.1 b.service }

/-- The state reached from a fresh service by a sequence of operations. -/
def Broker.run (timer : Nat) (ops : List (Env × Op)) : Broker :=
  ops.foldl Broker.step { service := TerminalService.new timer, calls := [] }

/-! ## Auxiliary definitions used to state the theorems -/

/-- A session as `startSession` stores it: client 1, stream 2, opened at time 0. -/
def sampleSession : Session :=
  { client := some 1
    stream := some 2
    username := "alice"
    createdAt := 0
    lastActivityAt := 0
    rows := some 24
    cols := some 80
    buffer := [] }

/-- A fresh service in which `term-a` is registered with `sampleSession`. -/
def sampleService : TerminalService :=
  { TerminalService.new 0 with sessions := [some ("term-a", sampleSession)] }

/-- The effects of `closeSession` on a registered session, in order. -/
def closeEffects (env : Env) (sessionId : String) (session : Session) : List Effect :=
  (match session.stream with
    | none => []
    | some h =>
      match env.streamEnd h with
      | none => [Effect.streamEnd h]
      | some msg =>
        [Effect.streamEnd h,
          Effect.log .debug ("Error ending stream for " ++ sessionId ++ ":") (some msg)])
  ++ (match session.client with
    | none => []
    | some c =>
      match env.clientEnd c with
      | none => [Effect.clientEnd c]
      | some msg =>
        [Effect.clientEnd c,
          Effect.log .debug ("Error ending client for " ++ sessionId ++ ":") (some msg)])
  ++ [Effect.log .info ("Terminal session closed: " ++ sessionId) none]

/-- What one loop step leaves in the record it visits: the record itself when the session is
kept, an emptied record when it is closed. -/
def sweepRecord (keep : String → Session → Bool) :
    Option (String × Session) → Option (String × Session)
  | none => none
  | some (k, v) => if keep k v then some (k, v) else none

/-- The effects of the loop steps over the live records of `m`, in order. -/
def loopEffects (eff : String → Session → List Effect) : MapData → List Effect
  | [] => []
  | none :: rest => loopEffects eff rest
  | some (k, v) :: rest => eff k v ++ loopEffects eff rest

/-- The effects of one step of the idle sweep on a live record. -/
def idleEffects (env : Env) (now T : Int) (sessionId : String) (session : Session) :
    List Effect :=
  if now - session.lastActivityAt > T then
    Effect.log .info
        ("Closing idle session: " ++ sessionId ++ " (idle for "
          ++ toString ((now - session.lastActivityAt + 500) / 1000) ++ "s)") none
      :: closeEffects env sessionId session
  else []

/-- A service with three sessions, last active at times 0, 100000 and 200000. -/
def threeSessions : TerminalService :=
  { TerminalService.new 0 with
    sessions :=
      [some ("term-a", sampleSession),
       some ("term-b", { sampleSession with client := some 3, stream := some 4,
                                            lastActivityAt := 100000 }),
       some ("term-c", { sampleSession with client := some 5, stream := some 6,
                                            lastActivityAt := 200000 })] }

/-- A shell callback that reports success: `err` is absent. -/
def StartEvent.opensShell : StartEvent → Bool
  | .shell none _ => true
  | _ => false

/-- A whole `startSession` call: the synchronous part, then the events `evs` in order.  The
result is the state of the returned promise and the service. -/
def startSessionRun (newClient : Nat) (connectThrows : Option String)
    (sessionId username password : JsVal) (rows cols : Option Int)
    (evs : List (Int × StartEvent)) (svc : TerminalService) : Promise × TerminalService :=
  match startSession newClient connectThrows sessionId username password rows cols svc with
  | (.invalid message, svc1) => (.rejected message, svc1)
  | (.started call, svc1) =>
    ((runStart (call, svc1) evs).1.promise, (runStart (call, svc1) evs).2)

/-- While the handler is suspended at `await` it has emitted nothing and the promise of its
`startSession` call is pending. -/
def HandlerRun.Suspended (run : HandlerRun) : Prop :=
  run.awaiting = true →
    run.emitted = [] ∧ ∃ call, run.call = some call ∧ call.promise = .pending

/-- An environment in which every `write` and every `setWindow` throws. -/
def Env.brokenStream : Env :=
  { streamWrite := fun _ _ => some "write after end"
    streamSetWindow := fun _ _ _ => some "Not connected"
    streamEnd := fun _ => none
    clientEnd := fun _ => none }

/-- The chunks carried by the `terminal:output` events of a list of emitted events, in
order. -/
def outputsOf : List ClientEvent → List String
  | [] => []
  | .terminalOutput data :: rest => data :: outputsOf rest
  | _ :: rest => outputsOf rest

/-- The chunks of the `data` events that the stream `listening` emits in `evs`, in order. -/
def chunksOf (listening : Option Nat) : List (Int × SocketEvent) → List String
  | [] => []
  | (_, .streamData stream chunk) :: rest =>
    if listening = some stream then chunk :: chunksOf listening rest
    else chunksOf listening rest
  | _ :: rest => chunksOf listening rest

/-- The number of `terminal:closed` events in a list of emitted events. -/
def closedCount : List ClientEvent → Nat
  | [] => 0
  | .terminalClosed :: rest => closedCount rest + 1
  | _ :: rest => closedCount rest

/-- The number of `close` events that the stream `listening` emits in `evs`. -/
def streamCloses (listening : Option Nat) : List (Int × SocketEvent) → Nat
  | [] => 0
  | (_, .streamClose stream) :: rest =>
    if listening = some stream then streamCloses listening rest + 1
    else streamCloses listening rest
  | _ :: rest => streamCloses listening rest

/-- The run of socket `a` after its `terminal:start` was accepted by the remote host: the
session `term-a` is registered with client 3 and stream 4, and the listeners are on stream
4. -/
def establishedRun : HandlerRun :=
  terminalStartRun 3 none { id := "a", user := some (.str "alice") }
    { rows := some 24, cols := some 80, username := .str "alice", password := .str "pw" }
    [(5, .ready), (6, .shell none (some 4))] (TerminalService.new 0)

/-- The run of socket `a` right after its `terminal:start` handler called `startSession`: the
client is connecting and the handler waits. -/
def connectingRun : HandlerRun :=
  terminalStart 3 none { id := "a", user := some (.str "alice") }
    { rows := some 24, cols := some 80, username := .str "alice", password := .str "pw" }
    (TerminalService.new 0)

/-- Every registered session has integer dimensions that pass the dimension test. -/
def SessionsOk (svc : TerminalService) : Prop :=
  ∀ e ∈ mapEntries svc.sessions, ∃ rows cols : Int,
    e.2.rows = some rows ∧ e.2.cols = some cols ∧
      invalidDimensions (some rows) (some cols) = false

/-- The registered sessions and the closures of the pending starts all have dimensions that
pass the dimension test. -/
def Broker.Ok (b : Broker) : Prop :=
  SessionsOk b.service ∧
    ∀ c ∈ b.calls, invalidDimensions (some c.rows) (some c.cols) = false

/-- A short life of the service: a start that the remote host accepts, a resize that is
applied, a resize that is refused, and an input. -/
def sampleOps : List (Env × Op) :=
  [(Env.quiet, .startSession 3 none (.str "term-a") (.str "alice") (.str "pw") (some 24)
      (some 80)),
   (Env.quiet, .startEvent 0 5 .ready),
   (Env.quiet, .startEvent 0 6 (.shell none (some 4))),
   (Env.quiet, .resizeTerminal 7 "term-a" (some 30) (some 100)),
   (Env.quiet, .resizeTerminal 8 "term-a" (some 3) (some 80)),
   (Env.quiet, .sendInput 9 "term-a" "ls\n")]

/-- The `rows` and `cols` arguments of the operation are integers; `startSession` may also
leave them out, in which case its defaults apply. -/
def Op.integerDimensions : Op → Bool
  | .resizeTerminal _ _ rows cols => rows.isSome && cols.isSome
  | _ => true

/-- A start that the remote host accepts, followed by a resize whose payload carries neither
rows nor cols. -/
def undefinedResizeOps : List (Env × Op) :=
  [(Env.quiet, .startSession 3 none (.str "term-a") (.str "alice") (.str "pw") (some 24)
      (some 80)),
   (Env.quiet, .startEvent 0 5 .ready),
   (Env.quiet, .startEvent 0 6 (.shell none (some 4))),
   (Env.quiet, .resizeTerminal 7 "term-a" none none)]

/-- An environment in which every `end()` call throws. -/
def Env.brokenEnd : Env :=
  { streamWrite := fun _ _ => none
    streamSetWindow := fun _ _ _ => none
    streamEnd := fun _ => some "Channel already closed"
    clientEnd := fun _ => some "Not connected" }

/-- A service whose only session was created long ago and was active a moment ago. -/
def oldButActive : TerminalService :=
  { TerminalService.new 0 with
    sessions :=
      [some ("term-a", { sampleSession with createdAt := 0, lastActivityAt := 9999000 })] }

/-! ## The rate limiter (services/rate-limiter.js) -/

/-- The `[[MapData]]` list of `this.attempts`, a `Map` from an ip to its array of timestamps;
`none` is a record emptied by `delete`. -/
abbrev AttemptsData := List (Option (String × List Int))

/-- The method `Map.prototype.get` of `this.attempts`; `none` is `undefined`. -/
def attemptsGet : AttemptsData → String → Option (List Int)
  | [], _ => none
  | none :: rest, k => attemptsGet rest k
  | some (k', v) :: rest, k => if k' = k then some v else attemptsGet rest k

/-- The method `Map.prototype.has` of `this.attempts`. -/
def attemptsHas (m : AttemptsData) (k : String) : Bool := (attemptsGet m k).isSome

/-- The method `Map.prototype.set` of `this.attempts`. -/
def attemptsSet : AttemptsData → String → List Int → AttemptsData
  | [], k, v => [some (k, v)]
  | none :: rest, k, v => none :: attemptsSet rest k v
  | some (k', v') :: rest, k, v =>
    if k' = k then some (k, v) :: rest else some (k', v') :: attemptsSet rest k v

/-- The method `Map.prototype.delete` of `this.attempts`. -/
def attemptsDelete : AttemptsData → String → AttemptsData
  | [], _ => []
  | none :: rest, k => none :: attemptsDelete rest k
  | some (k', v') :: rest, k =>
    if k' = k then none :: rest else some (k', v') :: attemptsDelete rest k

/-- The live records of `this.attempts`, in insertion order. -/
def attemptsEntries (m : AttemptsData) : List (String × List Int) := m.filterMap id

/-- The ips that have a live record. -/
def attemptsKeys (m : AttemptsData) : List String := (attemptsEntries m).map Prod.fst

/-- A `Map` holds each key in at most one live record. -/
def AttemptsWF (m : AttemptsData) : Prop := (attemptsKeys m).Nodup

instance (m : AttemptsData) : Decidable (AttemptsWF m) := by unfold AttemptsWF; infer_instance

/-- The fields of a `RateLimiter` instance. -/
structure RateLimiter where
  maxAttempts : Int
  windowMs : Int
  attempts : AttemptsData
  deriving DecidableEq

/-- The constructor (lines 6-10); an argument that is not given takes its default. -/
def RateLimiter.new (maxAttempts windowMs : Option Int) : RateLimiter :=
  { maxAttempts := maxAttempts.getD 5
    windowMs := windowMs.getD 60000
    attempts := [] }

/-- The filter `timestamps.filter(ts => now - ts < this.windowMs)` (lines 28, 52, 70). -/
def validTimestamps (windowMs now : Int) (timestamps : List Int) : List Int :=
  timestamps.filter (fun ts => decide (now - ts < windowMs))

/-- Lines 21-23 of `isAllowed`: a key without a record gets an empty array. -/
def ensureRecord (m : AttemptsData) (ip : String) : AttemptsData :=
  if !attemptsHas m ip then attemptsSet m ip [] else m

/-- The method `isAllowed` (lines 17-38) called at time `now`.  After lines 21-23 the key is
present, so `get` returns an array. -/
def RateLimiter.isAllowed (now : Int) (ip : String) (rl : RateLimiter) : Bool × RateLimiter :=
  let attempts1 := ensureRecord rl.attempts ip
  let timestamps := (attemptsGet attempts1 ip).getD []
  let valid := validTimestamps rl.windowMs now timestamps
  if (valid.length : Int) ≥ rl.maxAttempts then
    (false, { rl with attempts := attempts1 })
  else
    (true, { rl with attempts := attemptsSet attempts1 ip (valid ++ [now]) })

/-- The method `getRemaining` (lines 45-54) called at time `now`. -/
def RateLimiter.getRemaining (now : Int) (ip : String) (rl : RateLimiter) : Int :=
  if !attemptsHas rl.attempts ip then rl.maxAttempts
  else
    max 0 (rl.maxAttempts
      - ((validTimestamps rl.windowMs now ((attemptsGet rl.attempts ip).getD [])).length : Int))

/-- The method `reset` (lines 60-62). -/
def RateLimiter.reset (ip : String) (rl : RateLimiter) : RateLimiter :=
  { rl with attempts := attemptsDelete rl.attempts ip }

/-- The loop `for (const [ip, timestamps] of this.attempts.entries()) body`, with the Map
iterator of ECMA-262 as in `forOfSessions`. -/
def forOfAttempts (body : String → List Int → RateLimiter → RateLimiter) :
    Nat → Nat → RateLimiter → RateLimiter
  | 0, _, rl => rl
  | fuel + 1, index, rl =>
    match rl.attempts[index]? with
    | none => rl
    | some none => forOfAttempts body fuel (index + 1) rl
    | some (some (ip, timestamps)) =>
      forOfAttempts body fuel (index + 1) (body ip timestamps rl)

/-- The body of the loop of `cleanup` (lines 70-75). -/
def cleanupBody (now : Int) (ip : String) (timestamps : List Int) (rl : RateLimiter) :
    RateLimiter :=
  let valid := validTimestamps rl.windowMs now timestamps
  if valid.length = 0 then { rl with attempts := attemptsDelete rl.attempts ip }
  else { rl with attempts := attemptsSet rl.attempts ip valid }

/-- The method `cleanup` (lines 67-77) called at time `now`.  The body never appends a
record, because it only sets the key it visits, so one step per record is enough fuel. -/
def RateLimiter.cleanup (now : Int) (rl : RateLimiter) : RateLimiter :=
  forOfAttempts (cleanupBody now) rl.attempts.length 0 rl

/-- The timestamps recorded for an ip; an ip without a record has none. -/
def RateLimiter.recorded (rl : RateLimiter) (ip : String) : List Int :=
  (attemptsGet rl.attempts ip).getD []

/-- A limiter with the defaults (5 attempts per 60,000 ms) in which `10.0.0.1` has attempts
recorded at times 0, 50000 and 70000, and `10.0.0.2` one at time 1000. -/
def sampleLimiter : RateLimiter :=
  { RateLimiter.new none none with
    attempts := [some ("10.0.0.1", [0, 50000, 70000]), some ("10.0.0.2", [1000])] }

/-- What one step of the loop of `cleanup` leaves in the record it visits: the timestamps that
are not expired, or an emptied record when none is left. -/
def cleanRecord (windowMs now : Int) :
    Option (String × List Int) → Option (String × List Int)
  | none => none
  | some (ip, timestamps) =>
    if (validTimestamps windowMs now timestamps).length = 0 then none
    else some (ip, validTimestamps windowMs now timestamps)

/-- A limiter configured with a negative number of attempts, holding one expired attempt. -/
def negativeLimiter : RateLimiter :=
  { maxAttempts := -1, windowMs := 60000, attempts := [some ("10.0.0.1", [0])] }

/-- The calls made on the limiter by the login route and the periodic timer of server.js. -/
inductive LimiterOp where
  | isAllowed (ip : String)
  | getRemaining (ip : String)
  | cleanup
  deriving DecidableEq

/-- One call on the limiter at time `op.1`. -/
def RateLimiter.step (rl : RateLimiter) (op : Int × LimiterOp) : RateLimiter :=
  match op.2 with
  | .isAllowed ip => (rl.isAllowed op.1 ip).2
  | .getRemaining _ => rl
  | .cleanup => rl.cleanup op.1

/-- The state after a sequence of timed calls. -/
def RateLimiter.run (rl : RateLimiter) (ops : List (Int × LimiterOp)) : RateLimiter :=
  ops.foldl RateLimiter.step rl

/-- The times of the calls `isAllowed(ip)` of `ops` that return true, in order, when `ops`
run from the state `rl`. -/
def RateLimiter.granted (ip : String) : RateLimiter → List (Int × LimiterOp) → List Int
  | _, [] => []
  | rl, op :: rest =>
    (if op.2 = .isAllowed ip ∧ (rl.isAllowed op.1 ip).1 = true then [op.1] else [])
      ++ RateLimiter.granted ip (rl.step op) rest

/-- Seven login attempts of `10.0.0.1` between times 0 and 61000, among calls for another ip,
a `getRemaining` and a `cleanup`. -/
def sampleLimiterOps : List (Int × LimiterOp) :=
  [(0, .isAllowed "10.0.0.1"), (10, .isAllowed "10.0.0.1"), (20, .isAllowed "10.0.0.2"),
   (20, .isAllowed "10.0.0.1"), (30, .getRemaining "10.0.0.1"), (40, .isAllowed "10.0.0.1"),
   (50, .isAllowed "10.0.0.1"), (60, .cleanup), (70, .isAllowed "10.0.0.1"),
   (61000, .isAllowed "10.0.0.1")]

/-! ## Credential validation (services/auth.service.js) -/

/-- The `length` of a JavaScript string: its number of UTF-16 code units. -/
def jsLength (s : String) : Nat :=
  (s.data.map (fun c => if c.toNat < 65536 then 1 else 2)).sum

/-- The characters of the class `[<>"...]` of the pattern tested at line 124. -/
def suspiciousChars : List Char := "<>\"`$()\x7b\x7d[]|;&".data

/-- The method `validateCredentials` (lines 103-128); `none` is `null`. -/
def validateCredentials (username password : JsVal) : Option String :=
  if !username.truthy || !username.isString then some "Username is required"
  else if !password.truthy || !password.isString then some "Password is required"
  else if decide (jsLength username.asString < 1) || decide (jsLength username.asString > 255)
    then some "Invalid username length"
  else if decide (jsLength password.asString < 1) || decide (jsLength password.asString > 1024)
    then some "Invalid password length"
  else if username.asString.data.contains '\n' || username.asString.data.contains '\r'
      || username.asString.data.contains (Char.ofNat 0) then
    some "Invalid username characters"
  else if password.asString.data.contains (Char.ofNat 0) then
    some "Invalid password characters"
  else if username.asString.data.any (fun c => suspiciousChars.contains c) then
    some "Invalid username characters"
  else none

/-- The characters that a valid username may not contain: newline, carriage return, NUL and
the fourteen punctuation characters of the pattern. -/
def forbiddenInUsername : List Char :=
  ['\n', '\r', Char.ofNat 0, '<', '>', '"', Char.ofNat 96, '$', '(', ')', Char.ofNat 123,
   Char.ofNat 125, '[', ']', '|', ';', '&']

/-! ## The firewall service -/

/-- A regular expression over characters; a character class is a list of inclusive ranges
of character codes. -/
inductive Rx where
  | empty
  | eps
  | cls (ranges : List (Nat × Nat))
  | seq (a b : Rx)
  | alt (a b : Rx)
  | star (a : Rx)
  deriving DecidableEq

/-- Membership of a character in a class. -/
def inRanges (ranges : List (Nat × Nat)) (c : Char) : Bool :=
  ranges.any (fun r => decide (r.1 ≤ c.toNat) && decide (c.toNat ≤ r.2))

/-- Whether the expression matches the empty string. -/
def Rx.nullable : Rx → Bool
  | .empty => false
  | .eps => true
  | .cls _ => false
  | .seq a b => a.nullable && b.nullable
  | .alt a b => a.nullable || b.nullable
  | .star _ => true

/-- The derivative of the expression by one character. -/
def Rx.deriv (c : Char) : Rx → Rx
  | .empty => .empty
  | .eps => .empty
  | .cls ranges => if inRanges ranges c then .eps else .empty
  | .seq a b =>
    if a.nullable then .alt (.seq (a.deriv c) b) (b.deriv c) else .seq (a.deriv c) b
  | .alt a b => .alt (a.deriv c) (b.deriv c)
  | .star a => .seq (a.deriv c) (.star a)

/-- The method `test` of an expression anchored at both ends: the whole string has to match. -/
def Rx.test : Rx → List Char → Bool
  | r, [] => r.nullable
  | r, c :: cs => Rx.test (r.deriv c) cs

/-- The quantifier `?`. -/
def Rx.opt (r : Rx) : Rx := .alt r .eps

/-- The quantifier `+`. -/
def Rx.plus (r : Rx) : Rx := .seq r (.star r)

/-- The class `\d`. -/
def rxDigit : Rx := .cls [(48, 57)]

/-- The pattern `\d{1,3}`. -/
def rxDigits13 : Rx := .seq rxDigit (Rx.opt (.seq rxDigit (Rx.opt rxDigit)))

/-- The pattern `\d{1,2}`. -/
def rxDigits12 : Rx := .seq rxDigit (Rx.opt rxDigit)

/-- The group `(\d{1,3}\.)`. -/
def rxOctetDot : Rx := .seq rxDigits13 (.cls [(46, 46)])

/-- The class `[a-zA-Z0-9\-\.]`. -/
def rxHostChar : Rx := .cls [(97, 122), (65, 90), (48, 57), (45, 45), (46, 46)]

/-- The expression of line 218:
`/^(\d{1,3}\.){3}\d{1,3}(\/\d{1,2})?$|^[a-zA-Z0-9\-\.]+$/`. -/
def ipCidrRegex : Rx :=
  .alt
    (.seq rxOctetDot (.seq rxOctetDot (.seq rxOctetDot
      (.seq rxDigits13 (Rx.opt (.seq (.cls [(47, 47)]) rxDigits12))))))
    (Rx.plus rxHostChar)

/-- Letters, digits, `.`, `-` and `/`. -/
def isSourceChar (c : Char) : Bool :=
  inRanges [(97, 122), (65, 90), (48, 57)] c || c == '.' || c == '-' || c == '/'

/-- White space and the characters that a shell treats specially. -/
def shellSpecial : List Char :=
  " \t\n\r;&|$<>()\x7b\x7d[]*?!~#'\"\\".data ++ [Char.ofNat 96, Char.ofNat 0]

deriving instance DecidableEq for Except

/-- What `execAsync(command)` does, given the commands run before it: it rejects with an
error that has this message, or resolves with this standard output. -/
structure Shell where
  run : List String → String → Except String String

/-- The fields of a `FirewallService`, the commands passed to `execAsync` so far and the calls
made on the logger. -/
structure FirewallService where
  firewallTool : Option String
  enabled : Bool
  executed : List String
  logs : List Effect
  deriving DecidableEq

/-- The constructor (lines 10-14): `enabled` is `config.enabled !== false`. -/
def FirewallService.new (enabled : JsVal) : FirewallService :=
  { firewallTool := none, enabled := decide (enabled ≠ .bool false), executed := [], logs := [] }

/-- The call `await execAsync(command)`. -/
def FirewallService.execAsync (sh : Shell) (command : String) (fw : FirewallService) :
    Except String String × FirewallService :=
  (sh.run fw.executed command, { fw with executed := fw.executed ++ [command] })

/-- A call `this.logger?.level(message, detail)`. -/
def FirewallService.log (level : LogLevel) (message : String) (detail : Option String)
    (fw : FirewallService) : FirewallService :=
  { fw with logs := fw.logs ++ [.log level message detail] }

/-- The test `if (this.firewallTool)`. -/
def toolTruthy : Option String → Bool
  | some tool => tool != ""
  | none => false

/-- The inner `try` block for ufw (lines 26-38): what it returns or throws. -/
def tryUfw (sh : Shell) (fw : FirewallService) : Except String String × FirewallService :=
  match fw.execAsync sh "which ufw > /dev/null 2>&1" with
  | (.error e, fw1) => (.error e, fw1)
  | (.ok _, fw1) =>
    match fw1.execAsync sh "sudo -n ufw status > /dev/null 2>&1" with
    | (.ok _, fw2) =>
      (.ok "ufw", FirewallService.log .info "Detected ufw firewall tool with sudo access" none
        { fw2 with firewallTool := some "ufw" })
    | (.error e, fw2) =>
      (.error "sudo access required", FirewallService.log .warn
        ("Detected ufw firewall tool but sudo access not configured: " ++ e) none
        { fw2 with firewallTool := some "ufw" })

/-- The inner `try` block for iptables (lines 42-54): what it returns or throws. -/
def tryIptables (sh : Shell) (fw : FirewallService) : Except String String × FirewallService :=
  match fw.execAsync sh "which iptables > /dev/null 2>&1" with
  | (.error e, fw1) => (.error e, fw1)
  | (.ok _, fw1) =>
    match fw1.execAsync sh "sudo -n iptables -L > /dev/null 2>&1" with
    | (.ok _, fw2) =>
      (.ok "iptables", FirewallService.log .info
        "Detected iptables firewall tool with sudo access" none
        { fw2 with firewallTool := some "iptables" })
    | (.error e, fw2) =>
      (.error "sudo access required", FirewallService.log .warn
        ("Detected iptables firewall tool but sudo access not configured: " ++ e) none
        { fw2 with firewallTool := some "iptables" })

/-- The method `_detectFirewallTool` (lines 20-64).  Whatever the ufw block throws is caught by
`catch (ufwError)`, whose body tries iptables; whatever the iptables block throws is caught by
`catch (iptablesError)`, which throws the error of line 58; the outermost `catch` rethrows. -/
def _detectFirewallTool (sh : Shell) (fw : FirewallService) :
    Except String String × FirewallService :=
  if toolTruthy fw.firewallTool then (.ok (fw.firewallTool.getD ""), fw)
  else
    match tryUfw sh fw with
    | (.ok tool, fw1) => (.ok tool, fw1)
    | (.error _, fw1) =>
      match tryIptables sh fw1 with
      | (.ok tool, fw2) => (.ok tool, fw2)
      | (.error _, fw2) =>
        (.error "No supported firewall tool found (ufw or iptables)",
          fw2.log .error "No firewall tools found on system" none)

/-- The argument of `addRule`; the port is a number with an integer value. -/
structure Rule where
  action : JsVal
  protocol : JsVal
  port : Int
  source : JsVal
  deriving DecidableEq

/-- The binding `source = 'any'` of the destructuring in line 202: the default applies to
`undefined` only. -/
def ruleSource (rule : Rule) : JsVal :=
  if rule.source = .undefined then .str "any" else rule.source

/-- The guard `source && source !== 'any'` (lines 216, 229 and 237). -/
def sourceGiven (source : JsVal) : Bool :=
  source.truthy && decide (source ≠ .str "any")

/-- The validation of lines 205-222: the message of the error thrown, if any. -/
def validateRule (rule : Rule) : Except String Unit :=
  if !rule.action.truthy || !([JsVal.str "allow", JsVal.str "deny"].contains rule.action) then
    .error "Invalid action. Must be \"allow\" or \"deny\""
  else if !rule.protocol.truthy
      || !([JsVal.str "tcp", JsVal.str "udp"].contains rule.protocol) then
    .error "Invalid protocol. Must be \"tcp\" or \"udp\""
  else if rule.port == 0 || decide (rule.port < 1) || decide (rule.port > 65535) then
    .error "Invalid port. Must be between 1 and 65535"
  else if sourceGiven (ruleSource rule)
      && !(ipCidrRegex.test (ruleSource rule).render.data) then
    .error "Invalid source IP or CIDR notation"
  else .ok ()

/-- The command assembled in lines 226-240. -/
def buildCommand (tool : String) (rule : Rule) : String :=
  if tool = "ufw" then
    "sudo ufw " ++ rule.action.render ++ " " ++ rule.protocol.render ++ "/"
      ++ toString rule.port
      ++ (if sourceGiven (ruleSource rule) then " from " ++ (ruleSource rule).render else "")
  else
    "sudo iptables -I INPUT -p " ++ rule.protocol.render ++ " --dport " ++ toString rule.port
      ++ " -j " ++ (if rule.action = .str "allow" then "ACCEPT" else "DROP")
      ++ (if sourceGiven (ruleSource rule) then " -s " ++ (ruleSource rule).render else "")

/-- The `try` block of `addRule` (lines 202-244). -/
def addRuleBody (sh : Shell) (rule : Rule) (fw : FirewallService) :
    Except String Unit × FirewallService :=
  match validateRule rule with
  | .error e => (.error e, fw)
  | .ok _ =>
    match _detectFirewallTool sh fw with
    | (.error e, fw1) => (.error e, fw1)
    | (.ok tool, fw1) =>
      match fw1.execAsync sh (buildCommand tool rule) with
      | (.error e, fw2) => (.error e, fw2)
      | (.ok _, fw2) =>
        (.ok (), fw2.log .info ("Added firewall rule: " ++ rule.action.render ++ " "
          ++ rule.protocol.render ++ "/" ++ toString rule.port) none)

/-- The method `addRule` (lines 196-249): `ok` is the object with `success: true`, `error` is
the message of the error thrown. -/
def addRule (sh : Shell) (rule : Rule) (fw : FirewallService) :
    Except String Unit × FirewallService :=
  if !fw.enabled then (.error "Firewall management is disabled", fw)
  else
    match addRuleBody sh rule fw with
    | (.ok r, fw1) => (.ok r, fw1)
    | (.error e, fw1) =>
      (.error ("Failed to add firewall rule: " ++ e),
        fw1.log .error "Error adding firewall rule:" (some e))

/-- The four commands with which `_detectFirewallTool` probes the system. -/
def probeCommands : List String :=
  ["which ufw > /dev/null 2>&1", "sudo -n ufw status > /dev/null 2>&1",
   "which iptables > /dev/null 2>&1", "sudo -n iptables -L > /dev/null 2>&1"]

/-- A system on which every command succeeds with empty output. -/
def Shell.permissive : Shell := { run := fun _ _ => .ok "" }

/-- A system with ufw installed whose passwordless sudo probe fails, and without iptables. -/
def Shell.ufwWithoutSudo : Shell :=
  { run := fun _ command =>
      if command = "which ufw > /dev/null 2>&1" then .ok ""
      else .error ("Command failed: " ++ command) }

/-- A system with ufw installed whose passwordless sudo probe fails, and with iptables
installed and usable through sudo. -/
def Shell.ufwWithoutSudoIptablesOk : Shell :=
  { run := fun _ command =>
      if command = "sudo -n ufw status > /dev/null 2>&1" then
        .error ("Command failed: " ++ command)
      else .ok "" }

/-- A system without ufw, with iptables installed whose passwordless sudo probe fails. -/
def Shell.iptablesWithoutSudo : Shell :=
  { run := fun _ command =>
      if command = "which iptables > /dev/null 2>&1" then .ok ""
      else .error ("Command failed: " ++ command) }

/-- A rule that opens port 80 and carries an empty source. -/
def emptySourceRule : Rule :=
  { action := .str "allow", protocol := .str "tcp", port := 80, source := .str "" }

/-- A rule that opens port 22 for one network. -/
def sampleRule : Rule :=
  { action := .str "allow", protocol := .str "tcp", port := 22, source := .str "10.0.0.0/8" }

/-- A rule whose source carries a second command. -/
def injectionRule : Rule :=
  { action := .str "allow", protocol := .str "tcp", port := 22, source := .str "1.2.3.4; reboot" }

/-- A syntactic check that the expression matches no string at all. -/
def Rx.dead : Rx → Bool
  | .empty => true
  | .eps => false
  | .cls _ => false
  | .seq a b => a.dead || b.dead
  | .alt a b => a.dead && b.dead
  | .star _ => false

/-- Every character class of the expression lies within the set `ok`. -/
def Rx.within (ok : Char → Bool) : Rx → Prop
  | .empty => True
  | .eps => True
  | .cls ranges => ∀ c, inRanges ranges c = true → ok c = true
  | .seq a b => a.within ok ∧ b.within ok
  | .alt a b => a.within ok ∧ b.within ok
  | .star a => a.within ok

/-! ## Facts about the session map -/

theorem mapKeys_nil : mapKeys [] = [] := rfl

theorem mapKeys_cons_none (m : MapData) : mapKeys (none :: m) = mapKeys m := by
  simp [mapKeys, mapEntries]

theorem mapKeys_cons_some (k : String) (v : Session) (m : MapData) :
    mapKeys (some (k, v) :: m) = k :: mapKeys m := by
  simp [mapKeys, mapEntries]

theorem mapKeys_append (a b : MapData) : mapKeys (a ++ b) = mapKeys a ++ mapKeys b := by
  simp [mapKeys, mapEntries, List.filterMap_append]

theorem mapGet_eq_none_iff (m : MapData) (k : String) :
    mapGet m k = none ↔ k ∉ mapKeys m := by
  induction m with
  | nil => simp [mapGet, mapKeys_nil]
  | cons e rest ih =>
    cases e with
    | none => simpa [mapGet, mapKeys_cons_none] using ih
    | some kv =>
      obtain ⟨k', v⟩ := kv
      by_cases h : k' = k
      · simp [mapGet, mapKeys_cons_some, h]
      · have h' : ¬ k = k' := fun e => h e.symm
        simpa [mapGet, mapKeys_cons_some, h, h'] using ih

theorem mapGet_mem_entries (m : MapData) (k : String) (v : Session)
    (h : mapGet m k = some v) : (k, v) ∈ mapEntries m := by
  induction m with
  | nil => simp [mapGet] at h
  | cons e rest ih =>
    cases e with
    | none => simpa [mapEntries, mapGet] using ih (by simpa [mapGet] using h)
    | some kv =>
      obtain ⟨k', v'⟩ := kv
      by_cases hk : k' = k
      · simp [mapGet, hk] at h
        simp [mapEntries, hk, h]
      · simp [mapGet, hk] at h
        have := ih h
        simp only [mapEntries] at this
        simp [mapEntries, this]

theorem mem_entries_mapGet (m : MapData) (hwf : MapWF m) (k : String) (v : Session)
    (h : (k, v) ∈ mapEntries m) : mapGet m k = some v := by
  induction m with
  | nil => simp [mapEntries] at h
  | cons e rest ih =>
    cases e with
    | none =>
      have hwf' : MapWF rest := by simpa [MapWF, mapKeys_cons_none] using hwf
      have h' : (k, v) ∈ mapEntries rest := by simpa [mapEntries] using h
      simpa [mapGet] using ih hwf' h'
    | some kv =>
      obtain ⟨k', v'⟩ := kv
      have hwf2 : k' ∉ mapKeys rest ∧ MapWF rest := by
        simpa [MapWF, mapKeys_cons_some] using hwf
      have h' : (k, v) = (k', v') ∨ (k, v) ∈ mapEntries rest := by
        simpa [mapEntries] using h
      rcases h' with h' | h'
      · cases h'
        simp [mapGet]
      · have hk : k ∈ mapKeys rest := List.mem_map.mpr ⟨(k, v), h', rfl⟩
        have hne : ¬ k' = k := fun e => hwf2.1 (e ▸ hk)
        simpa [mapGet, hne] using ih hwf2.2 h'

theorem mapDelete_length (m : MapData) (k : String) : (mapDelete m k).length = m.length := by
  induction m with
  | nil => rfl
  | cons e rest ih =>
    cases e with
    | none => simp [mapDelete, ih]
    | some kv =>
      obtain ⟨k', v⟩ := kv
      by_cases h : k' = k <;> simp [mapDelete, h, ih]

theorem mapDelete_append_some (done rest : MapData) (k : String) (v : Session)
    (h : k ∉ mapKeys done) :
    mapDelete (done ++ some (k, v) :: rest) k = done ++ none :: rest := by
  induction done with
  | nil => simp [mapDelete]
  | cons e d ih =>
    cases e with
    | none =>
      have h' : k ∉ mapKeys d := by simpa [mapKeys_cons_none] using h
      simp [mapDelete, ih h']
    | some kv =>
      obtain ⟨k', v'⟩ := kv
      have h' : ¬ k = k' ∧ k ∉ mapKeys d := by simpa [mapKeys_cons_some] using h
      have hne : ¬ k' = k := fun e => h'.1 e.symm
      simp [mapDelete, hne, ih h'.2]

theorem mapGet_append_some (done rest : MapData) (k : String) (v : Session)
    (h : k ∉ mapKeys done) :
    mapGet (done ++ some (k, v) :: rest) k = some v := by
  induction done with
  | nil => simp [mapGet]
  | cons e d ih =>
    cases e with
    | none =>
      have h' : k ∉ mapKeys d := by simpa [mapKeys_cons_none] using h
      simp [mapGet, ih h']
    | some kv =>
      obtain ⟨k', v'⟩ := kv
      have h' : ¬ k = k' ∧ k ∉ mapKeys d := by simpa [mapKeys_cons_some] using h
      have hne : ¬ k' = k := fun e => h'.1 e.symm
      simp [mapGet, hne, ih h'.2]

theorem mapGet_mapDelete_ne (m : MapData) (k k' : String) (h : k' ≠ k) :
    mapGet (mapDelete m k) k' = mapGet m k' := by
  induction m with
  | nil => rfl
  | cons e rest ih =>
    cases e with
    | none => simpa [mapDelete, mapGet] using ih
    | some kv =>
      obtain ⟨k0, v⟩ := kv
      by_cases h0 : k0 = k
      · subst h0
        have : ¬ k0 = k' := fun e => h e.symm
        simp [mapDelete, mapGet, this]
      · by_cases h1 : k0 = k'
        · subst h1
          simp [mapDelete, mapGet, h0]
        · simp [mapDelete, mapGet, h0, h1, ih]

theorem mapKeys_mapDelete_sublist (m : MapData) (k : String) :
    (mapKeys (mapDelete m k)).Sublist (mapKeys m) := by
  induction m with
  | nil => simp [mapDelete]
  | cons e rest ih =>
    cases e with
    | none => simpa [mapDelete, mapKeys_cons_none] using ih
    | some kv =>
      obtain ⟨k0, v⟩ := kv
      by_cases h0 : k0 = k
      · simp [mapDelete, h0, mapKeys_cons_none, mapKeys_cons_some]
      · simp [mapDelete, h0, mapKeys_cons_some, ih]

theorem mapDelete_wf (m : MapData) (k : String) (h : MapWF m) : MapWF (mapDelete m k) :=
  List.Nodup.sublist (mapKeys_mapDelete_sublist m k) h

theorem mapGet_mapDelete_self (m : MapData) (k : String) (h : MapWF m) :
    mapGet (mapDelete m k) k = none := by
  induction m with
  | nil => rfl
  | cons e rest ih =>
    cases e with
    | none =>
      have h' : MapWF rest := by simpa [MapWF, mapKeys_cons_none] using h
      simpa [mapDelete, mapGet] using ih h'
    | some kv =>
      obtain ⟨k0, v⟩ := kv
      have h' : k0 ∉ mapKeys rest ∧ MapWF rest := by
        simpa [MapWF, mapKeys_cons_some] using h
      by_cases h0 : k0 = k
      · subst h0
        simpa [mapDelete, mapGet] using (mapGet_eq_none_iff rest k0).mpr h'.1
      · simpa [mapDelete, mapGet, h0] using ih h'.2

theorem mapDelete_of_get_none (m : MapData) (k : String) (h : mapGet m k = none) :
    mapDelete m k = m := by
  induction m with
  | nil => rfl
  | cons e rest ih =>
    cases e with
    | none => simp [mapDelete, ih (by simpa [mapGet] using h)]
    | some kv =>
      obtain ⟨k0, v⟩ := kv
      by_cases h0 : k0 = k
      · simp [mapGet, h0] at h
      · simp [mapGet, h0] at h
        simp [mapDelete, h0, ih h]

theorem mapGet_mapSet_self (m : MapData) (k : String) (v : Session) :
    mapGet (mapSet m k v) k = some v := by
  induction m with
  | nil => simp [mapSet, mapGet]
  | cons e rest ih =>
    cases e with
    | none => simpa [mapSet, mapGet] using ih
    | some kv =>
      obtain ⟨k0, v0⟩ := kv
      by_cases h0 : k0 = k <;> simp [mapSet, mapGet, h0, ih]

theorem mapGet_mapSet_ne (m : MapData) (k k' : String) (v : Session) (h : k' ≠ k) :
    mapGet (mapSet m k v) k' = mapGet m k' := by
  induction m with
  | nil =>
    have : ¬ k = k' := fun e => h e.symm
    simp [mapSet, mapGet, this]
  | cons e rest ih =>
    cases e with
    | none => simpa [mapSet, mapGet] using ih
    | some kv =>
      obtain ⟨k0, v0⟩ := kv
      by_cases h0 : k0 = k
      · subst h0
        have h1 : ¬ k0 = k' := fun e => h e.symm
        simp [mapSet, mapGet, h1]
      · by_cases h1 : k0 = k'
        · subst h1
          simp [mapSet, mapGet, h0]
        · simp [mapSet, mapGet, h0, h1, ih]

theorem mapKeys_mapSet_of_mem (m : MapData) (k : String) (v : Session)
    (h : k ∈ mapKeys m) : mapKeys (mapSet m k v) = mapKeys m := by
  induction m with
  | nil => simp [mapKeys_nil] at h
  | cons e rest ih =>
    cases e with
    | none =>
      have h' : k ∈ mapKeys rest := by simpa [mapKeys_cons_none] using h
      simp [mapSet, mapKeys_cons_none, ih h']
    | some kv =>
      obtain ⟨k0, v0⟩ := kv
      by_cases h0 : k0 = k
      · simp [mapSet, h0, mapKeys_cons_some]
      · have h' : k ∈ mapKeys rest := by
          have : k = k0 ∨ k ∈ mapKeys rest := by simpa [mapKeys_cons_some] using h
          rcases this with e | e
          · exact absurd e.symm h0
          · exact e
        simp [mapSet, h0, mapKeys_cons_some, ih h']

theorem mapKeys_mapSet_of_not_mem (m : MapData) (k : String) (v : Session)
    (h : k ∉ mapKeys m) : mapKeys (mapSet m k v) = mapKeys m ++ [k] := by
  induction m with
  | nil => simp [mapSet, mapKeys_cons_some, mapKeys_nil]
  | cons e rest ih =>
    cases e with
    | none =>
      have h' : k ∉ mapKeys rest := by simpa [mapKeys_cons_none] using h
      simp [mapSet, mapKeys_cons_none, ih h']
    | some kv =>
      obtain ⟨k0, v0⟩ := kv
      have h' : ¬ k = k0 ∧ k ∉ mapKeys rest := by simpa [mapKeys_cons_some] using h
      have h0 : ¬ k0 = k := fun e => h'.1 e.symm
      simp [mapSet, h0, mapKeys_cons_some, ih h'.2]

theorem mapSet_wf (m : MapData) (k : String) (v : Session) (h : MapWF m) :
    MapWF (mapSet m k v) := by
  unfold MapWF at *
  by_cases hk : k ∈ mapKeys m
  · rw [mapKeys_mapSet_of_mem m k v hk]; exact h
  · rw [mapKeys_mapSet_of_not_mem m k v hk]
    exact List.Nodup.append h (List.nodup_singleton k) (by simpa using hk)

/-! ## Dimension validation -/

theorem invalidDimensions_eq_false (rows cols : Int) (hr : 5 ≤ rows ∧ rows ≤ 500)
    (hc : 10 ≤ cols ∧ cols ≤ 500) : invalidDimensions (some rows) (some cols) = false := by
  simp only [invalidDimensions, lessThan, greaterThan, Bool.or_eq_false_iff,
    decide_eq_false_iff_not, not_lt]
  omega

theorem invalidDimensions_eq_true (rows cols : Int)
    (h : rows < 5 ∨ 500 < rows ∨ cols < 10 ∨ 500 < cols) :
    invalidDimensions (some rows) (some cols) = true := by
  simp only [invalidDimensions, lessThan, greaterThan, Bool.or_eq_true, decide_eq_true_eq]
  omega

/-- C1 (as stated, refuted): rows = 24 and cols = 5 lie in [5,500], yet `startSession` with
valid id and credentials rejects with 'Invalid terminal dimensions' and `resizeTerminal` on a
registered session whose stream does not throw returns false. -/
theorem dimensions_cols_five_rejected :
    ((5 : Int) ≤ 24 ∧ (24 : Int) ≤ 500 ∧ (5 : Int) ≤ 5 ∧ (5 : Int) ≤ 500) ∧
    (startSession 3 none (.str "term-b") (.str "alice") (.str "pw") (some 24) (some 5)
      sampleService).1 = .invalid "Invalid terminal dimensions" ∧
    mapGet sampleService.sessions "term-a" = some sampleSession ∧
    (resizeTerminal Env.quiet 1000 "term-a" (some 24) (some 5) sampleService).1 = false := by
  decide

/-- C1 (amended): for every integer pair with 5 <= rows <= 500 and 10 <= cols <= 500 the
dimension validation accepts the pair.  `startSession` never rejects it with 'Invalid terminal
dimensions', and with a non-empty string id and credentials it goes on to connect;
`resizeTerminal` on a registered session whose stream does not throw returns true and stores
the new rows and cols. -/
theorem dimensions_accepted (env : Env) (now : Int) (newClient : Nat)
    (connectThrows : Option String) (sessionId username password : JsVal)
    (rows cols : Int) (svc : TerminalService) (id : String) (session : Session) (h : Nat)
    (hr : 5 ≤ rows ∧ rows ≤ 500) (hc : 10 ≤ cols ∧ cols ≤ 500)
    (hreg : mapGet svc.sessions id = some session) (hstream : session.stream = some h)
    (hquiet : env.streamSetWindow h rows cols = none) :
    (startSession newClient connectThrows sessionId username password (some rows) (some cols)
        svc).1 ≠ .invalid "Invalid terminal dimensions" ∧
    (∀ sid user pw : String, sid ≠ "" → user ≠ "" → pw ≠ "" →
      ∃ call, (startSession newClient connectThrows (.str sid) (.str user) (.str pw)
        (some rows) (some cols) svc).1 = .started call ∧ call.rows = rows ∧ call.cols = cols) ∧
    (resizeTerminal env now id rows cols svc).1 = true ∧
    mapGet (resizeTerminal env now id rows cols svc).2.sessions id =
      some { session with rows := rows, cols := cols, lastActivityAt := now } := by
  have hd := invalidDimensions_eq_false rows cols hr hc
  refine ⟨?_, ?_, ?_, ?_⟩
  · unfold startSession
    simp only [Option.getD_some, hd]
    split
    · simp
    · split
      · simp
      · cases connectThrows <;> simp
  · intro sid user pw hsid huser hpw
    unfold startSession
    simp only [Option.getD_some, hd, JsVal.truthy, JsVal.isString, JsVal.asString]
    cases connectThrows <;> simp [hsid, huser, hpw]
  · simp [resizeTerminal, hreg, hstream, hd, hquiet]
  · simp [resizeTerminal, hreg, hstream, hd, hquiet, TerminalService.emit, mapGet_mapSet_self]

/-- C1 (amended), at rows = 5 and cols = 10 on the sample service. -/
theorem dimensions_accepted_witness :
    (resizeTerminal Env.quiet 1000 "term-a" (some 5) (some 10) sampleService).1 = true :=
  (dimensions_accepted Env.quiet 1000 3 none (.str "term-b") (.str "alice") (.str "pw") 5 10
    sampleService "term-a" sampleSession 2 (by decide) (by decide) (by decide) (by decide)
    (by decide)).2.2.1

/-- C2: for every integer pair with rows or cols outside [5,500], `startSession` rejects
synchronously and returns the service as it was (no client is created, no connection is
attempted, the registry is unchanged), the error being 'Invalid terminal dimensions' whenever
the id and the credentials are non-empty strings; and `resizeTerminal` on a registered session
returns false, calls `setWindow` on no stream and leaves the registry, hence the rows and cols
of that session, unchanged. -/
theorem dimensions_rejected (env : Env) (now : Int) (newClient : Nat)
    (connectThrows : Option String) (sessionId username password : JsVal)
    (rows cols : Int) (svc : TerminalService) (id : String) (session : Session)
    (hdim : rows < 5 ∨ 500 < rows ∨ cols < 5 ∨ 500 < cols)
    (hreg : mapGet svc.sessions id = some session) :
    (∃ message, startSession newClient connectThrows sessionId username password
        (some rows) (some cols) svc = (.invalid message, svc)) ∧
    (∀ sid user pw : String, sid ≠ "" → user ≠ "" → pw ≠ "" →
      startSession newClient connectThrows (.str sid) (.str user) (.str pw)
        (some rows) (some cols) svc = (.invalid "Invalid terminal dimensions", svc)) ∧
    (resizeTerminal env now id rows cols svc).1 = false ∧
    (resizeTerminal env now id rows cols svc).2.sessions = svc.sessions ∧
    mapGet (resizeTerminal env now id rows cols svc).2.sessions id = some session ∧
    (∀ e, e ∈ (resizeTerminal env now id rows cols svc).2.effects →
      e ∈ svc.effects ∨ ∃ message, e = .log .warn message none) := by
  have hd : invalidDimensions rows cols = true :=
    invalidDimensions_eq_true rows cols (by omega)
  refine ⟨?_, ?_, ?_, ?_, ?_, ?_⟩
  · unfold startSession
    simp only [Option.getD_some, hd]
    split
    · exact ⟨_, rfl⟩
    · split
      · exact ⟨_, rfl⟩
      · exact ⟨_, rfl⟩
  · intro sid user pw hsid huser hpw
    unfold startSession
    simp [hd, JsVal.truthy, JsVal.isString, hsid, huser, hpw]
  · unfold resizeTerminal
    simp only [hreg]
    cases session.stream <;> simp [hd]
  · unfold resizeTerminal
    simp only [hreg]
    cases session.stream <;> simp [hd, TerminalService.emit]
  · unfold resizeTerminal
    simp only [hreg]
    cases session.stream <;> simp [hd, TerminalService.emit, hreg]
  · intro e
    unfold resizeTerminal
    simp only [hreg]
    cases session.stream <;> simp [hd, TerminalService.emit] <;>
      · intro he
        rcases he with he | he
        · exact Or.inl he
        · exact Or.inr ⟨_, he⟩

/-- C2, at the scenario of the specification: resize to 3x80. -/
theorem dimensions_rejected_witness :
    (resizeTerminal Env.quiet 1000 "term-a" (some 3) (some 80) sampleService).1 = false ∧
    mapGet (resizeTerminal Env.quiet 1000 "term-a" (some 3) (some 80) sampleService).2.sessions
      "term-a"
      = some sampleSession :=
  have h := dimensions_rejected Env.quiet 1000 3 none (.str "term-b") (.str "alice")
    (.str "pw") 3 80 sampleService "term-a" sampleSession (by decide) (by decide)
  ⟨h.2.2.1, h.2.2.2.2.1⟩

/-! ## Starting a session under an id that is already registered -/

/-- C3 (as stated, refuted): `term-a` is registered, the `terminal:start` handler of socket `a`
starts it again, the remote host accepts, and the handler emits `terminal:ready` and no
error while the entry under `term-a` now holds the new client and stream. -/
theorem duplicate_start_overwrites :
    mapGet sampleService.sessions "term-a" = some sampleSession ∧
    (terminalStartRun 3 none { id := "a", user := some (.str "alice") }
        { rows := some 30, cols := some 100, username := .str "alice", password := .str "pw" }
        [(5, .ready), (6, .shell none (some 4))] sampleService).emitted
      = [.terminalReady "term-a"] ∧
    mapGet (terminalStartRun 3 none { id := "a", user := some (.str "alice") }
        { rows := some 30, cols := some 100, username := .str "alice", password := .str "pw" }
        [(5, .ready), (6, .shell none (some 4))] sampleService).service.sessions "term-a"
      = some { client := some 3, stream := some 4, username := "alice", createdAt := 6,
               lastActivityAt := 6, rows := some 30, cols := some 100, buffer := [] } ∧
    ({ client := some 3, stream := some 4, username := "alice", createdAt := 6,
       lastActivityAt := 6, rows := some 30, cols := some 100, buffer := [] } : Session)
      ≠ sampleSession := by
  decide

/-- C3 (amended): for every session id already present in the registry, a further
`startSession` with that id, valid arguments and an accepting remote host (the client becomes
ready and the shell opens) succeeds: the promise resolves, the entry under that id is
overwritten in place with the client, stream, username, dimensions and timestamps of the new
call, every other entry is unchanged, and the calls made are exactly `connect` and `shell` on
the new client (the previous client and stream are not ended). -/
theorem duplicate_start_replaces_entry (newClient : Nat) (id user pw : String)
    (rows cols : Int) (tReady tShell : Int) (shellStream : Option Nat)
    (svc : TerminalService) (old : Session)
    (hreg : mapGet svc.sessions id = some old)
    (hid : id ≠ "") (huser : user ≠ "") (hpw : pw ≠ "")
    (hr : 5 ≤ rows ∧ rows ≤ 500) (hc : 10 ≤ cols ∧ cols ≤ 500) :
    ∃ call svc1 st,
      startSession newClient none (.str id) (.str user) (.str pw) (some rows) (some cols) svc
        = (.started call, svc1) ∧
      runStart (call, svc1) [(tReady, .ready), (tShell, .shell none shellStream)] = st ∧
      st.1.promise = .resolved ∧
      mapGet st.2.sessions id
        = some { client := some newClient, stream := shellStream, username := user,
                 createdAt := tShell, lastActivityAt := tShell, rows := rows, cols := cols,
                 buffer := [] } ∧
      (∀ k, k ≠ id → mapGet st.2.sessions k = mapGet svc.sessions k) ∧
      mapKeys st.2.sessions = mapKeys svc.sessions ∧
      st.2.effects = svc.effects ++
          [.clientConnect newClient user pw,
           .log .debug ("SSH ready for session " ++ id) none,
           .clientShell newClient rows cols,
           .log .info ("Terminal session started: " ++ id ++ " for user " ++ user) none] := by
  have hd := invalidDimensions_eq_false rows cols hr hc
  have hmem : id ∈ mapKeys svc.sessions := by
    by_contra hn
    rw [(mapGet_eq_none_iff svc.sessions id).mpr hn] at hreg
    exact Option.noConfusion hreg
  have hstart : startSession newClient none (.str id) (.str user) (.str pw) (some rows)
      (some cols) svc =
      (.started
        { sessionId := id, username := user, password := pw, rows := rows, cols := cols,
          client := newClient, stream := none, connectionEstablished := false,
          timeoutArmed := true, shellRequests := 0, promise := .pending },
        svc.emit (.clientConnect newClient user pw)) := by
    unfold startSession
    simp [hd, JsVal.truthy, JsVal.isString, JsVal.asString, hid, huser, hpw]
  refine ⟨_, _, _, hstart, rfl, ?_, ?_, ?_, ?_, ?_⟩
  · simp [runStart, startStep, onReady, onShell, Promise.resolve]
  · simp [runStart, startStep, onReady, onShell, TerminalService.emit, mapGet_mapSet_self]
  · intro k hk
    simp [runStart, startStep, onReady, onShell, TerminalService.emit,
      mapGet_mapSet_ne _ _ _ _ hk]
  · simp [runStart, startStep, onReady, onShell, TerminalService.emit,
      mapKeys_mapSet_of_mem _ _ _ hmem]
  · simp [runStart, startStep, onReady, onShell, TerminalService.emit]

/-- C3 (amended), on the sample service. -/
theorem duplicate_start_replaces_entry_witness :
    ∃ call svc1 st,
      startSession 3 none (.str "term-a") (.str "alice") (.str "pw") (some 30) (some 100)
        sampleService = (.started call, svc1) ∧
      runStart (call, svc1) [(5, .ready), (6, .shell none (some 4))] = st ∧
      st.1.promise = .resolved :=
  have h := duplicate_start_replaces_entry 3 "term-a" "alice" "pw" 30 100 5 6 (some 4)
    sampleService sampleSession (by decide) (by decide) (by decide) (by decide) (by decide)
    (by decide)
  h.elim fun call h1 => h1.elim fun svc1 h2 => h2.elim fun st hc =>
    ⟨call, svc1, st, hc.1, hc.2.1, hc.2.2.1⟩

/-! ## The identity gate of the terminal:start handler -/

theorem foldl_handlerStep_of_no_call (evs : List (Int × StartEvent)) (run : HandlerRun)
    (h : run.call = none) : evs.foldl handlerStep run = run := by
  induction evs with
  | nil => rfl
  | cons ev rest ih =>
    have hstep : handlerStep run ev = run := by simp [handlerStep, h]
    simpa [List.foldl_cons, hstep] using ih

/-- C4: in the `terminal:start` handler, whenever the socket has no authenticated user or the
username of the payload differs from the authenticated username, the handler emits exactly one
`terminal:error` event ('Not authenticated', respectively 'Invalid username') and never calls
`startSession`: no call closure exists, whatever events follow, the registry is unchanged and
no `connect` is made on any client. -/
theorem start_gate_rejects (newClient : Nat) (connectThrows : Option String)
    (socket : Socket) (data : StartPayload) (evs : List (Int × StartEvent))
    (svc : TerminalService)
    (h : socket.user = none ∨ ∃ u, socket.user = some u ∧ data.username ≠ u) :
    (terminalStartRun newClient connectThrows socket data evs svc).emitted
      = [.terminalError (if socket.user.isNone then "Not authenticated" else "Invalid username")]
    ∧ (terminalStartRun newClient connectThrows socket data evs svc).startCalls = 0
    ∧ (terminalStartRun newClient connectThrows socket data evs svc).call = none
    ∧ (terminalStartRun newClient connectThrows socket data evs svc).service.sessions
      = svc.sessions
    ∧ (∀ c u p, Effect.clientConnect c u p ∈
        (terminalStartRun newClient connectThrows socket data evs svc).service.effects →
        Effect.clientConnect c u p ∈ svc.effects) := by
  rcases h with h | ⟨u, hu, hne⟩
  · have hrun : terminalStartRun newClient connectThrows socket data evs svc
        = HandlerRun.fail svc 0 none "Not authenticated" := by
      unfold terminalStartRun terminalStart
      rw [h]
      exact foldl_handlerStep_of_no_call evs _ rfl
    rw [hrun]
    simp [HandlerRun.fail, h]
  · have hrun : terminalStartRun newClient connectThrows socket data evs svc
        = HandlerRun.fail
            (svc.emit (.log .warn ("Terminal: Username mismatch for " ++ u.render) none))
            0 none "Invalid username" := by
      unfold terminalStartRun terminalStart
      rw [hu]
      simp only [hne, ne_eq, not_false_eq_true, if_true]
      exact foldl_handlerStep_of_no_call evs _ rfl
    rw [hrun]
    simp [HandlerRun.fail, hu, TerminalService.emit]

/-- C4, at the scenario of the specification: the payload claims bob, the socket is alice. -/
theorem start_gate_rejects_witness :
    (terminalStartRun 3 none { id := "a", user := some (.str "alice") }
        { rows := some 24, cols := some 80, username := .str "bob", password := .str "pw" }
        [(5, .ready), (6, .shell none (some 4))] (TerminalService.new 0)).emitted
      = [.terminalError "Invalid username"] :=
  (start_gate_rejects 3 none { id := "a", user := some (.str "alice") }
    { rows := some 24, cols := some 80, username := .str "bob", password := .str "pw" }
    [(5, .ready), (6, .shell none (some 4))] (TerminalService.new 0)
    (Or.inr ⟨.str "alice", rfl, by decide⟩)).1

/-! ## closeSession -/

theorem closeSession_of_absent (env : Env) (id : String) (svc : TerminalService)
    (h : mapGet svc.sessions id = none) : closeSession env id svc = svc := by
  simp [closeSession, h]

theorem closeSession_of_registered (env : Env) (id : String) (svc : TerminalService)
    (session : Session) (h : mapGet svc.sessions id = some session) :
    closeSession env id svc =
      { svc with
        sessions := mapDelete svc.sessions id
        effects := svc.effects ++ closeEffects env id session } := by
  unfold closeSession
  simp only [h]
  unfold endStream endClient closeEffects
  cases session.stream with
  | none =>
    cases session.client with
    | none => simp [TerminalService.emit]
    | some c => cases hce : env.clientEnd c <;> simp [TerminalService.emit, hce]
  | some s =>
    cases hse : env.streamEnd s <;>
      cases session.client with
      | none => simp [TerminalService.emit, hse]
      | some c => cases hce : env.clientEnd c <;> simp [TerminalService.emit, hse, hce]

theorem streamEnd_mem_closeEffects (env : Env) (id : String) (session : Session) (h : Nat)
    (hs : session.stream = some h) : Effect.streamEnd h ∈ closeEffects env id session := by
  unfold closeEffects
  rw [hs]
  cases hse : env.streamEnd h <;> simp [hse]

theorem clientEnd_mem_closeEffects (env : Env) (id : String) (session : Session) (c : Nat)
    (hc : session.client = some c) : Effect.clientEnd c ∈ closeEffects env id session := by
  unfold closeEffects
  rw [hc]
  cases hce : env.clientEnd c <;> simp [hce]

/-- C5: for every registry state and every session id, after `closeSession(id)` the call
`hasSession(id)` returns false, and a second `closeSession(id)` returns the service exactly as
the first left it: the registry is unchanged and no effect is added, so no stream or client is
ended and nothing can trigger a further closed event.  The registry is a `Map`, which holds
each key once. -/
theorem closeSession_idempotent (env env2 : Env) (id : String) (svc : TerminalService)
    (hwf : MapWF svc.sessions) :
    hasSession (closeSession env id svc) id = false ∧
    closeSession env2 id (closeSession env id svc) = closeSession env id svc ∧
    (closeSession env2 id (closeSession env id svc)).sessions
      = (closeSession env id svc).sessions ∧
    (closeSession env2 id (closeSession env id svc)).effects
      = (closeSession env id svc).effects := by
  have hgone : mapGet (closeSession env id svc).sessions id = none := by
    cases hget : mapGet svc.sessions id with
    | none => rw [closeSession_of_absent env id svc hget]; exact hget
    | some session =>
      rw [closeSession_of_registered env id svc session hget]
      exact mapGet_mapDelete_self svc.sessions id hwf
  have hsecond := closeSession_of_absent env2 id (closeSession env id svc) hgone
  refine ⟨?_, hsecond, ?_, ?_⟩
  · simp [hasSession, mapHas, hgone]
  · rw [hsecond]
  · rw [hsecond]

/-- C5, on the sample service: `term-a` is closed twice. -/
theorem closeSession_idempotent_witness :
    hasSession (closeSession Env.quiet "term-a" sampleService) "term-a" = false ∧
    (closeSession Env.quiet "term-a" (closeSession Env.quiet "term-a" sampleService)).effects
      = [.streamEnd 2, .clientEnd 1, .log .info "Terminal session closed: term-a" none] :=
  have h := closeSession_idempotent Env.quiet Env.quiet "term-a" sampleService (by decide)
  ⟨h.1, h.2.2.2.trans (by decide)⟩

/-! ## Loops that close sessions while iterating -/

theorem sweepRecord_wf (keep : String → Session → Bool) (done rest : MapData)
    (e : Option (String × Session)) (h : MapWF (done ++ e :: rest)) :
    MapWF ((done ++ [sweepRecord keep e]) ++ rest) := by
  cases e with
  | none => simpa [sweepRecord] using h
  | some kv =>
    obtain ⟨k, v⟩ := kv
    by_cases hk : keep k v = true
    · simpa [sweepRecord, hk] using h
    · simp only [sweepRecord, hk]
      unfold MapWF at *
      simp only [mapKeys_append, mapKeys_cons_some, mapKeys_cons_none, mapKeys_nil,
        List.append_nil, Bool.false_eq_true, if_false] at *
      exact List.Nodup.sublist
        (List.Sublist.append_left (List.sublist_cons_self k (mapKeys rest)) (mapKeys done)) h

theorem not_mem_done_of_wf (done rest : MapData) (k : String) (v : Session)
    (h : MapWF (done ++ some (k, v) :: rest)) : k ∉ mapKeys done := by
  unfold MapWF at h
  rw [mapKeys_append, mapKeys_cons_some] at h
  intro hk
  exact (List.nodup_append.mp h).2.2 hk (List.mem_cons_self k _)

/-- Closed form of the `for ... of` loop for a body that either keeps the visited session or
closes it: each record is visited once, in order, although records are emptied on the way, and
fuel equal to the number of records left suffices. -/
theorem forOfSessions_closed_form
    (body : String → Session → TerminalService → TerminalService)
    (keep : String → Session → Bool) (eff : String → Session → List Effect) (T : Int)
    (hbody : ∀ (done rest : MapData) (k : String) (v : Session) (svc : TerminalService),
      svc.sessions = done ++ some (k, v) :: rest → k ∉ mapKeys done →
      svc.sessionIdleTimeout = T →
      body k v svc =
        { svc with
          sessions := done ++ sweepRecord keep (some (k, v)) :: rest
          effects := svc.effects ++ eff k v })
    (rest : MapData) :
    ∀ (done : MapData) (svc : TerminalService) (fuel : Nat),
      svc.sessions = done ++ rest → MapWF (done ++ rest) → svc.sessionIdleTimeout = T →
      rest.length ≤ fuel →
      forOfSessions body fuel done.length svc =
        { svc with
          sessions := done ++ rest.map (sweepRecord keep)
          effects := svc.effects ++ loopEffects eff rest } := by
  induction rest with
  | nil =>
    intro done svc fuel hs _ _ _
    have hnone : svc.sessions[done.length]? = none := by simp [hs]
    cases fuel with
    | zero =>
      cases svc
      simp_all [forOfSessions, loopEffects]
    | succ f =>
      cases svc
      simp_all [forOfSessions, loopEffects]
  | cons e rest ih =>
    intro done svc fuel hs hwf hT hfuel
    cases fuel with
    | zero => simp at hfuel
    | succ f =>
      have hf : rest.length ≤ f := by simpa using hfuel
      have hlook : svc.sessions[done.length]? = some e := by
        rw [hs, List.getElem?_append_right (Nat.le_refl _)]
        simp
      have hlen : (done ++ [sweepRecord keep e]).length = done.length + 1 := by simp
      cases e with
      | none =>
        have hs' : svc.sessions = (done ++ [sweepRecord keep none]) ++ rest := by
          simp [hs, sweepRecord]
        have := ih (done ++ [sweepRecord keep none]) svc f hs'
          (sweepRecord_wf keep done rest none hwf) hT hf
        rw [hlen] at this
        simp only [forOfSessions, hlook, this]
        simp [sweepRecord, loopEffects]
      | some kv =>
        obtain ⟨k, v⟩ := kv
        have hk := not_mem_done_of_wf done rest k v hwf
        have hb := hbody done rest k v svc hs hk hT
        have hs' : (body k v svc).sessions
            = (done ++ [sweepRecord keep (some (k, v))]) ++ rest := by
          rw [hb]; simp
        have hT' : (body k v svc).sessionIdleTimeout = T := by rw [hb]; exact hT
        have := ih (done ++ [sweepRecord keep (some (k, v))]) (body k v svc) f hs'
          (sweepRecord_wf keep done rest (some (k, v)) hwf) hT' hf
        rw [hlen] at this
        simp only [forOfSessions, hlook, this]
        rw [hb]
        simp [loopEffects]

theorem mapEntries_map_sweepRecord (keep : String → Session → Bool) (m : MapData) :
    mapEntries (m.map (sweepRecord keep)) = (mapEntries m).filter (fun e => keep e.1 e.2) := by
  induction m with
  | nil => rfl
  | cons e rest ih =>
    cases e with
    | none => simpa [mapEntries, sweepRecord] using ih
    | some kv =>
      obtain ⟨k, v⟩ := kv
      simp only [mapEntries] at ih
      by_cases hk : keep k v = true
      · simp [mapEntries, sweepRecord, hk, ih]
      · simp [mapEntries, sweepRecord, hk, ih]

theorem mapGet_map_sweepRecord (keep : String → Session → Bool) (m : MapData)
    (hwf : MapWF m) (id : String) :
    mapGet (m.map (sweepRecord keep)) id =
      match mapGet m id with
      | some s => if keep id s then some s else none
      | none => none := by
  induction m with
  | nil => rfl
  | cons e rest ih =>
    cases e with
    | none =>
      have hwf' : MapWF rest := by simpa [MapWF, mapKeys_cons_none] using hwf
      simpa [mapGet, sweepRecord] using ih hwf'
    | some kv =>
      obtain ⟨k, v⟩ := kv
      have hwf2 : k ∉ mapKeys rest ∧ MapWF rest := by
        simpa [MapWF, mapKeys_cons_some] using hwf
      by_cases hid : k = id
      · subst hid
        by_cases hk : keep k v = true
        · simp [mapGet, sweepRecord, hk]
        · have hnone : mapGet rest k = none := (mapGet_eq_none_iff rest k).mpr hwf2.1
          have := ih hwf2.2
          rw [hnone] at this
          simp [mapGet, sweepRecord, hk, this]
      · by_cases hk : keep k v = true
        · simpa [mapGet, sweepRecord, hk, hid] using ih hwf2.2
        · simpa [mapGet, sweepRecord, hk, hid] using ih hwf2.2

theorem mem_loopEffects (eff : String → Session → List Effect) (m : MapData) (k : String)
    (v : Session) (e : Effect) (hkv : (k, v) ∈ mapEntries m) (he : e ∈ eff k v) :
    e ∈ loopEffects eff m := by
  induction m with
  | nil => simp [mapEntries] at hkv
  | cons r rest ih =>
    cases r with
    | none =>
      have : (k, v) ∈ mapEntries rest := by simpa [mapEntries] using hkv
      simpa [loopEffects] using ih this
    | some kv =>
      obtain ⟨k', v'⟩ := kv
      have h' : (k, v) = (k', v') ∨ (k, v) ∈ mapEntries rest := by
        simpa [mapEntries] using hkv
      simp only [loopEffects, List.mem_append]
      rcases h' with h' | h'
      · cases h'
        exact Or.inl he
      · exact Or.inr (ih h')

theorem closeSession_body (env : Env) (done rest : MapData) (k : String) (v : Session)
    (svc : TerminalService) (hs : svc.sessions = done ++ some (k, v) :: rest)
    (hk : k ∉ mapKeys done) :
    closeSession env k svc =
      { svc with
        sessions := done ++ none :: rest
        effects := svc.effects ++ closeEffects env k v } := by
  have hget : mapGet svc.sessions k = some v := by
    rw [hs]; exact mapGet_append_some done rest k v hk
  rw [closeSession_of_registered env k svc v hget, hs, mapDelete_append_some done rest k v hk]

theorem cleanupIdleBody_body (env : Env) (now T : Int) (done rest : MapData) (k : String)
    (v : Session) (svc : TerminalService) (hs : svc.sessions = done ++ some (k, v) :: rest)
    (hk : k ∉ mapKeys done) (hT : svc.sessionIdleTimeout = T) :
    cleanupIdleBody env now k v svc =
      { svc with
        sessions := done ++
          sweepRecord (fun _ s => !decide (now - s.lastActivityAt > T)) (some (k, v)) :: rest
        effects := svc.effects ++ idleEffects env now T k v } := by
  unfold cleanupIdleBody idleEffects
  rw [hT]
  by_cases hidle : now - v.lastActivityAt > T
  · simp only [hidle, if_true]
    rw [closeSession_body env done rest k v _ (by simpa [TerminalService.emit] using hs) hk]
    simp [sweepRecord, hidle, TerminalService.emit, hT]
  · simp only [hidle, if_false]
    cases svc
    simp_all [sweepRecord]

theorem _cleanupIdleSessions_closed_form (env : Env) (now : Int) (svc : TerminalService)
    (hwf : MapWF svc.sessions) :
    _cleanupIdleSessions env now svc =
      { svc with
        sessions := svc.sessions.map
          (sweepRecord (fun _ s => !decide (now - s.lastActivityAt > svc.sessionIdleTimeout)))
        effects := svc.effects ++
          loopEffects (idleEffects env now svc.sessionIdleTimeout) svc.sessions } := by
  have := forOfSessions_closed_form (cleanupIdleBody env now)
    (fun _ s => !decide (now - s.lastActivityAt > svc.sessionIdleTimeout))
    (idleEffects env now svc.sessionIdleTimeout) svc.sessionIdleTimeout
    (fun done rest k v s hs hk hT => cleanupIdleBody_body env now _ done rest k v s hs hk hT)
    svc.sessions [] svc svc.sessions.length (by simp) (by simpa using hwf) rfl (Nat.le_refl _)
  simpa [_cleanupIdleSessions] using this

/-! ## The idle reaper -/

/-- C6: for every registry state and every sweep time `now`, after `_cleanupIdleSessions` the
registry contains exactly the sessions whose idle time `now - lastActivityAt` does not exceed
the idle threshold of 1,800,000 ms, each with all its fields unchanged and in the same order;
every session idle for longer has been closed through `closeSession`: its entry is gone and
the effects of `closeSession` on it (stream ended, client ended, the closing log line) were
performed during the sweep. -/
theorem idle_sweep_closes_exactly_idle (env : Env) (now : Int) (svc : TerminalService)
    (hwf : MapWF svc.sessions) (hT : svc.sessionIdleTimeout = 1800000) :
    mapEntries (_cleanupIdleSessions env now svc).sessions
      = (mapEntries svc.sessions).filter
          (fun e => decide (now - e.2.lastActivityAt ≤ 1800000)) ∧
    (∀ id, mapGet (_cleanupIdleSessions env now svc).sessions id =
      match mapGet svc.sessions id with
      | some s => if now - s.lastActivityAt ≤ 1800000 then some s else none
      | none => none) ∧
    ∃ new, (_cleanupIdleSessions env now svc).effects = svc.effects ++ new ∧
      ∀ id s, mapGet svc.sessions id = some s → now - s.lastActivityAt > 1800000 →
        hasSession (_cleanupIdleSessions env now svc) id = false ∧
        (∀ e, e ∈ closeEffects env id s → e ∈ new) ∧
        (∀ h, s.stream = some h → Effect.streamEnd h ∈ new) ∧
        (∀ c, s.client = some c → Effect.clientEnd c ∈ new) := by
  have hkeep : (fun (_ : String) (s : Session) =>
      !decide (now - s.lastActivityAt > svc.sessionIdleTimeout))
      = (fun _ s => decide (now - s.lastActivityAt ≤ 1800000)) := by
    funext _ s
    rw [hT]
    by_cases h : now - s.lastActivityAt ≤ 1800000
    · simp [h]
    · simp [h, not_le.mp h]
  have hform := _cleanupIdleSessions_closed_form env now svc hwf
  rw [hkeep, hT] at hform
  have hget : ∀ id, mapGet (_cleanupIdleSessions env now svc).sessions id =
      match mapGet svc.sessions id with
      | some s => if now - s.lastActivityAt ≤ 1800000 then some s else none
      | none => none := by
    intro id
    rw [hform]
    have := mapGet_map_sweepRecord (fun _ s => decide (now - s.lastActivityAt ≤ 1800000))
      svc.sessions hwf id
    simp only [decide_eq_true_eq] at this
    exact this
  refine ⟨?_, hget, loopEffects (idleEffects env now 1800000) svc.sessions, ?_, ?_⟩
  · rw [hform]
    exact mapEntries_map_sweepRecord _ svc.sessions
  · rw [hform]
  · intro id s hreg hidle
    have hmem := mapGet_mem_entries svc.sessions id s hreg
    have hclose : ∀ e, e ∈ closeEffects env id s →
        e ∈ loopEffects (idleEffects env now 1800000) svc.sessions := by
      intro e he
      refine mem_loopEffects _ svc.sessions id s e hmem ?_
      simp [idleEffects, hidle, he]
    refine ⟨?_, hclose, ?_, ?_⟩
    · have := hget id
      rw [hreg] at this
      simp [hasSession, mapHas, this, not_le.mpr hidle]
    · intro h hs
      exact hclose _ (streamEnd_mem_closeEffects env id s h hs)
    · intro c hc
      exact hclose _ (clientEnd_mem_closeEffects env id s c hc)

/-- C6, on three sessions swept at time 1,900,001: the first two are idle for more than
1,800,000 ms, the third for exactly 1,700,001 ms. -/
theorem idle_sweep_closes_exactly_idle_witness :
    mapEntries (_cleanupIdleSessions Env.quiet 1900001 threeSessions).sessions
      = [("term-c", { sampleSession with client := some 5, stream := some 6,
                                         lastActivityAt := 200000 })] :=
  (idle_sweep_closes_exactly_idle Env.quiet 1900001 threeSessions (by decide) rfl).1.trans
    (by decide)

/-! ## Shutdown -/

theorem cleanup_closed_form (env : Env) (svc : TerminalService) (hwf : MapWF svc.sessions) :
    cleanup env svc =
      { clearCleanupInterval svc with
        sessions := svc.sessions.map (sweepRecord (fun _ _ => false))
        effects := (clearCleanupInterval svc).effects
          ++ loopEffects (closeEffects env) svc.sessions
          ++ [.log .info "Terminal service cleaned up - all sessions closed" none] } := by
  have hsess : (clearCleanupInterval svc).sessions = svc.sessions := by
    unfold clearCleanupInterval
    cases svc.cleanupInterval <;> rfl
  have := forOfSessions_closed_form (fun sessionId _ s => closeSession env sessionId s)
    (fun _ _ => false) (closeEffects env) (clearCleanupInterval svc).sessionIdleTimeout
    (fun done rest k v s hs hk _ => by
      simpa [sweepRecord] using closeSession_body env done rest k v s hs hk)
    svc.sessions [] (clearCleanupInterval svc) svc.sessions.length (by simp [hsess])
    (by simpa using hwf) rfl (Nat.le_refl _)
  unfold cleanup
  simp only [hsess]
  simp only [List.length_nil] at this
  rw [this]
  simp [TerminalService.emit]

theorem mapEntries_map_close (m : MapData) :
    mapEntries (m.map (sweepRecord (fun _ _ => false))) = [] := by
  rw [mapEntries_map_sweepRecord]
  simp

/-- C10: for every registry state, after `cleanup()` the reaper interval is cleared (it is no
longer armed and `clearInterval` was called on it), the registry is empty, and every session
that was registered before the call has had its stream and its client connection ended: the
loop reaches every record although each visited record is deleted during the iteration. -/
theorem cleanup_closes_everything (env : Env) (svc : TerminalService)
    (hwf : MapWF svc.sessions) :
    (∀ t, svc.cleanupInterval = some t →
      t ∉ (cleanup env svc).armedIntervals ∧
      Effect.clearInterval t ∈ (cleanup env svc).effects) ∧
    mapEntries (cleanup env svc).sessions = [] ∧
    (∀ id, hasSession (cleanup env svc) id = false) ∧
    ∃ new, (cleanup env svc).effects = svc.effects ++ new ∧
      ∀ id s, mapGet svc.sessions id = some s →
        (∀ e, e ∈ closeEffects env id s → e ∈ new) ∧
        (∀ h, s.stream = some h → Effect.streamEnd h ∈ new) ∧
        (∀ c, s.client = some c → Effect.clientEnd c ∈ new) := by
  have hform := cleanup_closed_form env svc hwf
  have hentries : mapEntries (cleanup env svc).sessions = [] := by
    rw [hform]; exact mapEntries_map_close svc.sessions
  refine ⟨?_, hentries, ?_, ?_⟩
  · intro t ht
    rw [hform]
    simp [clearCleanupInterval, ht]
  · intro id
    cases hget : mapGet (cleanup env svc).sessions id with
    | none => simp [hasSession, mapHas, hget]
    | some s =>
      have := mapGet_mem_entries _ id s hget
      rw [hentries] at this
      simp at this
  · have hnew : ∃ pre, (clearCleanupInterval svc).effects = svc.effects ++ pre := by
      unfold clearCleanupInterval
      cases svc.cleanupInterval with
      | none => exact ⟨[], by simp⟩
      | some t => exact ⟨[.clearInterval t], rfl⟩
    obtain ⟨pre, hpre⟩ := hnew
    refine ⟨pre ++ loopEffects (closeEffects env) svc.sessions
      ++ [.log .info "Terminal service cleaned up - all sessions closed" none], ?_, ?_⟩
    · rw [hform]
      simp [hpre]
    · intro id s hreg
      have hmem := mapGet_mem_entries svc.sessions id s hreg
      have hclose : ∀ e, e ∈ closeEffects env id s →
          e ∈ pre ++ loopEffects (closeEffects env) svc.sessions
            ++ [.log .info "Terminal service cleaned up - all sessions closed" none] := by
        intro e he
        have := mem_loopEffects (closeEffects env) svc.sessions id s e hmem he
        simp [this]
      refine ⟨hclose, ?_, ?_⟩
      · intro h hs
        exact hclose _ (streamEnd_mem_closeEffects env id s h hs)
      · intro c hc
        exact hclose _ (clientEnd_mem_closeEffects env id s c hc)

/-- C10, on three sessions: all six handles are ended, in map order. -/
theorem cleanup_closes_everything_witness :
    mapEntries (cleanup Env.quiet threeSessions).sessions = [] ∧
    (cleanup Env.quiet threeSessions).armedIntervals = [] ∧
    (cleanup Env.quiet threeSessions).effects
      = [.clearInterval 0,
         .streamEnd 2, .clientEnd 1, .log .info "Terminal session closed: term-a" none,
         .streamEnd 4, .clientEnd 3, .log .info "Terminal session closed: term-b" none,
         .streamEnd 6, .clientEnd 5, .log .info "Terminal session closed: term-c" none,
         .log .info "Terminal service cleaned up - all sessions closed" none] :=
  ⟨(cleanup_closes_everything Env.quiet threeSessions (by decide)).2.1, by decide, by decide⟩

/-! ## Activity tracking -/

/-- C7 (as stated, refuted): `term-a` is registered and was last active at time 0; the call
`resizeTerminal('term-a', 3, 80)` made at time 1000 leaves `lastActivityAt` at 0. -/
theorem resize_rejected_keeps_lastActivityAt :
    mapGet sampleService.sessions "term-a" = some sampleSession ∧
    (mapGet (resizeTerminal Env.quiet 1000 "term-a" (some 3) (some 80) sampleService).2.sessions
        "term-a").map Session.lastActivityAt = some 0 ∧
    (0 : Int) ≠ 1000 := by
  decide

/-- C7 (amended): for every `sendInput` call and every `resizeTerminal` call made on a
registered session that returns true, which is the case exactly when the session has a stream,
the dimensions pass the validation (for a resize) and the stream call does not throw, the
session's `lastActivityAt` after the call equals the time of the call; a call that returns
false leaves the session as it was. -/
theorem activity_refreshed_on_success (env : Env) (now : Int) (id data : String)
    (rows cols : Option Int) (svc : TerminalService) (session : Session)
    (hreg : mapGet svc.sessions id = some session) :
    ((sendInput env now id data svc).1 = true ↔
      ∃ h, session.stream = some h ∧ env.streamWrite h data = none) ∧
    ((sendInput env now id data svc).1 = true →
      mapGet (sendInput env now id data svc).2.sessions id
        = some { session with lastActivityAt := now }) ∧
    ((sendInput env now id data svc).1 = false →
      mapGet (sendInput env now id data svc).2.sessions id = some session) ∧
    ((resizeTerminal env now id rows cols svc).1 = true ↔
      ∃ h, session.stream = some h ∧ invalidDimensions rows cols = false ∧
        env.streamSetWindow h rows cols = none) ∧
    ((resizeTerminal env now id rows cols svc).1 = true →
      mapGet (resizeTerminal env now id rows cols svc).2.sessions id
        = some { session with rows := rows, cols := cols, lastActivityAt := now }) ∧
    ((resizeTerminal env now id rows cols svc).1 = false →
      mapGet (resizeTerminal env now id rows cols svc).2.sessions id = some session) := by
  refine ⟨?_, ?_, ?_, ?_, ?_, ?_⟩
  all_goals
    simp only [sendInput, resizeTerminal, hreg]
    cases hstream : session.stream with
    | none => simp [TerminalService.emit, hreg]
    | some h =>
      cases hw : env.streamWrite h data <;>
      cases hdim : invalidDimensions rows cols <;>
      cases hsw : env.streamSetWindow h rows cols <;>
      simp [TerminalService.emit, hreg, hw, hdim, hsw, mapGet_mapSet_self]

/-- C7 (amended), on the sample service: input at time 1000 is written and recorded. -/
theorem activity_refreshed_on_success_witness :
    mapGet (sendInput Env.quiet 1000 "term-a" "ls\n" sampleService).2.sessions "term-a"
      = some { sampleSession with lastActivityAt := 1000 } :=
  (activity_refreshed_on_success Env.quiet 1000 "term-a" "ls\n" (some 24) (some 80)
    sampleService sampleSession (by decide)).2.1 (by decide)

/-! ## A start that fails -/

theorem startSession_sessions (newClient : Nat) (connectThrows : Option String)
    (sessionId username password : JsVal) (rows cols : Option Int) (svc : TerminalService) :
    (startSession newClient connectThrows sessionId username password rows cols svc).2.sessions
      = svc.sessions := by
  unfold startSession
  simp only
  split
  · rfl
  · split
    · rfl
    · split
      · rfl
      · cases connectThrows <;> rfl

theorem runStart_append (st : StartCall × TerminalService) (a b : List (Int × StartEvent)) :
    runStart st (a ++ b) = runStart (runStart st a) b := by
  simp [runStart, List.foldl_append]

theorem startStep_sessions_of_not_opensShell (st : StartCall × TerminalService)
    (ev : Int × StartEvent) (h : ev.2.opensShell = false) :
    (startStep st ev).2.sessions = st.2.sessions := by
  obtain ⟨t, e⟩ := ev
  cases e with
  | ready => simp [startStep, onReady, TerminalService.emit]
  | error m =>
    simp only [startStep, onError]
    split <;> rfl
  | timeout =>
    simp only [startStep, onTimeout]
    split
    · split
      · cases st.1.stream <;> rfl
      · rfl
    · rfl
  | shell err s =>
    cases err with
    | none => simp [StartEvent.opensShell] at h
    | some m =>
      simp only [startStep, onShell]
      cases st.1.shellRequests <;> rfl

theorem startStep_pending (st : StartCall × TerminalService) (ev : Int × StartEvent)
    (h : (startStep st ev).1.promise = .pending) :
    st.1.promise = .pending ∧ (startStep st ev).2.sessions = st.2.sessions := by
  obtain ⟨t, e⟩ := ev
  obtain ⟨call, svc⟩ := st
  cases e with
  | ready =>
    simp only [startStep, onReady] at h ⊢
    exact ⟨h, rfl⟩
  | error m =>
    simp only [startStep, onError] at h ⊢
    cases hp : call.promise <;> simp_all [Promise.reject]
  | timeout =>
    simp only [startStep, onTimeout] at h ⊢
    by_cases ha : call.timeoutArmed = true
    · by_cases hc : call.connectionEstablished = true
      · simp_all
      · cases hp : call.promise <;> simp_all [Promise.reject]
    · simp_all
  | shell err s =>
    simp only [startStep, onShell] at h ⊢
    cases hn : call.shellRequests with
    | zero => simp_all
    | succ n =>
      cases err with
      | none => cases hp : call.promise <;> simp_all [Promise.resolve]
      | some m => cases hp : call.promise <;> simp_all [Promise.reject, TerminalService.emit]

theorem startStep_rejects (st : StartCall × TerminalService) (ev : Int × StartEvent)
    (m : String) (hpending : st.1.promise = .pending)
    (hrej : (startStep st ev).1.promise = .rejected m) :
    (startStep st ev).2.sessions = st.2.sessions := by
  cases hopen : ev.2.opensShell with
  | false => exact startStep_sessions_of_not_opensShell st ev hopen
  | true =>
    obtain ⟨t, e⟩ := ev
    obtain ⟨call, svc⟩ := st
    cases e with
    | shell err s =>
      cases err with
      | some _ => simp [StartEvent.opensShell] at hopen
      | none =>
        simp only [startStep, onShell] at hrej ⊢
        cases hn : call.shellRequests with
        | zero => simp_all
        | succ n => simp_all [Promise.resolve]
    | ready => simp [StartEvent.opensShell] at hopen
    | error _ => simp [StartEvent.opensShell] at hopen
    | timeout => simp [StartEvent.opensShell] at hopen

theorem runStart_pending (st : StartCall × TerminalService) (evs : List (Int × StartEvent))
    (h : (runStart st evs).1.promise = .pending) :
    (runStart st evs).2.sessions = st.2.sessions := by
  induction evs using List.reverseRecOn with
  | nil => rfl
  | append_singleton init ev ih =>
    rw [runStart_append] at h ⊢
    have hstep := startStep_pending (runStart st init) ev (by simpa [runStart] using h)
    have := ih hstep.1
    have h2 : (runStart (runStart st init) [ev]).2.sessions = (runStart st init).2.sessions := by
      simpa [runStart] using hstep.2
    rw [h2, this]

theorem runStart_sessions_of_no_shell (evs : List (Int × StartEvent))
    (h : ∀ ev ∈ evs, ev.2.opensShell = false) :
    ∀ st : StartCall × TerminalService, (runStart st evs).2.sessions = st.2.sessions := by
  induction evs with
  | nil => intro st; rfl
  | cons ev rest ih =>
    intro st
    have h1 := startStep_sessions_of_not_opensShell st ev (h ev (List.mem_cons_self _ _))
    have h2 := ih (fun e he => h e (List.mem_cons_of_mem _ he)) (startStep st ev)
    simpa [runStart, h1] using h2

theorem startStep_rejected_stays (st : StartCall × TerminalService) (ev : Int × StartEvent)
    (m : String) (h : st.1.promise = .rejected m) :
    (startStep st ev).1.promise = .rejected m := by
  obtain ⟨t, e⟩ := ev
  obtain ⟨call, svc⟩ := st
  cases e with
  | ready => simpa [startStep, onReady] using h
  | error m2 => simp_all [startStep, onError, Promise.reject]
  | timeout =>
    simp only [startStep, onTimeout]
    by_cases ha : call.timeoutArmed = true
    · by_cases hc : call.connectionEstablished = true
      · simp_all
      · simp_all [Promise.reject]
    · simp_all
  | shell err s =>
    simp only [startStep, onShell]
    cases hn : call.shellRequests with
    | zero => simp_all
    | succ n =>
      cases err with
      | none => simp_all [Promise.resolve]
      | some m2 => simp_all [Promise.reject]

theorem runStart_rejected_stays (evs : List (Int × StartEvent)) :
    ∀ (st : StartCall × TerminalService) (m : String), st.1.promise = .rejected m →
      (runStart st evs).1.promise = .rejected m := by
  induction evs with
  | nil => intro st m h; exact h
  | cons ev rest ih =>
    intro st m h
    have := ih (startStep st ev) m (startStep_rejected_stays st ev m h)
    simpa [runStart] using this

/-- C8 (as stated, refuted): the client becomes ready, then emits an error, which rejects the
promise, and then the shell callback reports success: the start has failed, yet `term-b`,
absent before the call, is registered. -/
theorem rejected_start_can_register :
    mapGet sampleService.sessions "term-b" = none ∧
    (startSessionRun 3 none (.str "term-b") (.str "alice") (.str "pw") (some 24) (some 80)
        [(5, .ready), (6, .error "Keepalive timeout"), (7, .shell none (some 4))]
        sampleService).1 = .rejected "Keepalive timeout" ∧
    mapGet (startSessionRun 3 none (.str "term-b") (.str "alice") (.str "pw") (some 24)
        (some 80) [(5, .ready), (6, .error "Keepalive timeout"), (7, .shell none (some 4))]
        sampleService).2.sessions "term-b"
      = some { client := some 3, stream := some 4, username := "alice", createdAt := 7,
               lastActivityAt := 7, rows := some 24, cols := some 80, buffer := [] } := by
  decide

/-- C8 (amended): whenever a `startSession` call fails (rejected by validation, by a throwing
`connect`, by an `error` event, by a shell-open error or by the connect timeout), the registry
at the moment of the rejection equals what it was before the call, for every order of the
events `pre` that led to the rejection; and it still equals it after every continuation `post`
of ready, error, shell-callback and timeout events in which no shell callback reports
success. -/
theorem rejected_start_registers_nothing (newClient : Nat) (connectThrows : Option String)
    (sessionId username password : JsVal) (rows cols : Option Int)
    (pre post : List (Int × StartEvent)) (svc : TerminalService) (message : String)
    (hfirst : pre = [] ∨
      (startSessionRun newClient connectThrows sessionId username password rows cols
        pre.dropLast svc).1 = .pending)
    (hrej : (startSessionRun newClient connectThrows sessionId username password rows cols
        pre svc).1 = .rejected message)
    (hpost : ∀ ev ∈ post, ev.2.opensShell = false) :
    (startSessionRun newClient connectThrows sessionId username password rows cols
        pre svc).2.sessions = svc.sessions ∧
    (startSessionRun newClient connectThrows sessionId username password rows cols
        (pre ++ post) svc).2.sessions = svc.sessions ∧
    (startSessionRun newClient connectThrows sessionId username password rows cols
        (pre ++ post) svc).1 = .rejected message := by
  have hsess := startSession_sessions newClient connectThrows sessionId username password
    rows cols svc
  unfold startSessionRun at *
  cases hstart : startSession newClient connectThrows sessionId username password rows cols
    svc with
  | mk result svc1 =>
    rw [hstart] at hsess hrej hfirst
    cases result with
    | invalid m => exact ⟨hsess, hsess, hrej⟩
    | started call =>
      simp only at hsess hrej hfirst ⊢
      have hpre : (runStart (call, svc1) pre).2.sessions = svc1.sessions := by
        rcases hfirst with hnil | hpending
        · rw [hnil]; rfl
        · have hne : pre ≠ [] := by
            intro hnil
            rw [hnil] at hrej hpending
            simp only [List.dropLast_nil] at hpending
            rw [hpending] at hrej
            exact Promise.noConfusion hrej
          have hsplit : pre = pre.dropLast ++ [pre.getLast hne] :=
            (List.dropLast_append_getLast hne).symm
          have hbefore := runStart_pending (call, svc1) pre.dropLast hpending
          rw [hsplit, runStart_append] at hrej ⊢
          have hstep := startStep_rejects (runStart (call, svc1) pre.dropLast)
            (pre.getLast hne) message hpending (by simpa [runStart] using hrej)
          have h2 : (runStart (runStart (call, svc1) pre.dropLast) [pre.getLast hne]).2.sessions
              = (runStart (call, svc1) pre.dropLast).2.sessions := by
            simpa [runStart] using hstep
          rw [h2, hbefore]
      have hall := runStart_sessions_of_no_shell post hpost (runStart (call, svc1) pre)
      refine ⟨hpre.trans hsess, ?_, ?_⟩
      · rw [runStart_append, hall, hpre, hsess]
      · rw [runStart_append]
        exact runStart_rejected_stays post (runStart (call, svc1) pre) message hrej

/-- C8 (amended), on the sample service: ready, then an error, then the timer and a failed
shell callback. -/
theorem rejected_start_registers_nothing_witness :
    (startSessionRun 3 none (.str "term-b") (.str "alice") (.str "pw") (some 24) (some 80)
        ([(5, .ready), (6, .error "Keepalive timeout")]
          ++ [(7, .timeout), (8, .shell (some "Channel open failure") none)])
        sampleService).2.sessions = sampleService.sessions :=
  (rejected_start_registers_nothing 3 none (.str "term-b") (.str "alice") (.str "pw")
    (some 24) (some 80) [(5, .ready), (6, .error "Keepalive timeout")]
    [(7, .timeout), (8, .shell (some "Channel open failure") none)] sampleService
    "Keepalive timeout" (Or.inr (by decide)) (by decide) (by decide)).2.1

/-! ## What the client is told when a start fails -/

/-- C9 (as stated, refuted): two runs of the `terminal:start` handler that differ only in the
message of the remote error emit different `terminal:error` events, each carrying the remote
message. -/
theorem start_failure_echoes_remote_message :
    (terminalStartRun 3 none { id := "a", user := some (.str "alice") }
        { rows := some 24, cols := some 80, username := .str "alice", password := .str "pw" }
        [(5, .error "connect ECONNREFUSED 10.0.0.7:22")] (TerminalService.new 0)).emitted
      = [.terminalError "connect ECONNREFUSED 10.0.0.7:22"] ∧
    (terminalStartRun 3 none { id := "a", user := some (.str "alice") }
        { rows := some 24, cols := some 80, username := .str "alice", password := .str "pw" }
        [(5, .error "All configured authentication methods failed")]
        (TerminalService.new 0)).emitted
      = [.terminalError "All configured authentication methods failed"] ∧
    (terminalStartRun 3 none { id := "a", user := some (.str "alice") }
        { rows := some 24, cols := some 80, username := .str "alice", password := .str "pw" }
        [(5, .error "connect ECONNREFUSED 10.0.0.7:22")] (TerminalService.new 0)).emitted
      ≠ (terminalStartRun 3 none { id := "a", user := some (.str "alice") }
        { rows := some 24, cols := some 80, username := .str "alice", password := .str "pw" }
        [(5, .error "All configured authentication methods failed")]
        (TerminalService.new 0)).emitted := by
  decide

theorem afterAwait_of_not_awaiting (run : HandlerRun) (h : run.awaiting = false) :
    afterAwait run = run := by
  unfold afterAwait
  split
  · simp_all
  · rfl

theorem handlerStep_not_awaiting (run : HandlerRun) (ev : Int × StartEvent)
    (h : run.awaiting = false) : (handlerStep run ev).awaiting = false := by
  unfold handlerStep
  cases hc : run.call with
  | none => simpa using h
  | some call =>
    simp only
    rw [afterAwait_of_not_awaiting _ (by simpa using h)]
    exact h

theorem foldl_handlerStep_not_awaiting (evs : List (Int × StartEvent)) :
    ∀ run : HandlerRun, run.awaiting = false →
      (evs.foldl handlerStep run).awaiting = false := by
  induction evs with
  | nil => intro run h; exact h
  | cons ev rest ih =>
    intro run h
    exact ih _ (handlerStep_not_awaiting run ev h)

theorem afterAwait_suspended (run : HandlerRun) (h : run.emitted = [])
    (hsome : run.call ≠ none) : (afterAwait run).Suspended := by
  unfold HandlerRun.Suspended afterAwait
  cases ha : run.awaiting with
  | false => simp [ha]
  | true =>
    cases hc : run.call with
    | none => exact absurd hc hsome
    | some call =>
      cases hp : call.promise with
      | pending => simp [ha, hc, hp, h]
      | resolved => simp [hp]
      | rejected m => simp [hp]

theorem handlerStep_suspended (run : HandlerRun) (ev : Int × StartEvent)
    (h : run.Suspended) : (handlerStep run ev).Suspended := by
  cases ha : run.awaiting with
  | false =>
    intro h2
    rw [handlerStep_not_awaiting run ev ha] at h2
    exact Bool.noConfusion h2
  | true =>
    obtain ⟨hem, call, hcall, _⟩ := h ha
    unfold handlerStep
    simp only [hcall]
    exact afterAwait_suspended _ hem (by simp)

theorem foldl_handlerStep_suspended (evs : List (Int × StartEvent)) :
    ∀ run : HandlerRun, run.Suspended → (evs.foldl handlerStep run).Suspended := by
  induction evs with
  | nil => intro run h; exact h
  | cons ev rest ih =>
    intro run h
    exact ih _ (handlerStep_suspended run ev h)

theorem terminalStart_suspended (newClient : Nat) (connectThrows : Option String)
    (socket : Socket) (data : StartPayload) (svc : TerminalService) :
    (terminalStart newClient connectThrows socket data svc).Suspended := by
  unfold terminalStart
  cases socket.user with
  | none => intro h; simp [HandlerRun.fail] at h
  | some u =>
    simp only
    split
    · intro h; simp [HandlerRun.fail] at h
    · split
      · intro h; simp [HandlerRun.fail] at h
      · split
        · intro h; simp [HandlerRun.fail] at h
        · exact afterAwait_suspended _ rfl (by simp)

theorem terminalStart_connect_throws (newClient : Nat) (socket : Socket) (data : StartPayload)
    (svc : TerminalService) (message : String)
    (h : (terminalStart newClient none socket data svc).awaiting = true) :
    (terminalStart newClient (some message) socket data svc).emitted
      = [.terminalError message] := by
  unfold terminalStart at h ⊢
  cases hu : socket.user with
  | none => simp [hu, HandlerRun.fail] at h
  | some u =>
    simp only [hu] at h ⊢
    by_cases h1 : data.username ≠ u
    · simp [h1, HandlerRun.fail] at h
    · by_cases h2 : (!data.username.truthy || !data.password.truthy) = true
      · simp [h1, h2, HandlerRun.fail] at h
      · simp only [h1, h2, if_false] at h ⊢
        unfold startSession at h ⊢
        simp only at h ⊢
        by_cases h3 : (!(JsVal.str ("term-" ++ socket.id)).truthy
            || !(JsVal.str ("term-" ++ socket.id)).isString) = true
        · simp [h3, HandlerRun.fail] at h
        · by_cases h4 : (!data.username.truthy || !data.username.isString
              || !data.password.truthy || !data.password.isString) = true
          · simp [h3, h4, HandlerRun.fail] at h
          · by_cases h5 : invalidDimensions (data.rows.getD 24) (data.cols.getD 80) = true
            · simp [h3, h4, h5, HandlerRun.fail] at h
            · simp [h3, h4, h5, afterAwait, Promise.reject]

/-- C9 (amended): when `startSession` fails because of a remote-side error while the
`terminal:start` handler is waiting for it, the handler emits exactly one `terminal:error`
event whose text is the message of the error that rejected the promise: the remote error's
own message, unchanged, for a connection or authentication error (`error` event), for a
shell-open failure and for a throwing `connect`, and the fixed text 'SSH connection timeout'
for the connect timeout. -/
theorem start_failure_text (newClient : Nat) (socket : Socket) (data : StartPayload)
    (evs : List (Int × StartEvent)) (svc : TerminalService) (t : Int) (message : String)
    (shellStream : Option Nat)
    (hawait : (terminalStartRun newClient none socket data evs svc).awaiting = true) :
    (handlerStep (terminalStartRun newClient none socket data evs svc)
        (t, .error message)).emitted = [.terminalError message] ∧
    (∀ call, (terminalStartRun newClient none socket data evs svc).call = some call →
      0 < call.shellRequests →
      (handlerStep (terminalStartRun newClient none socket data evs svc)
        (t, .shell (some message) shellStream)).emitted = [.terminalError message]) ∧
    (∀ call, (terminalStartRun newClient none socket data evs svc).call = some call →
      call.timeoutArmed = true → call.connectionEstablished = false →
      (handlerStep (terminalStartRun newClient none socket data evs svc)
        (t, .timeout)).emitted = [.terminalError "SSH connection timeout"]) ∧
    (terminalStart newClient (some message) socket data svc).emitted
      = [.terminalError message] := by
  have hsusp : (terminalStartRun newClient none socket data evs svc).Suspended :=
    foldl_handlerStep_suspended evs _ (terminalStart_suspended newClient none socket data svc)
  obtain ⟨hem, call, hcall, hp⟩ := hsusp hawait
  have hinit : (terminalStart newClient none socket data svc).awaiting = true := by
    cases h0 : (terminalStart newClient none socket data svc).awaiting with
    | true => rfl
    | false =>
      have := foldl_handlerStep_not_awaiting evs _ h0
      unfold terminalStartRun at hawait
      rw [this] at hawait
      exact Bool.noConfusion hawait
  refine ⟨?_, ?_, ?_, terminalStart_connect_throws newClient socket data svc message hinit⟩
  · simp [handlerStep, hcall, startStep, onError, afterAwait, hawait, hp, Promise.reject, hem]
  · intro c hc hreq
    rw [hcall] at hc
    cases hc
    obtain ⟨n, hn⟩ : ∃ n, call.shellRequests = n + 1 := ⟨call.shellRequests - 1, by omega⟩
    simp [handlerStep, hcall, startStep, onShell, hn, afterAwait, hawait, hp, Promise.reject,
      hem]
  · intro c hc harmed hest
    rw [hcall] at hc
    cases hc
    simp [handlerStep, hcall, startStep, onTimeout, harmed, hest, afterAwait, hawait, hp,
      Promise.reject, hem]

/-- C9 (amended), for a handler that has just called `startSession`. -/
theorem start_failure_text_witness :
    (handlerStep (terminalStartRun 3 none { id := "a", user := some (.str "alice") }
        { rows := some 24, cols := some 80, username := .str "alice", password := .str "pw" }
        [(5, .ready)] (TerminalService.new 0))
      (6, .error "All configured authentication methods failed")).emitted
      = [.terminalError "All configured authentication methods failed"] :=
  (start_failure_text 3 { id := "a", user := some (.str "alice") }
    { rows := some 24, cols := some 80, username := .str "alice", password := .str "pw" }
    [(5, .ready)] (TerminalService.new 0) 6 "All configured authentication methods failed"
    none (by decide)).1

/-! ## The registry stays a Map -/

theorem new_wf (timer : Nat) : MapWF (TerminalService.new timer).sessions := by
  simp [TerminalService.new, MapWF, mapKeys_nil]

theorem closeSession_wf (env : Env) (id : String) (svc : TerminalService)
    (h : MapWF svc.sessions) : MapWF (closeSession env id svc).sessions := by
  cases hget : mapGet svc.sessions id with
  | none => rw [closeSession_of_absent env id svc hget]; exact h
  | some session =>
    rw [closeSession_of_registered env id svc session hget]
    exact mapDelete_wf svc.sessions id h

theorem sendInput_wf (env : Env) (now : Int) (id data : String) (svc : TerminalService)
    (h : MapWF svc.sessions) : MapWF (sendInput env now id data svc).2.sessions := by
  unfold sendInput
  cases hget : mapGet svc.sessions id with
  | none => simpa [TerminalService.emit] using h
  | some session =>
    cases hs : session.stream with
    | none => simpa [hs, TerminalService.emit] using h
    | some s =>
      cases hw : env.streamWrite s data with
      | some msg => simpa [hs, hw, TerminalService.emit] using h
      | none => simpa [hs, hw, TerminalService.emit] using mapSet_wf svc.sessions id _ h

theorem resizeTerminal_wf (env : Env) (now : Int) (id : String) (rows cols : Option Int)
    (svc : TerminalService) (h : MapWF svc.sessions) :
    MapWF (resizeTerminal env now id rows cols svc).2.sessions := by
  unfold resizeTerminal
  cases hget : mapGet svc.sessions id with
  | none => simpa [TerminalService.emit] using h
  | some session =>
    cases hs : session.stream with
    | none => simpa [hs, TerminalService.emit] using h
    | some s =>
      cases hd : invalidDimensions rows cols with
      | true => simpa [hs, hd, TerminalService.emit] using h
      | false =>
        cases hw : env.streamSetWindow s rows cols with
        | some msg => simpa [hs, hd, hw, TerminalService.emit] using h
        | none =>
          simpa [hs, hd, hw, TerminalService.emit] using mapSet_wf svc.sessions id _ h

theorem startStep_wf (st : StartCall × TerminalService) (ev : Int × StartEvent)
    (h : MapWF st.2.sessions) : MapWF (startStep st ev).2.sessions := by
  cases hopen : ev.2.opensShell with
  | false => rw [startStep_sessions_of_not_opensShell st ev hopen]; exact h
  | true =>
    obtain ⟨t, e⟩ := ev
    obtain ⟨call, svc⟩ := st
    cases e with
    | shell err s =>
      cases err with
      | some _ => simp [StartEvent.opensShell] at hopen
      | none =>
        simp only [startStep, onShell]
        cases hn : call.shellRequests with
        | zero => exact h
        | succ n => simpa [TerminalService.emit] using mapSet_wf svc.sessions _ _ h
    | ready => simp [StartEvent.opensShell] at hopen
    | error _ => simp [StartEvent.opensShell] at hopen
    | timeout => simp [StartEvent.opensShell] at hopen

theorem map_sweepRecord_wf (keep : String → Session → Bool) (m : MapData) (h : MapWF m) :
    MapWF (m.map (sweepRecord keep)) := by
  unfold MapWF mapKeys at *
  rw [mapEntries_map_sweepRecord]
  exact List.Nodup.sublist (List.Sublist.map _ (List.filter_sublist _)) h

theorem _cleanupIdleSessions_wf (env : Env) (now : Int) (svc : TerminalService)
    (h : MapWF svc.sessions) : MapWF (_cleanupIdleSessions env now svc).sessions := by
  rw [_cleanupIdleSessions_closed_form env now svc h]
  exact map_sweepRecord_wf _ svc.sessions h

theorem cleanup_wf (env : Env) (svc : TerminalService) (h : MapWF svc.sessions) :
    MapWF (cleanup env svc).sessions := by
  rw [cleanup_closed_form env svc h]
  exact map_sweepRecord_wf _ svc.sessions h

/-! ## Commands for a session that is not registered -/

/-- C11: for every session id that is not registered, input and resize commands write to no
channel and leave the registry unchanged: `sendInput` and `resizeTerminal` return false and add
nothing but one warning to the log, the `terminal:input` handler emits exactly one
`terminal:error` event ('Terminal session not active') and the `terminal:resize` handler emits
nothing, both leaving the service untouched. -/
theorem unregistered_commands_ignored (env : Env) (now : Int) (socket : Socket)
    (id data : String) (rows cols : Option Int) (svc : TerminalService)
    (hid : mapGet svc.sessions id = none)
    (hsock : mapGet svc.sessions socket.sessionId = none) :
    (sendInput env now id data svc
      = (false, svc.emit (.log .warn ("Session not found: " ++ id) none))) ∧
    (resizeTerminal env now id rows cols svc
      = (false, svc.emit (.log .warn ("Session not found: " ++ id) none))) ∧
    (sendInput env now id data svc).2.sessions = svc.sessions ∧
    (resizeTerminal env now id rows cols svc).2.sessions = svc.sessions ∧
    (terminalInput env now socket data svc
      = ([.terminalError "Terminal session not active"], svc)) ∧
    (terminalResize env now socket rows cols svc = ([], svc)) := by
  refine ⟨?_, ?_, ?_, ?_, ?_, ?_⟩
  · simp [sendInput, hid]
  · simp [resizeTerminal, hid]
  · simp [sendInput, hid, TerminalService.emit]
  · simp [resizeTerminal, hid, TerminalService.emit]
  · simp [terminalInput, hasSession, mapHas, hsock]
  · simp [terminalResize, hasSession, mapHas, hsock]

/-- C11, on the sample service: socket `b` has no session. -/
theorem unregistered_commands_ignored_witness :
    terminalInput Env.quiet 1000 { id := "b", user := some (.str "alice") } "ls\n"
        sampleService
      = ([.terminalError "Terminal session not active"], sampleService) ∧
    terminalResize Env.quiet 1000 { id := "b", user := some (.str "alice") } (some 30)
        (some 100) sampleService
      = ([], sampleService) :=
  have h := unregistered_commands_ignored Env.quiet 1000
    { id := "b", user := some (.str "alice") } "term-b" "ls\n" (some 30) (some 100)
    sampleService (by decide) (by decide)
  ⟨h.2.2.2.2.1, h.2.2.2.2.2⟩

/-! ## Failing stream calls -/

/-- C16: for every registered session, if the stream's `write` (in `sendInput`) or `setWindow`
(in `resizeTerminal`) throws, the operation returns false instead of throwing, and the session
remains alive: the registry is unchanged, so the session stays registered with its rows, cols
and `lastActivityAt` as they were; only the attempted call and one error line are recorded. -/
theorem throwing_stream_call_returns_false (env : Env) (now : Int) (id data : String)
    (rows cols : Option Int) (svc : TerminalService) (session : Session) (h : Nat)
    (hreg : mapGet svc.sessions id = some session) (hstream : session.stream = some h) :
    (∀ msg, env.streamWrite h data = some msg →
      (sendInput env now id data svc).1 = false ∧
      (sendInput env now id data svc).2.sessions = svc.sessions ∧
      mapGet (sendInput env now id data svc).2.sessions id = some session ∧
      (sendInput env now id data svc).2.effects = svc.effects ++
        [.streamWrite h data,
         .log .error ("Error writing to session " ++ id ++ ":") (some msg)]) ∧
    (∀ msg, env.streamSetWindow h rows cols = some msg →
      (resizeTerminal env now id rows cols svc).1 = false ∧
      (resizeTerminal env now id rows cols svc).2.sessions = svc.sessions ∧
      mapGet (resizeTerminal env now id rows cols svc).2.sessions id = some session) := by
  refine ⟨?_, ?_⟩
  · intro msg hw
    simp [sendInput, hreg, hstream, hw, TerminalService.emit]
  · intro msg hw
    cases hd : invalidDimensions rows cols <;>
      simp [resizeTerminal, hreg, hstream, hw, hd, TerminalService.emit]

/-- C16, on the sample service with a stream whose calls throw. -/
theorem throwing_stream_call_returns_false_witness :
    (sendInput Env.brokenStream 1000 "term-a" "ls\n" sampleService).1 = false ∧
    mapGet (sendInput Env.brokenStream 1000 "term-a" "ls\n" sampleService).2.sessions "term-a"
      = some sampleSession ∧
    (resizeTerminal Env.brokenStream 1000 "term-a" (some 30) (some 100) sampleService).1
      = false ∧
    mapGet (resizeTerminal Env.brokenStream 1000 "term-a" (some 30) (some 100)
      sampleService).2.sessions "term-a" = some sampleSession :=
  have h := throwing_stream_call_returns_false Env.brokenStream 1000 "term-a" "ls\n" (some 30)
    (some 100) sampleService sampleSession 2 (by decide) (by decide)
  have h1 := h.1 "write after end" rfl
  have h2 := h.2 "Not connected" rfl
  ⟨h1.1, h1.2.2.1, h2.1, h2.2.2⟩

/-- C17 (the code at the failing input): `term-a` is registered for socket `a` and the `write`
of its stream throws; the `terminal:input` handler emits nothing to the client, the failure
only reaches the log. -/
theorem input_write_failure_emits_nothing :
    mapGet sampleService.sessions "term-a" = some sampleSession ∧
    Env.brokenStream.streamWrite 2 "ls\n" = some "write after end" ∧
    (terminalInput Env.brokenStream 1000 { id := "a", user := some (.str "alice") } "ls\n"
        sampleService).1 = [] ∧
    (terminalInput Env.brokenStream 1000 { id := "a", user := some (.str "alice") } "ls\n"
        sampleService).2.effects
      = [.streamWrite 2 "ls\n",
         .log .error "Error writing to session term-a:" (some "write after end")] := by
  decide

/-! ## Validation of the arguments of startSession -/

/-- C18: for every `startSession` call whose `sessionId` is empty or not a string the call is
rejected with 'Invalid session ID', whatever the other arguments; with a non-empty string id
and a username or password that is missing, empty or not a string it is rejected with 'Invalid
credentials', whatever the dimensions; with valid id and credentials and dimensions that fail
the check it is rejected with 'Invalid terminal dimensions'.  In each case the service is
returned as it was: no client is created, no `connect` is made, the registry is unchanged. -/
theorem startSession_validation (newClient : Nat) (connectThrows : Option String)
    (sessionId username password : JsVal) (rows cols : Option Int) (svc : TerminalService) :
    ((sessionId = .str "" ∨ ∀ s, sessionId ≠ .str s) →
      startSession newClient connectThrows sessionId username password rows cols svc
        = (.invalid "Invalid session ID", svc)) ∧
    (∀ sid, sessionId = .str sid → sid ≠ "" →
      (username = .undefined ∨ username = .str "" ∨ (∀ s, username ≠ .str s) ∨
        password = .undefined ∨ password = .str "" ∨ (∀ s, password ≠ .str s)) →
      startSession newClient connectThrows sessionId username password rows cols svc
        = (.invalid "Invalid credentials", svc)) ∧
    (∀ sid user pw, sessionId = .str sid → sid ≠ "" → username = .str user → user ≠ "" →
      password = .str pw → pw ≠ "" → invalidDimensions (rows.getD 24) (cols.getD 80) = true →
      startSession newClient connectThrows sessionId username password rows cols svc
        = (.invalid "Invalid terminal dimensions", svc)) := by
  refine ⟨?_, ?_, ?_⟩
  · intro h
    have hbad : (!sessionId.truthy || !sessionId.isString) = true := by
      rcases h with h | h
      · simp [h, JsVal.truthy]
      · cases sessionId with
        | str s => exact absurd rfl (h s)
        | _ => simp [JsVal.isString]
    simp [startSession, hbad]
  · intro sid hsid hne h
    have hgood : (!sessionId.truthy || !sessionId.isString) = false := by
      simp [hsid, JsVal.truthy, JsVal.isString, hne]
    have hbad : (!username.truthy || !username.isString || !password.truthy
        || !password.isString) = true := by
      rcases h with h | h | h | h | h | h
      · simp [h, JsVal.truthy]
      · simp [h, JsVal.truthy]
      · cases username with
        | str s => exact absurd rfl (h s)
        | _ => simp [JsVal.isString]
      · simp [h, JsVal.truthy]
      · simp [h, JsVal.truthy]
      · cases password with
        | str s => exact absurd rfl (h s)
        | _ => simp [JsVal.isString]
    simp only [startSession, hgood, hbad]
    simp
  · intro sid user pw hsid hne hu hune hp hpne hd
    simp [startSession, hsid, hu, hp, JsVal.truthy, JsVal.isString, hne, hune, hpne, hd]

/-- C18, for a numeric session id, a missing password, and valid arguments with 3 rows. -/
theorem startSession_validation_witness :
    startSession 3 none (.num 7) (.str "alice") (.str "pw") (some 24) (some 80) sampleService
      = (.invalid "Invalid session ID", sampleService) ∧
    startSession 3 none (.str "term-b") (.str "alice") .undefined (some 3) (some 80)
        sampleService
      = (.invalid "Invalid credentials", sampleService) ∧
    startSession 3 none (.str "term-b") (.str "alice") (.str "pw") (some 3) (some 80)
        sampleService
      = (.invalid "Invalid terminal dimensions", sampleService) :=
  ⟨(startSession_validation 3 none (.num 7) (.str "alice") (.str "pw") (some 24) (some 80)
      sampleService).1 (Or.inr (fun _ h => JsVal.noConfusion h)),
   (startSession_validation 3 none (.str "term-b") (.str "alice") .undefined (some 3)
      (some 80) sampleService).2.1 "term-b" rfl (by decide)
      (Or.inr (Or.inr (Or.inr (Or.inl rfl)))),
   (startSession_validation 3 none (.str "term-b") (.str "alice") (.str "pw") (some 3)
      (some 80) sampleService).2.2 "term-b" "alice" "pw" rfl (by decide) rfl (by decide) rfl
      (by decide) (by decide)⟩

/-! ## Events on an established session -/

theorem outputsOf_append (a b : List ClientEvent) :
    outputsOf (a ++ b) = outputsOf a ++ outputsOf b := by
  induction a with
  | nil => rfl
  | cons e rest ih => cases e <;> simp [outputsOf, ih]

theorem closedCount_append (a b : List ClientEvent) :
    closedCount (a ++ b) = closedCount a + closedCount b := by
  induction a with
  | nil => simp [closedCount]
  | cons e rest ih =>
    cases e <;> simp [closedCount, ih]
    omega

theorem terminalInput_emitted (env : Env) (now : Int) (socket : Socket) (data : String)
    (svc : TerminalService) :
    (terminalInput env now socket data svc).1 = [] ∨
    (terminalInput env now socket data svc).1
      = [.terminalError "Terminal session not active"] := by
  unfold terminalInput
  split
  · exact Or.inr rfl
  · exact Or.inl rfl

theorem terminalResize_emitted (env : Env) (now : Int) (socket : Socket)
    (rows cols : Option Int) (svc : TerminalService) :
    (terminalResize env now socket rows cols svc).1 = [] := by
  unfold terminalResize
  split <;> rfl

theorem handlerStep_of_not_awaiting (run : HandlerRun) (ev : Int × StartEvent)
    (h : run.awaiting = false) :
    (handlerStep run ev).emitted = run.emitted ∧
    (handlerStep run ev).listening = run.listening := by
  unfold handlerStep
  cases hc : run.call with
  | none => exact ⟨rfl, rfl⟩
  | some call =>
    simp only
    rw [afterAwait_of_not_awaiting _ (by simpa using h)]
    exact ⟨rfl, rfl⟩

/-- One socket event on a run whose handler has finished: the handler stays finished, the
listeners stay where they are, and the event adds the output of a `data` event of the listened
stream, one `terminal:closed` for a `close` event of the listened stream, and otherwise no
output and no `terminal:closed`. -/
theorem socketStep_established (env : Env) (socket : Socket) (run : HandlerRun)
    (ev : Int × SocketEvent) (h : run.awaiting = false) :
    (socketStep env socket run ev).awaiting = false ∧
    (socketStep env socket run ev).listening = run.listening ∧
    outputsOf (socketStep env socket run ev).emitted
      = outputsOf run.emitted ++ chunksOf run.listening [ev] ∧
    closedCount (socketStep env socket run ev).emitted
      = closedCount run.emitted + streamCloses run.listening [ev] := by
  obtain ⟨t, e⟩ := ev
  cases e with
  | start e =>
    have h1 := handlerStep_of_not_awaiting run (t, e) h
    have h2 := handlerStep_not_awaiting run (t, e) h
    simp [socketStep, h1.1, h1.2, h2, chunksOf, streamCloses]
  | input data =>
    rcases terminalInput_emitted env t socket data run.service with he | he <;>
      simp [socketStep, h, he, chunksOf, streamCloses, outputsOf_append, closedCount_append,
        outputsOf, closedCount]
  | resize rows cols =>
    simp [socketStep, h, terminalResize_emitted, chunksOf, streamCloses]
  | close => simp [socketStep, h, chunksOf, streamCloses]
  | disconnect => simp [socketStep, h, chunksOf, streamCloses]
  | sweep => simp [socketStep, h, chunksOf, streamCloses]
  | streamData stream chunk =>
    by_cases hl : run.listening = some stream <;>
      simp [socketStep, onStreamData, h, hl, chunksOf, streamCloses, outputsOf_append,
        closedCount_append, outputsOf, closedCount]
  | streamClose stream =>
    by_cases hl : run.listening = some stream <;>
      simp [socketStep, onStreamClose, h, hl, chunksOf, streamCloses, outputsOf_append,
        closedCount_append, outputsOf, closedCount]
  | streamError stream message =>
    by_cases hl : run.listening = some stream <;>
      simp [socketStep, onStreamError, h, hl, chunksOf, streamCloses, outputsOf_append,
        closedCount_append, outputsOf, closedCount]

theorem chunksOf_cons (listening : Option Nat) (ev : Int × SocketEvent)
    (rest : List (Int × SocketEvent)) :
    chunksOf listening (ev :: rest) = chunksOf listening [ev] ++ chunksOf listening rest := by
  obtain ⟨t, e⟩ := ev
  cases e with
  | streamData stream chunk =>
    by_cases hl : listening = some stream <;> simp [chunksOf, hl]
  | _ => simp [chunksOf]

theorem streamCloses_cons (listening : Option Nat) (ev : Int × SocketEvent)
    (rest : List (Int × SocketEvent)) :
    streamCloses listening (ev :: rest)
      = streamCloses listening [ev] + streamCloses listening rest := by
  obtain ⟨t, e⟩ := ev
  cases e with
  | streamClose stream =>
    by_cases hl : listening = some stream <;> simp [streamCloses, hl]
    omega
  | _ => simp [streamCloses]

theorem socketRun_established (env : Env) (socket : Socket)
    (evs : List (Int × SocketEvent)) :
    ∀ run : HandlerRun, run.awaiting = false →
      (socketRun env socket run evs).awaiting = false ∧
      (socketRun env socket run evs).listening = run.listening ∧
      outputsOf (socketRun env socket run evs).emitted
        = outputsOf run.emitted ++ chunksOf run.listening evs ∧
      closedCount (socketRun env socket run evs).emitted
        = closedCount run.emitted + streamCloses run.listening evs := by
  induction evs with
  | nil => intro run h; simp [socketRun, chunksOf, streamCloses, h]
  | cons ev rest ih =>
    intro run h
    have hstep := socketStep_established env socket run ev h
    have hrest := ih (socketStep env socket run ev) hstep.1
    have hrun : socketRun env socket run (ev :: rest)
        = socketRun env socket (socketStep env socket run ev) rest := rfl
    rw [hrun]
    refine ⟨hrest.1, hrest.2.1.trans hstep.2.1, ?_, ?_⟩
    · rw [hrest.2.2.1, hstep.2.2.1, hstep.2.1, chunksOf_cons run.listening ev rest,
        List.append_assoc]
    · rw [hrest.2.2.2, hstep.2.2.2, hstep.2.1, streamCloses_cons run.listening ev rest,
        Nat.add_assoc]

/-- C12: when the stream of a registered session, on which the `terminal:start` handler
attached its listeners, emits a close event, the `close` listener performs the full teardown:
afterwards the registry no longer contains the session id, `closeSession` has ended the stream
and the client connection, and the event has put exactly one `terminal:closed` at the end of
what was emitted to the client. -/
theorem stream_close_tears_down (env : Env) (socket : Socket) (run : HandlerRun) (h : Nat)
    (session : Session) (t : Int)
    (hl : run.listening = some h)
    (hreg : mapGet run.service.sessions socket.sessionId = some session)
    (hstream : session.stream = some h)
    (hwf : MapWF run.service.sessions) :
    hasSession (socketStep env socket run (t, .streamClose h)).service socket.sessionId = false ∧
    (socketStep env socket run (t, .streamClose h)).emitted
      = run.emitted ++ [.terminalClosed] ∧
    closedCount (socketStep env socket run (t, .streamClose h)).emitted
      = closedCount run.emitted + 1 ∧
    (socketStep env socket run (t, .streamClose h)).service.effects
      = run.service.effects ++ closeEffects env socket.sessionId session ∧
    Effect.streamEnd h ∈ closeEffects env socket.sessionId session ∧
    (∀ c, session.client = some c →
      Effect.clientEnd c ∈ closeEffects env socket.sessionId session) := by
  have hstep : socketStep env socket run (t, .streamClose h)
      = { run with
          service := closeSession env socket.sessionId run.service
          emitted := run.emitted ++ [.terminalClosed] } := by
    simp [socketStep, onStreamClose, hl]
  rw [hstep, closeSession_of_registered env _ _ session hreg]
  refine ⟨?_, rfl, ?_, rfl, streamEnd_mem_closeEffects env _ session h hstream, ?_⟩
  · simp [hasSession, mapHas, mapGet_mapDelete_self _ _ hwf]
  · simp [closedCount_append, closedCount]
  · intro c hc
    exact clientEnd_mem_closeEffects env _ session c hc

/-- C12, for the session that socket `a` has just established. -/
theorem stream_close_tears_down_witness :
    hasSession (socketStep Env.quiet { id := "a", user := some (.str "alice") }
        establishedRun (7, .streamClose 4)).service "term-a" = false ∧
    (socketStep Env.quiet { id := "a", user := some (.str "alice") } establishedRun
        (7, .streamClose 4)).emitted = [.terminalReady "term-a", .terminalClosed] :=
  have h := stream_close_tears_down Env.quiet { id := "a", user := some (.str "alice") }
    establishedRun 4
    { client := some 3, stream := some 4, username := "alice", createdAt := 6,
      lastActivityAt := 6, rows := some 24, cols := some 80, buffer := [] }
    7 (by decide) (by decide) rfl (by decide)
  ⟨h.1, h.2.1.trans (by decide)⟩

/-- C13 (as stated, refuted): on the established session of socket `a`, the close triggers
stream close, client `terminal:close`, stream close emit two `terminal:closed` events. -/
theorem repeated_stream_close_emits_twice :
    (socketRun Env.quiet { id := "a", user := some (.str "alice") } establishedRun
        [(7, .streamClose 4), (8, .close), (9, .streamClose 4)]).emitted
      = [.terminalReady "term-a", .terminalClosed, .terminalClosed] ∧
    closedCount (socketRun Env.quiet { id := "a", user := some (.str "alice") } establishedRun
        [(7, .streamClose 4), (8, .close), (9, .streamClose 4)]).emitted = 2 := by
  decide

/-- C13 (amended): for every sequence of events on the socket of one session (client
`terminal:close`, socket disconnect, idle-reaper sweep, stream close or error events, and also
input, resize, data and late events of the start, in any order and with repetitions), the
closed event is emitted once for each close event of the stream that carries the listeners of
the handler and by nothing else; so it is emitted at most once when that stream emits close at
most once. -/
theorem closed_once_per_stream_close (env : Env) (socket : Socket) (run : HandlerRun)
    (evs : List (Int × SocketEvent)) (hdone : run.awaiting = false) :
    closedCount (socketRun env socket run evs).emitted
      = closedCount run.emitted + streamCloses run.listening evs ∧
    (streamCloses run.listening evs ≤ 1 →
      closedCount (socketRun env socket run evs).emitted ≤ closedCount run.emitted + 1) := by
  have h := (socketRun_established env socket evs run hdone).2.2.2
  refine ⟨h, ?_⟩
  intro hle
  omega

/-- C13 (amended), on the established session of socket `a`: client close, disconnect, an
idle sweep and a stream error around a single stream close. -/
theorem closed_once_per_stream_close_witness :
    closedCount (socketRun Env.quiet { id := "a", user := some (.str "alice") } establishedRun
        [(7, .close), (8, .streamError 4 "read ECONNRESET"), (9, .streamClose 4),
         (10, .disconnect), (2000000, .sweep)]).emitted = 1 :=
  (closed_once_per_stream_close Env.quiet { id := "a", user := some (.str "alice") }
    establishedRun
    [(7, .close), (8, .streamError 4 "read ECONNRESET"), (9, .streamClose 4),
     (10, .disconnect), (2000000, .sweep)] (by decide)).1.trans (by decide)

/-- C19: for every sequence of data chunks produced by the channel of a session, the listener
emits one `terminal:output` event per chunk, carrying that chunk, in the order in which the
channel produced them; and whatever other events are interleaved with the data events, the
chunks of the output events emitted are the chunks of the data events, in the same order. -/
theorem output_events_in_order (env : Env) (socket : Socket) (run : HandlerRun) (h : Nat)
    (chunks : List (Int × String)) (evs : List (Int × SocketEvent))
    (hdone : run.awaiting = false) (hl : run.listening = some h) :
    (socketRun env socket run (chunks.map (fun c => (c.1, .streamData h c.2)))).emitted
      = run.emitted ++ chunks.map (fun c => ClientEvent.terminalOutput c.2) ∧
    outputsOf (socketRun env socket run evs).emitted
      = outputsOf run.emitted ++ chunksOf (some h) evs := by
  refine ⟨?_, ?_⟩
  · clear hdone
    induction chunks generalizing run with
    | nil => simp [socketRun]
    | cons c rest ih =>
      have hstep : socketStep env socket run (c.1, .streamData h c.2)
          = { run with emitted := run.emitted ++ [.terminalOutput c.2] } := by
        simp [socketStep, onStreamData, hl]
      have := ih { run with emitted := run.emitted ++ [.terminalOutput c.2] } hl
      simp only [socketRun, List.map_cons, List.foldl_cons, hstep] at this ⊢
      rw [this]
      simp
  · rw [← hl]
    exact (socketRun_established env socket evs run hdone).2.2.1

/-- C19, for chunks A then B on the established session of socket `a`. -/
theorem output_events_in_order_witness :
    (socketRun Env.quiet { id := "a", user := some (.str "alice") } establishedRun
        [(7, .streamData 4 "A"), (8, .streamData 4 "B")]).emitted
      = [.terminalReady "term-a", .terminalOutput "A", .terminalOutput "B"] :=
  (output_events_in_order Env.quiet { id := "a", user := some (.str "alice") } establishedRun
    4 [(7, "A"), (8, "B")] [] (by decide) (by decide)).1.trans (by decide)

/-! ## The connect timeout -/

/-- C14 (as stated, refuted): the client becomes ready and the timer fires before the shell
callback has been invoked; the promise is still pending and the client has not been ended. -/
theorem timeout_after_ready_does_nothing :
    (startSessionRun 3 none (.str "term-b") (.str "alice") (.str "pw") (some 24) (some 80)
        [(5, .ready), (10005, .timeout)] sampleService).1 = .pending ∧
    (startSessionRun 3 none (.str "term-b") (.str "alice") (.str "pw") (some 24) (some 80)
        [(5, .ready), (10005, .timeout)] sampleService).2.effects
      = [.clientConnect 3 "alice" "pw", .log .debug "SSH ready for session term-b" none,
         .clientShell 3 24 80] ∧
    Effect.clientEnd 3 ∉
      (startSessionRun 3 none (.str "term-b") (.str "alice") (.str "pw") (some 24) (some 80)
        [(5, .ready), (10005, .timeout)] sampleService).2.effects := by
  decide

theorem startStep_client (st : StartCall × TerminalService) (ev : Int × StartEvent) :
    (startStep st ev).1.client = st.1.client := by
  obtain ⟨t, e⟩ := ev
  cases e with
  | ready => rfl
  | error m => rfl
  | timeout =>
    simp only [startStep, onTimeout]
    split
    · split <;> rfl
    · rfl
  | shell err s =>
    simp only [startStep, onShell]
    cases st.1.shellRequests with
    | zero => rfl
    | succ n => cases err <;> rfl

theorem runStart_client (evs : List (Int × StartEvent)) :
    ∀ st : StartCall × TerminalService, (runStart st evs).1.client = st.1.client := by
  induction evs with
  | nil => intro st; rfl
  | cons ev rest ih =>
    intro st
    have := ih (startStep st ev)
    rw [startStep_client] at this
    simpa [runStart] using this

theorem startStep_established (st : StartCall × TerminalService) (ev : Int × StartEvent) :
    (startStep st ev).1.connectionEstablished = true ↔
      st.1.connectionEstablished = true ∨ ev.2 = .ready := by
  obtain ⟨t, e⟩ := ev
  cases e with
  | ready => simp [startStep, onReady]
  | error m => simp [startStep, onError]
  | timeout =>
    simp only [startStep, onTimeout]
    split
    · split <;> simp
    · simp
  | shell err s =>
    simp only [startStep, onShell]
    cases st.1.shellRequests with
    | zero => simp
    | succ n => cases err <;> simp

theorem runStart_established (evs : List (Int × StartEvent)) :
    ∀ st : StartCall × TerminalService,
      (runStart st evs).1.connectionEstablished = true ↔
        st.1.connectionEstablished = true ∨ ∃ ev ∈ evs, ev.2 = .ready := by
  induction evs with
  | nil => intro st; simp [runStart]
  | cons ev rest ih =>
    intro st
    have h1 := ih (startStep st ev)
    have h2 := startStep_established st ev
    have hrun : runStart st (ev :: rest) = runStart (startStep st ev) rest := rfl
    rw [hrun, h1, h2]
    simp only [List.mem_cons, exists_eq_or_imp]
    tauto

/-- While the timer is armed and the client is not yet ready, the promise is pending, no
stream is known and no shell callback is outstanding. -/
theorem startStep_connecting (st : StartCall × TerminalService) (ev : Int × StartEvent)
    (hinv : st.1.timeoutArmed = true → st.1.connectionEstablished = false →
      st.1.promise = .pending ∧ st.1.stream = none ∧ st.1.shellRequests = 0)
    (harmed : (startStep st ev).1.timeoutArmed = true)
    (hest : (startStep st ev).1.connectionEstablished = false) :
    (startStep st ev).1.promise = .pending ∧ (startStep st ev).1.stream = none ∧
      (startStep st ev).1.shellRequests = 0 := by
  obtain ⟨t, e⟩ := ev
  obtain ⟨call, svc⟩ := st
  cases e with
  | ready => simp [startStep, onReady] at hest
  | error m => simp [startStep, onError] at harmed
  | timeout =>
    simp only [startStep, onTimeout] at harmed hest ⊢
    by_cases ha : call.timeoutArmed = true
    · by_cases hc : call.connectionEstablished = true
      · simp [ha, hc] at harmed
      · simp [ha, hc] at harmed
    · simp only [ha] at harmed hest ⊢
      exact absurd harmed ha
  | shell err s =>
    simp only [startStep, onShell] at harmed hest ⊢
    cases hn : call.shellRequests with
    | zero =>
      simp only [hn] at harmed hest ⊢
      have := hinv harmed hest
      exact ⟨this.1, this.2.1, trivial⟩
    | succ n =>
      cases err with
      | none => simp [hn] at harmed
      | some m => simp [hn] at harmed

theorem runStart_connecting (evs : List (Int × StartEvent))
    (st : StartCall × TerminalService)
    (hinv : st.1.timeoutArmed = true → st.1.connectionEstablished = false →
      st.1.promise = .pending ∧ st.1.stream = none ∧ st.1.shellRequests = 0) :
    (runStart st evs).1.timeoutArmed = true →
    (runStart st evs).1.connectionEstablished = false →
      (runStart st evs).1.promise = .pending ∧ (runStart st evs).1.stream = none ∧
        (runStart st evs).1.shellRequests = 0 := by
  induction evs using List.reverseRecOn with
  | nil => exact hinv
  | append_singleton init ev ih =>
    rw [runStart_append]
    exact startStep_connecting (runStart st init) ev ih

theorem startSession_started (newClient : Nat) (connectThrows : Option String)
    (sessionId username password : JsVal) (rows cols : Option Int) (svc svc1 : TerminalService)
    (call : StartCall)
    (h : startSession newClient connectThrows sessionId username password rows cols svc
      = (.started call, svc1)) :
    call.client = newClient ∧ call.connectionEstablished = false ∧ call.stream = none ∧
    call.shellRequests = 0 ∧ call.sessionId = sessionId.asString ∧
    call.rows = rows.getD 24 ∧ call.cols = cols.getD 80 ∧
    invalidDimensions call.rows call.cols = false ∧
    (connectThrows = none → call.promise = .pending ∧ call.timeoutArmed = true) ∧
    svc1.sessions = svc.sessions := by
  unfold startSession at h
  simp only at h
  split at h
  · simp at h
  · split at h
    · simp at h
    · split at h
      · simp at h
      · rename_i hd
        cases connectThrows with
        | none =>
          simp only [Prod.mk.injEq, StartResult.started.injEq] at h
          obtain ⟨hc, hs⟩ := h
          subst hc
          subst hs
          simp [TerminalService.emit]
          simpa using hd
        | some m =>
          simp only [Prod.mk.injEq, StartResult.started.injEq] at h
          obtain ⟨hc, hs⟩ := h
          subst hc
          subst hs
          simp [TerminalService.emit]
          simpa using hd

/-- C14 (amended): the deadline of `startSession` covers connect and authenticate.  Whenever
the timer expires (it is still armed) before the SSH `ready` event has fired, the start fails
with the timeout error and the partial connection is torn down: the promise is rejected with
'SSH connection timeout', the client is ended, nothing is registered.  Once `ready` has fired
the expiring timer changes nothing: the promise and the service stay as they were, so the
open-channel phase is not covered. -/
theorem timeout_covers_connect (newClient : Nat) (sessionId username password : JsVal)
    (rows cols : Option Int) (svc svc1 : TerminalService) (call : StartCall)
    (pre : List (Int × StartEvent)) (t : Int)
    (hstart : startSession newClient none sessionId username password rows cols svc
      = (.started call, svc1))
    (harmed : (runStart (call, svc1) pre).1.timeoutArmed = true) :
    ((∀ ev ∈ pre, ev.2 ≠ .ready) →
      (startStep (runStart (call, svc1) pre) (t, .timeout)).1.promise
        = .rejected "SSH connection timeout" ∧
      (startStep (runStart (call, svc1) pre) (t, .timeout)).2.effects
        = (runStart (call, svc1) pre).2.effects ++ [.clientEnd newClient] ∧
      (startStep (runStart (call, svc1) pre) (t, .timeout)).2.sessions = svc.sessions) ∧
    ((∃ ev ∈ pre, ev.2 = .ready) →
      (startStep (runStart (call, svc1) pre) (t, .timeout)).1.promise
        = (runStart (call, svc1) pre).1.promise ∧
      (startStep (runStart (call, svc1) pre) (t, .timeout)).2
        = (runStart (call, svc1) pre).2) := by
  have hs := startSession_started newClient none sessionId username password rows cols svc
    svc1 call hstart
  have hclient : (runStart (call, svc1) pre).1.client = newClient := by
    rw [runStart_client]; exact hs.1
  have hestab := runStart_established pre (call, svc1)
  refine ⟨?_, ?_⟩
  · intro hno
    have hest : (runStart (call, svc1) pre).1.connectionEstablished = false := by
      cases hc : (runStart (call, svc1) pre).1.connectionEstablished with
      | false => rfl
      | true =>
        rcases hestab.mp hc with h | ⟨ev, hev, hready⟩
        · rw [hs.2.1] at h
          exact Bool.noConfusion h
        · exact absurd hready (hno ev hev)
    have hfresh := runStart_connecting pre (call, svc1)
      (fun _ _ => ⟨(hs.2.2.2.2.2.2.2.2.1 rfl).1, hs.2.2.1, hs.2.2.2.1⟩) harmed hest
    have hsess : (runStart (call, svc1) pre).2.sessions = svc.sessions := by
      rw [runStart_pending (call, svc1) pre hfresh.1]
      exact hs.2.2.2.2.2.2.2.2.2
    simp [startStep, onTimeout, harmed, hest, hfresh.1, hfresh.2.1, Promise.reject,
      TerminalService.emit, hclient, hsess]
  · intro hready
    have hest : (runStart (call, svc1) pre).1.connectionEstablished = true :=
      hestab.mpr (Or.inr hready)
    simp [startStep, onTimeout, harmed, hest]

/-- C14 (amended), for a timer that expires before any event of the client. -/
theorem timeout_covers_connect_witness :
    (startStep (runStart
        ({ sessionId := "term-b", username := "alice", password := "pw", rows := 24,
           cols := 80, client := 3, stream := none, connectionEstablished := false,
           timeoutArmed := true, shellRequests := 0, promise := .pending },
          sampleService.emit (.clientConnect 3 "alice" "pw")) [])
        (10000, .timeout)).1.promise = .rejected "SSH connection timeout" :=
  ((timeout_covers_connect 3 (.str "term-b") (.str "alice") (.str "pw") (some 24) (some 80)
    sampleService (sampleService.emit (.clientConnect 3 "alice" "pw"))
    { sessionId := "term-b", username := "alice", password := "pw", rows := 24, cols := 80,
      client := 3, stream := none, connectionEstablished := false, timeoutArmed := true,
      shellRequests := 0, promise := .pending }
    [] 10000 (by decide) (by decide)).1 (by decide)).1

/-! ## A close that races with a start -/

/-- C15 (as stated, refuted): socket `a` starts a session and, while the client is still
connecting, disconnects (respectively sends `terminal:close`); the close finds nothing to
close, and when the connect resolves and the shell opens the session `term-a` is registered,
although the socket is gone. -/
theorem close_while_connecting_still_registers :
    connectingRun.awaiting = true ∧
    hasSession connectingRun.service "term-a" = false ∧
    hasSession (socketRun Env.quiet { id := "a", user := some (.str "alice") } connectingRun
        [(4, .disconnect), (5, .start .ready), (6, .start (.shell none (some 4)))]).service
      "term-a" = true ∧
    hasSession (socketRun Env.quiet { id := "a", user := some (.str "alice") } connectingRun
        [(4, .close), (5, .start .ready), (6, .start (.shell none (some 4)))]).service
      "term-a" = true := by
  decide

theorem hasSession_closeSession (env : Env) (id : String) (svc : TerminalService)
    (hwf : MapWF svc.sessions) : hasSession (closeSession env id svc) id = false := by
  cases hget : mapGet svc.sessions id with
  | none =>
    rw [closeSession_of_absent env id svc hget]
    simp [hasSession, mapHas, hget]
  | some session =>
    rw [closeSession_of_registered env id svc session hget]
    simp [hasSession, mapHas, mapGet_mapDelete_self svc.sessions id hwf]

theorem afterAwait_sessions (run : HandlerRun) :
    (afterAwait run).service.sessions = run.service.sessions ∧
    (afterAwait run).call = run.call := by
  unfold afterAwait
  split
  · split <;> exact ⟨rfl, rfl⟩
  · exact ⟨rfl, rfl⟩

/-- C15 (amended): a close (client `terminal:close` or socket disconnect) that arrives while
nothing is registered under the session id of the socket, as is the case while the start is
still connecting, closes nothing: `terminal:close` leaves the run exactly as it was and the
disconnect only adds its log line.  The start is not cancelled: when the client then becomes
ready and the shell opens, the session is registered.  A close that arrives when the session
is registered removes it. -/
theorem close_while_connecting_is_noop (env : Env) (socket : Socket) (run : HandlerRun)
    (t tReady tShell : Int) (shellStream : Option Nat) (call : StartCall)
    (hcall : run.call = some call) (hid : call.sessionId = socket.sessionId) :
    (mapGet run.service.sessions socket.sessionId = none →
      socketStep env socket run (t, .close) = run ∧
      socketStep env socket run (t, .disconnect)
        = { run with
            service := run.service.emit
              (.log .info ("Client disconnected: " ++ socket.id) none) }) ∧
    hasSession (socketRun env socket (socketStep env socket run (t, .close))
        [(tReady, .start .ready), (tShell, .start (.shell none shellStream))]).service
      socket.sessionId = true ∧
    hasSession (socketRun env socket (socketStep env socket run (t, .disconnect))
        [(tReady, .start .ready), (tShell, .start (.shell none shellStream))]).service
      socket.sessionId = true ∧
    (MapWF run.service.sessions →
      hasSession (socketStep env socket run (t, .close)).service socket.sessionId = false ∧
      hasSession (socketStep env socket run (t, .disconnect)).service socket.sessionId
        = false) := by
  have hopen : ∀ r : HandlerRun, r.call = some call →
      hasSession (socketRun env socket r
        [(tReady, .start .ready), (tShell, .start (.shell none shellStream))]).service
        socket.sessionId = true := by
    intro r hr
    have h1 : (socketStep env socket r (tReady, .start .ready)).call
        = some (onReady call r.service).1 := by
      simp [socketStep, handlerStep, hr, startStep, (afterAwait_sessions _).2]
    have h2 : (socketRun env socket r
        [(tReady, .start .ready), (tShell, .start (.shell none shellStream))]).service.sessions
        = mapSet (socketStep env socket r (tReady, .start .ready)).service.sessions
            socket.sessionId
            { client := some call.client, stream := shellStream, username := call.username,
              createdAt := tShell, lastActivityAt := tShell, rows := call.rows,
              cols := call.cols, buffer := [] } := by
      simp only [socketRun, List.foldl_cons, List.foldl_nil]
      generalize socketStep env socket r (tReady, .start .ready) = r1 at h1 ⊢
      simp [socketStep, handlerStep, h1, startStep, (afterAwait_sessions _).1, onShell,
        onReady, TerminalService.emit, hid]
    simp [hasSession, mapHas, h2, mapGet_mapSet_self]
  refine ⟨?_, ?_, ?_, ?_⟩
  · intro hnone
    constructor
    · simp [socketStep, terminalClose, closeSession_of_absent env _ _ hnone]
    · simp [socketStep, socketDisconnect, hasSession, mapHas, hnone]
  · exact hopen _ (by simpa [socketStep] using hcall)
  · exact hopen _ (by simpa [socketStep] using hcall)
  · intro hwf
    have hclosed := hasSession_closeSession env socket.sessionId run.service hwf
    constructor
    · simpa [socketStep, terminalClose] using hclosed
    · cases hh : mapHas run.service.sessions socket.sessionId with
      | true =>
        simpa [socketStep, socketDisconnect, hh, TerminalService.emit, hasSession]
          using hclosed
      | false =>
        simp [socketStep, socketDisconnect, hh, TerminalService.emit, hasSession]

/-- C15 (amended), for socket `a` while its client is connecting. -/
theorem close_while_connecting_is_noop_witness :
    socketStep Env.quiet { id := "a", user := some (.str "alice") } connectingRun (4, .close)
      = connectingRun ∧
    hasSession (socketRun Env.quiet { id := "a", user := some (.str "alice") }
        (socketStep Env.quiet { id := "a", user := some (.str "alice") } connectingRun
          (4, .close))
        [(5, .start .ready), (6, .start (.shell none (some 4)))]).service "term-a" = true :=
  have h := close_while_connecting_is_noop Env.quiet { id := "a", user := some (.str "alice") }
    connectingRun 4 5 6 (some 4)
    { sessionId := "term-a", username := "alice", password := "pw", rows := 24, cols := 80,
      client := 3, stream := none, connectionEstablished := false, timeoutArmed := true,
      shellRequests := 0, promise := .pending }
    (by decide) (by decide)
  ⟨(h.1 (by decide)).1, h.2.1⟩

/-! ## The dimensions of registered sessions -/

theorem mem_mapEntries_mapSet (m : MapData) (k : String) (v : Session)
    (e : String × Session) (h : e ∈ mapEntries (mapSet m k v)) :
    e ∈ mapEntries m ∨ e = (k, v) := by
  induction m with
  | nil => simpa [mapSet, mapEntries] using h
  | cons r rest ih =>
    cases r with
    | none =>
      have h' : e ∈ mapEntries (mapSet rest k v) := by simpa [mapSet, mapEntries] using h
      rcases ih h' with h1 | h1
      · exact Or.inl (by simpa [mapEntries] using h1)
      · exact Or.inr h1
    | some kv =>
      obtain ⟨k', v'⟩ := kv
      by_cases hk : k' = k
      · have h' : e = (k, v) ∨ e ∈ mapEntries rest := by
          simpa [mapSet, mapEntries, hk] using h
        rcases h' with h1 | h1
        · exact Or.inr h1
        · exact Or.inl (by simp only [mapEntries] at h1; simp [mapEntries, h1])
      · have h' : e = (k', v') ∨ e ∈ mapEntries (mapSet rest k v) := by
          simpa [mapSet, mapEntries, hk] using h
        rcases h' with h1 | h1
        · exact Or.inl (by simp [mapEntries, h1])
        · rcases ih h1 with h2 | h2
          · exact Or.inl (by simp only [mapEntries] at h2; simp [mapEntries, h2])
          · exact Or.inr h2

theorem mem_mapEntries_mapDelete (m : MapData) (k : String) (e : String × Session)
    (h : e ∈ mapEntries (mapDelete m k)) : e ∈ mapEntries m := by
  induction m with
  | nil => simpa [mapDelete] using h
  | cons r rest ih =>
    cases r with
    | none =>
      have h' : e ∈ mapEntries (mapDelete rest k) := by simpa [mapDelete, mapEntries] using h
      simpa [mapEntries] using ih h'
    | some kv =>
      obtain ⟨k', v'⟩ := kv
      by_cases hk : k' = k
      · have h' : e ∈ mapEntries rest := by simpa [mapDelete, mapEntries, hk] using h
        simp only [mapEntries] at h'
        simp [mapEntries, h']
      · have h' : e = (k', v') ∨ e ∈ mapEntries (mapDelete rest k) := by
          simpa [mapDelete, mapEntries, hk] using h
        rcases h' with h1 | h1
        · simp [mapEntries, h1]
        · have := ih h1
          simp only [mapEntries] at this
          simp [mapEntries, this]

theorem sessionsOk_of_sessions_eq (svc svc2 : TerminalService)
    (h : svc2.sessions = svc.sessions) (hok : SessionsOk svc) : SessionsOk svc2 := by
  unfold SessionsOk at *
  rw [h]
  exact hok

theorem closeSession_ok (env : Env) (id : String) (svc : TerminalService)
    (hok : SessionsOk svc) : SessionsOk (closeSession env id svc) := by
  cases hget : mapGet svc.sessions id with
  | none => rw [closeSession_of_absent env id svc hget]; exact hok
  | some session =>
    rw [closeSession_of_registered env id svc session hget]
    intro e he
    exact hok e (mem_mapEntries_mapDelete svc.sessions id e he)

theorem sendInput_ok (env : Env) (now : Int) (id data : String) (svc : TerminalService)
    (hok : SessionsOk svc) : SessionsOk (sendInput env now id data svc).2 := by
  unfold sendInput
  cases hget : mapGet svc.sessions id with
  | none => exact sessionsOk_of_sessions_eq svc _ rfl hok
  | some session =>
    cases hs : session.stream with
    | none => simpa [hs] using sessionsOk_of_sessions_eq svc _ rfl hok
    | some h =>
      cases hw : env.streamWrite h data with
      | some msg => simpa [hs, hw] using sessionsOk_of_sessions_eq svc _ rfl hok
      | none =>
        simp only [hs, hw]
        intro e he
        rcases mem_mapEntries_mapSet _ _ _ e he with h1 | h1
        · exact hok e h1
        · rw [h1]
          exact hok (id, session) (mapGet_mem_entries svc.sessions id session hget)

theorem resizeTerminal_ok (env : Env) (now : Int) (id : String) (rows cols : Int)
    (svc : TerminalService) (hok : SessionsOk svc) :
    SessionsOk (resizeTerminal env now id (some rows) (some cols) svc).2 := by
  unfold resizeTerminal
  cases hget : mapGet svc.sessions id with
  | none => exact sessionsOk_of_sessions_eq svc _ rfl hok
  | some session =>
    cases hs : session.stream with
    | none => simpa [hs] using sessionsOk_of_sessions_eq svc _ rfl hok
    | some h =>
      cases hd : invalidDimensions (some rows) (some cols) with
      | true => simpa [hs, hd] using sessionsOk_of_sessions_eq svc _ rfl hok
      | false =>
        cases hw : env.streamSetWindow h (some rows) (some cols) with
        | some msg => simpa [hs, hd, hw] using sessionsOk_of_sessions_eq svc _ rfl hok
        | none =>
          simp only [hs, hd, hw]
          intro e he
          rcases mem_mapEntries_mapSet _ _ _ e he with h1 | h1
          · exact hok e h1
          · rw [h1]
            exact ⟨rows, cols, rfl, rfl, hd⟩

theorem forOfSessions_preserves (P : TerminalService → Prop)
    (body : String → Session → TerminalService → TerminalService)
    (hbody : ∀ k v svc, P svc → P (body k v svc)) (fuel : Nat) :
    ∀ (index : Nat) (svc : TerminalService), P svc → P (forOfSessions body fuel index svc) := by
  induction fuel with
  | zero => intro index svc h; exact h
  | succ f ih =>
    intro index svc h
    unfold forOfSessions
    cases svc.sessions[index]? with
    | none => exact h
    | some r =>
      cases r with
      | none => exact ih (index + 1) svc h
      | some kv => exact ih (index + 1) _ (hbody kv.1 kv.2 svc h)

theorem _cleanupIdleSessions_ok (env : Env) (now : Int) (svc : TerminalService)
    (hok : SessionsOk svc) : SessionsOk (_cleanupIdleSessions env now svc) := by
  unfold _cleanupIdleSessions
  refine forOfSessions_preserves SessionsOk _ ?_ _ 0 svc hok
  intro k v s hs
  unfold cleanupIdleBody
  simp only
  split
  · exact closeSession_ok env k _ (sessionsOk_of_sessions_eq s _ rfl hs)
  · exact hs

theorem cleanup_ok (env : Env) (svc : TerminalService) (hok : SessionsOk svc) :
    SessionsOk (cleanup env svc) := by
  unfold cleanup
  have h1 : SessionsOk (clearCleanupInterval svc) := by
    refine sessionsOk_of_sessions_eq svc _ ?_ hok
    unfold clearCleanupInterval
    cases svc.cleanupInterval <;> rfl
  have h2 := forOfSessions_preserves SessionsOk
    (fun sessionId _ s => closeSession env sessionId s)
    (fun k _ s hs => closeSession_ok env k s hs)
    (clearCleanupInterval svc).sessions.length 0 _ h1
  exact sessionsOk_of_sessions_eq _ _ rfl h2

theorem startStep_dims (st : StartCall × TerminalService) (ev : Int × StartEvent) :
    (startStep st ev).1.rows = st.1.rows ∧ (startStep st ev).1.cols = st.1.cols := by
  obtain ⟨t, e⟩ := ev
  cases e with
  | ready => exact ⟨rfl, rfl⟩
  | error m => exact ⟨rfl, rfl⟩
  | timeout =>
    simp only [startStep, onTimeout]
    split
    · split <;> exact ⟨rfl, rfl⟩
    · exact ⟨rfl, rfl⟩
  | shell err s =>
    simp only [startStep, onShell]
    cases st.1.shellRequests with
    | zero => exact ⟨rfl, rfl⟩
    | succ n => cases err <;> exact ⟨rfl, rfl⟩

theorem startStep_ok (st : StartCall × TerminalService) (ev : Int × StartEvent)
    (hcall : invalidDimensions (some st.1.rows) (some st.1.cols) = false)
    (hok : SessionsOk st.2) :
    SessionsOk (startStep st ev).2 := by
  cases hopen : ev.2.opensShell with
  | false =>
    exact sessionsOk_of_sessions_eq st.2 _
      (startStep_sessions_of_not_opensShell st ev hopen) hok
  | true =>
    obtain ⟨t, e⟩ := ev
    obtain ⟨call, svc⟩ := st
    cases e with
    | shell err s =>
      cases err with
      | some _ => simp [StartEvent.opensShell] at hopen
      | none =>
        simp only [startStep, onShell]
        cases hn : call.shellRequests with
        | zero => exact hok
        | succ n =>
          intro e he
          simp only [TerminalService.emit] at he
          rcases mem_mapEntries_mapSet _ _ _ e he with h1 | h1
          · exact hok e h1
          · rw [h1]
            exact ⟨call.rows, call.cols, rfl, rfl, hcall⟩
    | ready => simp [StartEvent.opensShell] at hopen
    | error _ => simp [StartEvent.opensShell] at hopen
    | timeout => simp [StartEvent.opensShell] at hopen

theorem Broker.step_ok (b : Broker) (op : Env × Op) (hop : op.2.integerDimensions = true)
    (h : b.Ok) : (b.step op).Ok := by
  obtain ⟨env, o⟩ := op
  obtain ⟨hsvc, hcalls⟩ := h
  cases o with
  | startSession newClient connectThrows sessionId username password rows cols =>
    simp only [Broker.step]
    have hsess := startSession_sessions newClient connectThrows sessionId username password
      rows cols b.service
    cases hstart : startSession newClient connectThrows sessionId username password rows cols
      b.service with
    | mk result svc1 =>
      rw [hstart] at hsess
      cases result with
      | invalid m => exact ⟨sessionsOk_of_sessions_eq b.service _ hsess hsvc, hcalls⟩
      | started call =>
        refine ⟨sessionsOk_of_sessions_eq b.service _ hsess hsvc, ?_⟩
        intro c hc
        rcases List.mem_append.mp hc with h1 | h1
        · exact hcalls c h1
        · have hs := startSession_started newClient connectThrows sessionId username password
            rows cols b.service svc1 call hstart
          have : c = call := by simpa using h1
          rw [this]
          exact hs.2.2.2.2.2.2.2.1
  | startEvent index now ev =>
    simp only [Broker.step]
    cases hget : b.calls[index]? with
    | none => exact ⟨hsvc, hcalls⟩
    | some call =>
      have hmem : call ∈ b.calls := List.getElem?_mem hget
      have hcall := hcalls call hmem
      have hd := startStep_dims (call, b.service) (now, ev)
      refine ⟨startStep_ok (call, b.service) (now, ev) hcall hsvc, ?_⟩
      intro c hc
      rcases List.mem_or_eq_of_mem_set hc with h1 | h1
      · exact hcalls c h1
      · rw [h1, hd.1, hd.2]
        exact hcall
  | sendInput now sessionId data =>
    exact ⟨sendInput_ok env now sessionId data b.service hsvc, hcalls⟩
  | resizeTerminal now sessionId rows cols =>
    cases rows with
    | none => simp [Op.integerDimensions] at hop
    | some r =>
      cases cols with
      | none => simp [Op.integerDimensions] at hop
      | some c => exact ⟨resizeTerminal_ok env now sessionId r c b.service hsvc, hcalls⟩
  | closeSession sessionId => exact ⟨closeSession_ok env sessionId b.service hsvc, hcalls⟩
  | idleSweep now => exact ⟨_cleanupIdleSessions_ok env now b.service hsvc, hcalls⟩
  | cleanup => exact ⟨cleanup_ok env b.service hsvc, hcalls⟩

theorem Broker.foldl_ok (ops : List (Env × Op)) :
    ∀ b : Broker, (∀ op ∈ ops, op.2.integerDimensions = true) → b.Ok →
      (ops.foldl Broker.step b).Ok := by
  induction ops with
  | nil => intro b _ h; exact h
  | cons op rest ih =>
    intro b hops h
    exact ih _ (fun o ho => hops o (List.mem_cons_of_mem _ ho))
      (Broker.step_ok b op (hops op (List.mem_cons_self _ _)) h)

/-- C20, counterexample: a `resizeTerminal` call whose rows and cols are `undefined`, as the
handler of `terminal:resize` makes it for a payload without them, passes the dimension test,
calls `setWindow(undefined, undefined)` and stores `undefined` as the rows and cols of the
registered session. -/
theorem resize_without_dimensions_is_stored :
    invalidDimensions none none = false ∧
    mapEntries (Broker.run 0 undefinedResizeOps).service.sessions
      = [("term-a", { client := some 3, stream := some 4, username := "alice", createdAt := 6,
                      lastActivityAt := 7, rows := none, cols := none, buffer := [] })] ∧
    Effect.streamSetWindow 4 none none ∈ (Broker.run 0 undefinedResizeOps).service.effects := by
  decide

/-- C20 (amended): in every state reachable from the empty registry by `startSession` calls
and the events of their connections, `sendInput`, `resizeTerminal`, `closeSession`, idle sweeps
and `cleanup`, in any order and whatever collaborator calls throw, provided that the rows and
cols of every `resizeTerminal` call are integers and those of every `startSession` call are
integers or left out, every registered session has integer rows within [5,500] and integer
cols within [10,500]. -/
theorem registered_dimensions_in_range (timer : Nat) (ops : List (Env × Op))
    (hint : ∀ op ∈ ops, op.2.integerDimensions = true) :
    ∀ e ∈ mapEntries (Broker.run timer ops).service.sessions,
      ∃ rows cols : Int, e.2.rows = some rows ∧ e.2.cols = some cols ∧
        (5 ≤ rows ∧ rows ≤ 500) ∧ (10 ≤ cols ∧ cols ≤ 500) := by
  have hinit : ({ service := TerminalService.new timer, calls := [] } : Broker).Ok := by
    refine ⟨?_, ?_⟩
    · intro e he
      simp [TerminalService.new, mapEntries] at he
    · intro c hc
      simp at hc
  have hok := Broker.foldl_ok ops _ hint hinit
  intro e he
  obtain ⟨rows, cols, hr, hc, hd⟩ := hok.1 e he
  simp only [invalidDimensions, lessThan, greaterThan, Bool.or_eq_false_iff,
    decide_eq_false_iff_not, not_lt] at hd
  exact ⟨rows, cols, hr, hc, by omega, by omega⟩

/-- C20 (amended), after `sampleOps`: the session holds the dimensions of the accepted
resize. -/
theorem registered_dimensions_in_range_witness :
    (∀ op ∈ sampleOps, op.2.integerDimensions = true) ∧
    mapEntries (Broker.run 0 sampleOps).service.sessions
      = [("term-a", { client := some 3, stream := some 4, username := "alice", createdAt := 6,
                      lastActivityAt := 9, rows := some 30, cols := some 100, buffer := [] })] ∧
    ∃ rows cols : Int, (some 30 : Option Int) = some rows ∧ (some 100 : Option Int) = some cols ∧
      (5 ≤ rows ∧ rows ≤ 500) ∧ (10 ≤ cols ∧ cols ≤ 500) :=
  ⟨by decide, by decide,
   registered_dimensions_in_range 0 sampleOps (by decide)
    ("term-a", { client := some 3, stream := some 4, username := "alice", createdAt := 6,
                 lastActivityAt := 9, rows := some 30, cols := some 100, buffer := [] })
    (by decide)⟩

/-! ## closeSession when teardown throws -/

/-- C25: for every registered session, `closeSession` removes the entry of the session from
the registry whatever the `end()` calls do: when ending the stream throws, when ending the
client throws, when both throw.  Each throw is caught and logged, both `end()` calls are still
made, `closeSession` returns normally, and the entries of all other sessions are unchanged. -/
theorem closeSession_removes_despite_throws (env : Env) (id : String)
    (svc : TerminalService) (session : Session)
    (hreg : mapGet svc.sessions id = some session) (hwf : MapWF svc.sessions) :
    hasSession (closeSession env id svc) id = false ∧
    mapGet (closeSession env id svc).sessions id = none ∧
    (∀ k, k ≠ id → mapGet (closeSession env id svc).sessions k = mapGet svc.sessions k) ∧
    (closeSession env id svc).effects = svc.effects ++ closeEffects env id session ∧
    (∀ h, session.stream = some h → Effect.streamEnd h ∈ closeEffects env id session) ∧
    (∀ c, session.client = some c → Effect.clientEnd c ∈ closeEffects env id session) := by
  rw [closeSession_of_registered env id svc session hreg]
  have hgone := mapGet_mapDelete_self svc.sessions id hwf
  refine ⟨?_, hgone, ?_, rfl, ?_, ?_⟩
  · simp [hasSession, mapHas, hgone]
  · intro k hk
    exact mapGet_mapDelete_ne svc.sessions id k hk
  · intro h hs
    exact streamEnd_mem_closeEffects env id session h hs
  · intro c hc
    exact clientEnd_mem_closeEffects env id session c hc

/-- C25, on three sessions, closing `term-b` while both of its `end()` calls throw. -/
theorem closeSession_removes_despite_throws_witness :
    mapKeys (closeSession Env.brokenEnd "term-b" threeSessions).sessions
      = ["term-a", "term-c"] ∧
    (closeSession Env.brokenEnd "term-b" threeSessions).effects
      = [.streamEnd 4,
         .log .debug "Error ending stream for term-b:" (some "Channel already closed"),
         .clientEnd 3,
         .log .debug "Error ending client for term-b:" (some "Not connected"),
         .log .info "Terminal session closed: term-b" none] :=
  have h := closeSession_removes_despite_throws Env.brokenEnd "term-b" threeSessions
    { sampleSession with client := some 3, stream := some 4, lastActivityAt := 100000 }
    (by decide) (by decide)
  ⟨by decide, h.2.2.2.1.trans (by decide)⟩

/-! ## The age of a session -/

/-- C26: the decision of the idle reaper depends only on the idle time.  Every registered
session whose `now - lastActivityAt` does not exceed the idle threshold stays registered,
unchanged, after a sweep, whatever its `createdAt`; and the value of `maxSessionTimeout` has no
influence on the registry that a sweep leaves, so the declared ceiling of one hour never
causes a session to be closed. -/
theorem idle_sweep_ignores_age (env : Env) (now : Int) (svc : TerminalService) (id : String)
    (session : Session) (ceiling : Int)
    (hwf : MapWF svc.sessions)
    (hreg : mapGet svc.sessions id = some session)
    (hidle : now - session.lastActivityAt ≤ svc.sessionIdleTimeout) :
    mapGet (_cleanupIdleSessions env now svc).sessions id = some session ∧
    hasSession (_cleanupIdleSessions env now svc) id = true ∧
    (_cleanupIdleSessions env now { svc with maxSessionTimeout := ceiling }).sessions
      = (_cleanupIdleSessions env now svc).sessions := by
  have hform := _cleanupIdleSessions_closed_form env now svc hwf
  have hform2 := _cleanupIdleSessions_closed_form env now
    { svc with maxSessionTimeout := ceiling } hwf
  have hget : mapGet (_cleanupIdleSessions env now svc).sessions id = some session := by
    rw [hform]
    have := mapGet_map_sweepRecord
      (fun _ s => !decide (now - s.lastActivityAt > svc.sessionIdleTimeout)) svc.sessions hwf id
    rw [hreg] at this
    simpa [not_lt.mpr hidle] using this
  refine ⟨hget, ?_, ?_⟩
  · simp [hasSession, mapHas, hget]
  · rw [hform, hform2]

/-- C26, for a session created 9,999,000 ms before the sweep, far beyond the ceiling of
3,600,000 ms, and active 1,000 ms before it. -/
theorem idle_sweep_ignores_age_witness :
    mapGet (_cleanupIdleSessions Env.quiet 10000000 oldButActive).sessions "term-a"
      = some { sampleSession with createdAt := 0, lastActivityAt := 9999000 } :=
  (idle_sweep_ignores_age Env.quiet 10000000 oldButActive "term-a"
    { sampleSession with createdAt := 0, lastActivityAt := 9999000 } 0
    (by decide) (by decide) (by decide)).1

/-! ## Facts about the map of attempts -/

theorem attemptsKeys_nil : attemptsKeys [] = [] := rfl

theorem attemptsKeys_cons_none (m : AttemptsData) : attemptsKeys (none :: m) = attemptsKeys m := by
  simp [attemptsKeys, attemptsEntries]

theorem attemptsKeys_cons_some (k : String) (v : List Int) (m : AttemptsData) :
    attemptsKeys (some (k, v) :: m) = k :: attemptsKeys m := by
  simp [attemptsKeys, attemptsEntries]

theorem attemptsKeys_append (a b : AttemptsData) : attemptsKeys (a ++ b) = attemptsKeys a ++ attemptsKeys b := by
  simp [attemptsKeys, attemptsEntries, List.filterMap_append]

theorem attemptsGet_eq_none_iff (m : AttemptsData) (k : String) :
    attemptsGet m k = none ↔ k ∉ attemptsKeys m := by
  induction m with
  | nil => simp [attemptsGet, attemptsKeys_nil]
  | cons e rest ih =>
    cases e with
    | none => simpa [attemptsGet, attemptsKeys_cons_none] using ih
    | some kv =>
      obtain ⟨k', v⟩ := kv
      by_cases h : k' = k
      · simp [attemptsGet, attemptsKeys_cons_some, h]
      · have h' : ¬ k = k' := fun e => h e.symm
        simpa [attemptsGet, attemptsKeys_cons_some, h, h'] using ih

theorem attemptsGet_mem_entries (m : AttemptsData) (k : String) (v : List Int)
    (h : attemptsGet m k = some v) : (k, v) ∈ attemptsEntries m := by
  induction m with
  | nil => simp [attemptsGet] at h
  | cons e rest ih =>
    cases e with
    | none => simpa [attemptsEntries, attemptsGet] using ih (by simpa [attemptsGet] using h)
    | some kv =>
      obtain ⟨k', v'⟩ := kv
      by_cases hk : k' = k
      · simp [attemptsGet, hk] at h
        simp [attemptsEntries, hk, h]
      · simp [attemptsGet, hk] at h
        have := ih h
        simp only [attemptsEntries] at this
        simp [attemptsEntries, this]

theorem mem_entries_attemptsGet (m : AttemptsData) (hwf : AttemptsWF m) (k : String) (v : List Int)
    (h : (k, v) ∈ attemptsEntries m) : attemptsGet m k = some v := by
  induction m with
  | nil => simp [attemptsEntries] at h
  | cons e rest ih =>
    cases e with
    | none =>
      have hwf' : AttemptsWF rest := by simpa [AttemptsWF, attemptsKeys_cons_none] using hwf
      have h' : (k, v) ∈ attemptsEntries rest := by simpa [attemptsEntries] using h
      simpa [attemptsGet] using ih hwf' h'
    | some kv =>
      obtain ⟨k', v'⟩ := kv
      have hwf2 : k' ∉ attemptsKeys rest ∧ AttemptsWF rest := by
        simpa [AttemptsWF, attemptsKeys_cons_some] using hwf
      have h' : (k, v) = (k', v') ∨ (k, v) ∈ attemptsEntries rest := by
        simpa [attemptsEntries] using h
      rcases h' with h' | h'
      · cases h'
        simp [attemptsGet]
      · have hk : k ∈ attemptsKeys rest := List.mem_map.mpr ⟨(k, v), h', rfl⟩
        have hne : ¬ k' = k := fun e => hwf2.1 (e ▸ hk)
        simpa [attemptsGet, hne] using ih hwf2.2 h'

theorem attemptsDelete_length (m : AttemptsData) (k : String) : (attemptsDelete m k).length = m.length := by
  induction m with
  | nil => rfl
  | cons e rest ih =>
    cases e with
    | none => simp [attemptsDelete, ih]
    | some kv =>
      obtain ⟨k', v⟩ := kv
      by_cases h : k' = k <;> simp [attemptsDelete, h, ih]

theorem attemptsDelete_append_some (done rest : AttemptsData) (k : String) (v : List Int)
    (h : k ∉ attemptsKeys done) :
    attemptsDelete (done ++ some (k, v) :: rest) k = done ++ none :: rest := by
  induction done with
  | nil => simp [attemptsDelete]
  | cons e d ih =>
    cases e with
    | none =>
      have h' : k ∉ attemptsKeys d := by simpa [attemptsKeys_cons_none] using h
      simp [attemptsDelete, ih h']
    | some kv =>
      obtain ⟨k', v'⟩ := kv
      have h' : ¬ k = k' ∧ k ∉ attemptsKeys d := by simpa [attemptsKeys_cons_some] using h
      have hne : ¬ k' = k := fun e => h'.1 e.symm
      simp [attemptsDelete, hne, ih h'.2]

theorem attemptsGet_append_some (done rest : AttemptsData) (k : String) (v : List Int)
    (h : k ∉ attemptsKeys done) :
    attemptsGet (done ++ some (k, v) :: rest) k = some v := by
  induction done with
  | nil => simp [attemptsGet]
  | cons e d ih =>
    cases e with
    | none =>
      have h' : k ∉ attemptsKeys d := by simpa [attemptsKeys_cons_none] using h
      simp [attemptsGet, ih h']
    | some kv =>
      obtain ⟨k', v'⟩ := kv
      have h' : ¬ k = k' ∧ k ∉ attemptsKeys d := by simpa [attemptsKeys_cons_some] using h
      have hne : ¬ k' = k := fun e => h'.1 e.symm
      simp [attemptsGet, hne, ih h'.2]

theorem attemptsGet_attemptsDelete_ne (m : AttemptsData) (k k' : String) (h : k' ≠ k) :
    attemptsGet (attemptsDelete m k) k' = attemptsGet m k' := by
  induction m with
  | nil => rfl
  | cons e rest ih =>
    cases e with
    | none => simpa [attemptsDelete, attemptsGet] using ih
    | some kv =>
      obtain ⟨k0, v⟩ := kv
      by_cases h0 : k0 = k
      · subst h0
        have : ¬ k0 = k' := fun e => h e.symm
        simp [attemptsDelete, attemptsGet, this]
      · by_cases h1 : k0 = k'
        · subst h1
          simp [attemptsDelete, attemptsGet, h0]
        · simp [attemptsDelete, attemptsGet, h0, h1, ih]

theorem attemptsKeys_attemptsDelete_sublist (m : AttemptsData) (k : String) :
    (attemptsKeys (attemptsDelete m k)).Sublist (attemptsKeys m) := by
  induction m with
  | nil => simp [attemptsDelete]
  | cons e rest ih =>
    cases e with
    | none => simpa [attemptsDelete, attemptsKeys_cons_none] using ih
    | some kv =>
      obtain ⟨k0, v⟩ := kv
      by_cases h0 : k0 = k
      · simp [attemptsDelete, h0, attemptsKeys_cons_none, attemptsKeys_cons_some]
      · simp [attemptsDelete, h0, attemptsKeys_cons_some, ih]

theorem attemptsDelete_wf (m : AttemptsData) (k : String) (h : AttemptsWF m) : AttemptsWF (attemptsDelete m k) :=
  List.Nodup.sublist (attemptsKeys_attemptsDelete_sublist m k) h

theorem attemptsGet_attemptsDelete_self (m : AttemptsData) (k : String) (h : AttemptsWF m) :
    attemptsGet (attemptsDelete m k) k = none := by
  induction m with
  | nil => rfl
  | cons e rest ih =>
    cases e with
    | none =>
      have h' : AttemptsWF rest := by simpa [AttemptsWF, attemptsKeys_cons_none] using h
      simpa [attemptsDelete, attemptsGet] using ih h'
    | some kv =>
      obtain ⟨k0, v⟩ := kv
      have h' : k0 ∉ attemptsKeys rest ∧ AttemptsWF rest := by
        simpa [AttemptsWF, attemptsKeys_cons_some] using h
      by_cases h0 : k0 = k
      · subst h0
        simpa [attemptsDelete, attemptsGet] using (attemptsGet_eq_none_iff rest k0).mpr h'.1
      · simpa [attemptsDelete, attemptsGet, h0] using ih h'.2

theorem attemptsDelete_of_get_none (m : AttemptsData) (k : String) (h : attemptsGet m k = none) :
    attemptsDelete m k = m := by
  induction m with
  | nil => rfl
  | cons e rest ih =>
    cases e with
    | none => simp [attemptsDelete, ih (by simpa [attemptsGet] using h)]
    | some kv =>
      obtain ⟨k0, v⟩ := kv
      by_cases h0 : k0 = k
      · simp [attemptsGet, h0] at h
      · simp [attemptsGet, h0] at h
        simp [attemptsDelete, h0, ih h]

theorem attemptsGet_attemptsSet_self (m : AttemptsData) (k : String) (v : List Int) :
    attemptsGet (attemptsSet m k v) k = some v := by
  induction m with
  | nil => simp [attemptsSet, attemptsGet]
  | cons e rest ih =>
    cases e with
    | none => simpa [attemptsSet, attemptsGet] using ih
    | some kv =>
      obtain ⟨k0, v0⟩ := kv
      by_cases h0 : k0 = k <;> simp [attemptsSet, attemptsGet, h0, ih]

theorem attemptsGet_attemptsSet_ne (m : AttemptsData) (k k' : String) (v : List Int) (h : k' ≠ k) :
    attemptsGet (attemptsSet m k v) k' = attemptsGet m k' := by
  induction m with
  | nil =>
    have : ¬ k = k' := fun e => h e.symm
    simp [attemptsSet, attemptsGet, this]
  | cons e rest ih =>
    cases e with
    | none => simpa [attemptsSet, attemptsGet] using ih
    | some kv =>
      obtain ⟨k0, v0⟩ := kv
      by_cases h0 : k0 = k
      · subst h0
        have h1 : ¬ k0 = k' := fun e => h e.symm
        simp [attemptsSet, attemptsGet, h1]
      · by_cases h1 : k0 = k'
        · subst h1
          simp [attemptsSet, attemptsGet, h0]
        · simp [attemptsSet, attemptsGet, h0, h1, ih]

theorem attemptsKeys_attemptsSet_of_mem (m : AttemptsData) (k : String) (v : List Int)
    (h : k ∈ attemptsKeys m) : attemptsKeys (attemptsSet m k v) = attemptsKeys m := by
  induction m with
  | nil => simp [attemptsKeys_nil] at h
  | cons e rest ih =>
    cases e with
    | none =>
      have h' : k ∈ attemptsKeys rest := by simpa [attemptsKeys_cons_none] using h
      simp [attemptsSet, attemptsKeys_cons_none, ih h']
    | some kv =>
      obtain ⟨k0, v0⟩ := kv
      by_cases h0 : k0 = k
      · simp [attemptsSet, h0, attemptsKeys_cons_some]
      · have h' : k ∈ attemptsKeys rest := by
          have : k = k0 ∨ k ∈ attemptsKeys rest := by simpa [attemptsKeys_cons_some] using h
          rcases this with e | e
          · exact absurd e.symm h0
          · exact e
        simp [attemptsSet, h0, attemptsKeys_cons_some, ih h']

theorem attemptsKeys_attemptsSet_of_not_mem (m : AttemptsData) (k : String) (v : List Int)
    (h : k ∉ attemptsKeys m) : attemptsKeys (attemptsSet m k v) = attemptsKeys m ++ [k] := by
  induction m with
  | nil => simp [attemptsSet, attemptsKeys_cons_some, attemptsKeys_nil]
  | cons e rest ih =>
    cases e with
    | none =>
      have h' : k ∉ attemptsKeys rest := by simpa [attemptsKeys_cons_none] using h
      simp [attemptsSet, attemptsKeys_cons_none, ih h']
    | some kv =>
      obtain ⟨k0, v0⟩ := kv
      have h' : ¬ k = k0 ∧ k ∉ attemptsKeys rest := by simpa [attemptsKeys_cons_some] using h
      have h0 : ¬ k0 = k := fun e => h'.1 e.symm
      simp [attemptsSet, h0, attemptsKeys_cons_some, ih h'.2]

theorem attemptsSet_wf (m : AttemptsData) (k : String) (v : List Int) (h : AttemptsWF m) :
    AttemptsWF (attemptsSet m k v) := by
  unfold AttemptsWF at *
  by_cases hk : k ∈ attemptsKeys m
  · rw [attemptsKeys_attemptsSet_of_mem m k v hk]; exact h
  · rw [attemptsKeys_attemptsSet_of_not_mem m k v hk]
    exact List.Nodup.append h (List.nodup_singleton k) (by simpa using hk)

theorem attemptsSet_append_some (done rest : AttemptsData) (k : String) (v w : List Int)
    (h : k ∉ attemptsKeys done) :
    attemptsSet (done ++ some (k, v) :: rest) k w = done ++ some (k, w) :: rest := by
  induction done with
  | nil => simp [attemptsSet]
  | cons e d ih =>
    cases e with
    | none =>
      have h' : k ∉ attemptsKeys d := by simpa [attemptsKeys_cons_none] using h
      simp [attemptsSet, ih h']
    | some kv =>
      obtain ⟨k', v'⟩ := kv
      have h' : ¬ k = k' ∧ k ∉ attemptsKeys d := by simpa [attemptsKeys_cons_some] using h
      have hne : ¬ k' = k := fun e => h'.1 e.symm
      simp [attemptsSet, hne, ih h'.2]

/-! ## The rate limiter: isAllowed and reset -/

theorem isAllowed_attempts1_recorded (rl : RateLimiter) (ip : String) :
    (attemptsGet (ensureRecord rl.attempts ip) ip).getD [] = rl.recorded ip := by
  unfold RateLimiter.recorded ensureRecord attemptsHas
  cases h : attemptsGet rl.attempts ip with
  | none => simp [attemptsGet_attemptsSet_self]
  | some v => simp [h]

theorem isAllowed_attempts1_other (rl : RateLimiter) (ip other : String) (h : other ≠ ip) :
    attemptsGet (ensureRecord rl.attempts ip) other = attemptsGet rl.attempts other := by
  unfold ensureRecord
  split
  · exact attemptsGet_attemptsSet_ne rl.attempts ip other [] h
  · rfl

theorem isAllowed_of_full (now : Int) (ip : String) (rl : RateLimiter)
    (h : rl.maxAttempts ≤ ((validTimestamps rl.windowMs now (rl.recorded ip)).length : Int)) :
    rl.isAllowed now ip =
      (false, { rl with attempts := ensureRecord rl.attempts ip }) := by
  unfold RateLimiter.isAllowed
  simp only [isAllowed_attempts1_recorded rl ip]
  rw [if_pos h]

theorem isAllowed_of_room (now : Int) (ip : String) (rl : RateLimiter)
    (h : ((validTimestamps rl.windowMs now (rl.recorded ip)).length : Int) < rl.maxAttempts) :
    rl.isAllowed now ip =
      (true, ⟨rl.maxAttempts, rl.windowMs,
        attemptsSet (ensureRecord rl.attempts ip) ip
          (validTimestamps rl.windowMs now (rl.recorded ip) ++ [now])⟩) := by
  unfold RateLimiter.isAllowed
  simp only [isAllowed_attempts1_recorded rl ip]
  rw [if_neg (not_le.mpr h)]

theorem isAllowed_iff (now : Int) (ip : String) (rl : RateLimiter) :
    (rl.isAllowed now ip).1 = true ↔
      ((validTimestamps rl.windowMs now (rl.recorded ip)).length : Int) < rl.maxAttempts := by
  by_cases h : ((validTimestamps rl.windowMs now (rl.recorded ip)).length : Int)
      < rl.maxAttempts
  · rw [isAllowed_of_room now ip rl h]
    simp [h]
  · rw [isAllowed_of_full now ip rl (not_lt.mp h)]
    simp [h]

/-- C21: `isAllowed(ip)` at time `now` returns true if and only if fewer than `maxAttempts` of
the timestamps recorded for `ip` satisfy `now - ts < windowMs`.  When it returns true the
record of `ip` becomes the recorded timestamps that are not expired, in their order, followed
by `now`; when it returns false the timestamps recorded for `ip` are as before and `now` is
not recorded.  The records of the other ips and the configuration are untouched. -/
theorem isAllowed_spec (now : Int) (ip : String) (rl : RateLimiter) :
    ((rl.isAllowed now ip).1 = true ↔
      (((rl.recorded ip).countP (fun ts => decide (now - ts < rl.windowMs)) : Nat) : Int)
        < rl.maxAttempts) ∧
    ((rl.isAllowed now ip).1 = true →
      attemptsGet (rl.isAllowed now ip).2.attempts ip
        = some ((rl.recorded ip).filter (fun ts => decide (now - ts < rl.windowMs)) ++ [now]))
    ∧ ((rl.isAllowed now ip).1 = false →
      (rl.isAllowed now ip).2.recorded ip = rl.recorded ip) ∧
    (∀ other, other ≠ ip →
      attemptsGet (rl.isAllowed now ip).2.attempts other = attemptsGet rl.attempts other) ∧
    (rl.isAllowed now ip).2.maxAttempts = rl.maxAttempts ∧
    (rl.isAllowed now ip).2.windowMs = rl.windowMs := by
  have hcount : (rl.recorded ip).countP (fun ts => decide (now - ts < rl.windowMs))
      = (validTimestamps rl.windowMs now (rl.recorded ip)).length := by
    simp [validTimestamps, List.countP_eq_length_filter]
  rw [hcount]
  refine ⟨isAllowed_iff now ip rl, ?_⟩
  by_cases h : ((validTimestamps rl.windowMs now (rl.recorded ip)).length : Int)
      < rl.maxAttempts
  · rw [isAllowed_of_room now ip rl h]
    refine ⟨?_, ?_, ?_, rfl, rfl⟩
    · intro _
      simp only [attemptsGet_attemptsSet_self]
      rfl
    · intro hf
      exact absurd hf (by simp)
    · intro other ho
      simp only
      rw [attemptsGet_attemptsSet_ne _ _ _ _ ho]
      exact isAllowed_attempts1_other rl ip other ho
  · rw [isAllowed_of_full now ip rl (not_lt.mp h)]
    refine ⟨?_, ?_, ?_, rfl, rfl⟩
    · intro hf
      exact absurd hf (by simp)
    · intro _
      exact isAllowed_attempts1_recorded rl ip
    · intro other ho
      exact isAllowed_attempts1_other rl ip other ho

/-- C21, on the sample limiter at time 100000: the attempt of time 0 has expired, two are
left, and the call is allowed and recorded. -/
theorem isAllowed_spec_witness :
    (sampleLimiter.isAllowed 100000 "10.0.0.1").1 = true ∧
    attemptsGet (sampleLimiter.isAllowed 100000 "10.0.0.1").2.attempts "10.0.0.1"
      = some [50000, 70000, 100000] :=
  have h := isAllowed_spec 100000 "10.0.0.1" sampleLimiter
  have ht : (sampleLimiter.isAllowed 100000 "10.0.0.1").1 = true := h.1.mpr (by decide)
  ⟨ht, (h.2.1 ht).trans (by decide)⟩

/-- C22: for every limiter state and every ip, after `reset(ip)` the attempts of `ip` are
forgotten: nothing is recorded for it, `getRemaining(ip)` equals `maxAttempts`, and when
`maxAttempts >= 1` the next `isAllowed(ip)` returns true, at whatever time; the recorded
attempts of every other ip are unchanged. -/
theorem reset_forgets (now : Int) (ip : String) (rl : RateLimiter)
    (hwf : AttemptsWF rl.attempts) :
    (rl.reset ip).recorded ip = [] ∧
    (rl.reset ip).getRemaining now ip = rl.maxAttempts ∧
    (1 ≤ rl.maxAttempts → ((rl.reset ip).isAllowed now ip).1 = true) ∧
    (∀ other, other ≠ ip →
      attemptsGet (rl.reset ip).attempts other = attemptsGet rl.attempts other) := by
  have hgone : attemptsGet (attemptsDelete rl.attempts ip) ip = none :=
    attemptsGet_attemptsDelete_self rl.attempts ip hwf
  have hrec : (rl.reset ip).recorded ip = [] := by
    simp [RateLimiter.recorded, RateLimiter.reset, hgone]
  refine ⟨hrec, ?_, ?_, ?_⟩
  · simp [RateLimiter.getRemaining, attemptsHas, hgone, RateLimiter.reset]
  · intro hmax
    apply (isAllowed_iff now ip (rl.reset ip)).mpr
    rw [hrec]
    simpa [validTimestamps, RateLimiter.reset] using hmax
  · intro other ho
    exact attemptsGet_attemptsDelete_ne rl.attempts ip other ho

/-- C22, on the sample limiter. -/
theorem reset_forgets_witness :
    (sampleLimiter.reset "10.0.0.1").getRemaining 70001 "10.0.0.1" = 5 ∧
    ((sampleLimiter.reset "10.0.0.1").isAllowed 70001 "10.0.0.1").1 = true ∧
    attemptsGet (sampleLimiter.reset "10.0.0.1").attempts "10.0.0.2" = some [1000] :=
  have h := reset_forgets 70001 "10.0.0.1" sampleLimiter (by decide)
  ⟨h.2.1, h.2.2.1 (by decide), (h.2.2.2 "10.0.0.2" (by decide)).trans (by decide)⟩

/-! ## The rate limiter: cleanup -/

theorem cleanRecord_wf (windowMs now : Int) (done rest : AttemptsData)
    (e : Option (String × List Int)) (h : AttemptsWF (done ++ e :: rest)) :
    AttemptsWF ((done ++ [cleanRecord windowMs now e]) ++ rest) := by
  cases e with
  | none => simpa [cleanRecord] using h
  | some kv =>
    obtain ⟨k, v⟩ := kv
    by_cases hk : (validTimestamps windowMs now v).length = 0
    · simp only [cleanRecord, hk]
      unfold AttemptsWF at *
      simp only [attemptsKeys_append, attemptsKeys_cons_some, attemptsKeys_cons_none,
        attemptsKeys_nil, List.append_nil, if_true] at *
      exact List.Nodup.sublist
        (List.Sublist.append_left (List.sublist_cons_self k (attemptsKeys rest))
          (attemptsKeys done)) h
    · simp only [cleanRecord, hk, if_false]
      unfold AttemptsWF at *
      simpa [attemptsKeys_append, attemptsKeys_cons_some, attemptsKeys_nil] using h

theorem attempts_not_mem_done_of_wf (done rest : AttemptsData) (k : String) (v : List Int)
    (h : AttemptsWF (done ++ some (k, v) :: rest)) : k ∉ attemptsKeys done := by
  unfold AttemptsWF at h
  rw [attemptsKeys_append, attemptsKeys_cons_some] at h
  intro hk
  exact (List.nodup_append.mp h).2.2 hk (List.mem_cons_self k _)

theorem cleanupBody_body (now : Int) (done rest : AttemptsData) (k : String) (v : List Int)
    (rl : RateLimiter) (hs : rl.attempts = done ++ some (k, v) :: rest)
    (hk : k ∉ attemptsKeys done) :
    cleanupBody now k v rl =
      ⟨rl.maxAttempts, rl.windowMs, done ++ cleanRecord rl.windowMs now (some (k, v)) :: rest⟩
    := by
  unfold cleanupBody cleanRecord
  by_cases he : (validTimestamps rl.windowMs now v).length = 0
  · simp only [he, if_true]
    rw [hs, attemptsDelete_append_some done rest k v hk]
  · simp only [he, if_false]
    rw [hs, attemptsSet_append_some done rest k v _ hk]

/-- Closed form of the loop of `cleanup`: each record is visited once, in order, although the
loop deletes and overwrites records on the way. -/
theorem forOfAttempts_cleanup (now : Int) (rest : AttemptsData) :
    ∀ (done : AttemptsData) (rl : RateLimiter) (fuel : Nat),
      rl.attempts = done ++ rest → AttemptsWF (done ++ rest) → rest.length ≤ fuel →
      forOfAttempts (cleanupBody now) fuel done.length rl =
        ⟨rl.maxAttempts, rl.windowMs, done ++ rest.map (cleanRecord rl.windowMs now)⟩ := by
  induction rest with
  | nil =>
    intro done rl fuel hs _ _
    have hnone : rl.attempts[done.length]? = none := by simp [hs]
    cases fuel with
    | zero =>
      cases rl
      simp_all [forOfAttempts]
    | succ f =>
      cases rl
      simp_all [forOfAttempts]
  | cons e rest ih =>
    intro done rl fuel hs hwf hfuel
    cases fuel with
    | zero => simp at hfuel
    | succ f =>
      have hf : rest.length ≤ f := by simpa using hfuel
      have hlook : rl.attempts[done.length]? = some e := by
        rw [hs, List.getElem?_append_right (Nat.le_refl _)]
        simp
      have hlen : (done ++ [cleanRecord rl.windowMs now e]).length = done.length + 1 := by
        simp
      cases e with
      | none =>
        have hs' : rl.attempts = (done ++ [cleanRecord rl.windowMs now none]) ++ rest := by
          simp [hs, cleanRecord]
        have := ih (done ++ [cleanRecord rl.windowMs now none]) rl f hs'
          (cleanRecord_wf rl.windowMs now done rest none hwf) hf
        rw [hlen] at this
        simp only [forOfAttempts, hlook, this]
        simp [cleanRecord]
      | some kv =>
        obtain ⟨k, v⟩ := kv
        have hk := attempts_not_mem_done_of_wf done rest k v hwf
        have hb := cleanupBody_body now done rest k v rl hs hk
        have hs' : (cleanupBody now k v rl).attempts
            = (done ++ [cleanRecord rl.windowMs now (some (k, v))]) ++ rest := by
          rw [hb]; simp
        have hw : (cleanupBody now k v rl).windowMs = rl.windowMs := by rw [hb]
        have hm : (cleanupBody now k v rl).maxAttempts = rl.maxAttempts := by rw [hb]
        have := ih (done ++ [cleanRecord rl.windowMs now (some (k, v))])
          (cleanupBody now k v rl) f hs'
          (cleanRecord_wf rl.windowMs now done rest (some (k, v)) hwf) hf
        rw [hlen] at this
        simp only [forOfAttempts, hlook, this, hw, hm]
        simp

theorem limiter_cleanup_closed_form (now : Int) (rl : RateLimiter) (hwf : AttemptsWF rl.attempts) :
    rl.cleanup now =
      ⟨rl.maxAttempts, rl.windowMs, rl.attempts.map (cleanRecord rl.windowMs now)⟩ := by
  have := forOfAttempts_cleanup now rl.attempts [] rl rl.attempts.length (by simp)
    (by simpa using hwf) (Nat.le_refl _)
  simpa [RateLimiter.cleanup] using this

theorem attemptsGet_map_cleanRecord (windowMs now : Int) (m : AttemptsData)
    (hwf : AttemptsWF m) (ip : String) :
    attemptsGet (m.map (cleanRecord windowMs now)) ip =
      match attemptsGet m ip with
      | some ts =>
        if (validTimestamps windowMs now ts).length = 0 then none
        else some (validTimestamps windowMs now ts)
      | none => none := by
  induction m with
  | nil => rfl
  | cons e rest ih =>
    cases e with
    | none =>
      have hwf' : AttemptsWF rest := by simpa [AttemptsWF, attemptsKeys_cons_none] using hwf
      simpa [attemptsGet, cleanRecord] using ih hwf'
    | some kv =>
      obtain ⟨k, v⟩ := kv
      have hwf2 : k ∉ attemptsKeys rest ∧ AttemptsWF rest := by
        simpa [AttemptsWF, attemptsKeys_cons_some] using hwf
      by_cases hid : k = ip
      · subst hid
        by_cases hk : (validTimestamps windowMs now v).length = 0
        · have hnone : attemptsGet rest k = none :=
            (attemptsGet_eq_none_iff rest k).mpr hwf2.1
          have := ih hwf2.2
          rw [hnone] at this
          simp only [List.map_cons, cleanRecord, hk, if_true, attemptsGet, this]
        · simp [attemptsGet, cleanRecord, hk]
      · by_cases hk : (validTimestamps windowMs now v).length = 0
        · simpa [attemptsGet, cleanRecord, hk, hid] using ih hwf2.2
        · simpa [attemptsGet, cleanRecord, hk, hid] using ih hwf2.2

theorem mem_attemptsEntries_map_cleanRecord (windowMs now : Int) (m : AttemptsData)
    (e : String × List Int) (h : e ∈ attemptsEntries (m.map (cleanRecord windowMs now))) :
    e.2 ≠ [] ∧ ∀ ts ∈ e.2, now - ts < windowMs := by
  induction m with
  | nil => simp [attemptsEntries] at h
  | cons r rest ih =>
    cases r with
    | none =>
      exact ih (by simpa [attemptsEntries, cleanRecord] using h)
    | some kv =>
      obtain ⟨k, v⟩ := kv
      by_cases hk : (validTimestamps windowMs now v).length = 0
      · exact ih (by simpa [attemptsEntries, cleanRecord, hk] using h)
      · have h' : e = (k, validTimestamps windowMs now v)
            ∨ e ∈ attemptsEntries (rest.map (cleanRecord windowMs now)) := by
          simpa [attemptsEntries, cleanRecord, hk] using h
        rcases h' with h1 | h1
        · rw [h1]
          refine ⟨?_, ?_⟩
          · intro hnil
            simp only at hnil
            rw [hnil] at hk
            exact hk rfl
          · intro ts hts
            simp only [validTimestamps, List.mem_filter, decide_eq_true_eq] at hts
            exact hts.2
        · exact ih h1

theorem validTimestamps_later (windowMs now t : Int) (l : List Int) (h : now ≤ t) :
    validTimestamps windowMs t (validTimestamps windowMs now l) = validTimestamps windowMs t l
    := by
  unfold validTimestamps
  rw [List.filter_filter]
  apply List.filter_congr
  intro ts _
  by_cases h1 : t - ts < windowMs
  · have h2 : now - ts < windowMs := by omega
    simp [h1, h2]
  · simp [h1]

theorem recorded_cleanup (now : Int) (rl : RateLimiter) (hwf : AttemptsWF rl.attempts)
    (ip : String) :
    (rl.cleanup now).recorded ip = validTimestamps rl.windowMs now (rl.recorded ip) := by
  rw [limiter_cleanup_closed_form now rl hwf]
  unfold RateLimiter.recorded
  simp only
  rw [attemptsGet_map_cleanRecord rl.windowMs now rl.attempts hwf ip]
  cases hget : attemptsGet rl.attempts ip with
  | none => simp [validTimestamps]
  | some ts =>
    by_cases hk : (validTimestamps rl.windowMs now ts).length = 0
    · simp only [hk, if_true, Option.getD_none, Option.getD_some]
      exact (List.length_eq_zero.mp hk).symm
    · simp [hk]

/-- C29 (as stated, refuted): the limiter is configured with `maxAttempts = -1` and holds one
expired attempt for `10.0.0.1`; at time 100000 `getRemaining` gives 0 before `cleanup` and -1
after it. -/
theorem cleanup_changes_getRemaining :
    negativeLimiter.getRemaining 100000 "10.0.0.1" = 0 ∧
    (negativeLimiter.cleanup 100000).getRemaining 100000 "10.0.0.1" = -1 ∧
    (100000 : Int) ≤ 100000 := by
  decide

theorem getRemaining_eq (now : Int) (ip : String) (rl : RateLimiter) :
    rl.getRemaining now ip =
      match attemptsGet rl.attempts ip with
      | none => rl.maxAttempts
      | some ts =>
        max 0 (rl.maxAttempts - ((validTimestamps rl.windowMs now ts).length : Int)) := by
  unfold RateLimiter.getRemaining attemptsHas
  cases attemptsGet rl.attempts ip <;> simp

/-- C29 (amended): for every limiter state, every time `now` and every later time `t >= now`,
running `cleanup` at `now` does not change the result of `isAllowed(ip)` at `t` for any ip,
and when `maxAttempts >= 0` it does not change the result of `getRemaining(ip)` at `t` either;
after it the record of each ip holds exactly its timestamps with `now - ts < windowMs`, and
every remaining entry is non-empty. -/
theorem cleanup_transparent (now t : Int) (ip : String) (rl : RateLimiter)
    (hwf : AttemptsWF rl.attempts) (hlater : now ≤ t) :
    ((rl.cleanup now).isAllowed t ip).1 = (rl.isAllowed t ip).1 ∧
    (0 ≤ rl.maxAttempts → (rl.cleanup now).getRemaining t ip = rl.getRemaining t ip) ∧
    (rl.cleanup now).recorded ip
      = (rl.recorded ip).filter (fun ts => decide (now - ts < rl.windowMs)) ∧
    (∀ e ∈ attemptsEntries (rl.cleanup now).attempts,
      e.2 ≠ [] ∧ ∀ ts ∈ e.2, now - ts < rl.windowMs) := by
  have hrec := recorded_cleanup now rl hwf ip
  have hform := limiter_cleanup_closed_form now rl hwf
  have hw : (rl.cleanup now).windowMs = rl.windowMs := by rw [hform]
  have hm : (rl.cleanup now).maxAttempts = rl.maxAttempts := by rw [hform]
  have hvalid : validTimestamps rl.windowMs t ((rl.cleanup now).recorded ip)
      = validTimestamps rl.windowMs t (rl.recorded ip) := by
    rw [hrec, validTimestamps_later rl.windowMs now t _ hlater]
  refine ⟨?_, ?_, hrec, ?_⟩
  · have h1 := isAllowed_iff t ip (rl.cleanup now)
    have h2 := isAllowed_iff t ip rl
    rw [hw, hm, hvalid] at h1
    exact Bool.eq_iff_iff.mpr (h1.trans h2.symm)
  · intro hmax
    have hget : attemptsGet (rl.cleanup now).attempts ip =
        match attemptsGet rl.attempts ip with
        | some ts =>
          if (validTimestamps rl.windowMs now ts).length = 0 then none
          else some (validTimestamps rl.windowMs now ts)
        | none => none := by
      rw [hform]
      exact attemptsGet_map_cleanRecord rl.windowMs now rl.attempts hwf ip
    rw [getRemaining_eq, getRemaining_eq, hw, hm, hget]
    cases hg : attemptsGet rl.attempts ip with
    | none => rfl
    | some ts =>
      by_cases hk : (validTimestamps rl.windowMs now ts).length = 0
      · have hnil : validTimestamps rl.windowMs now ts = [] := List.length_eq_zero.mp hk
        have hz : validTimestamps rl.windowMs t ts = [] := by
          rw [← validTimestamps_later rl.windowMs now t ts hlater, hnil]
          rfl
        simp only [hk, if_true, hz, List.length_nil]
        simp [hmax]
      · simp only [hk, if_false]
        rw [validTimestamps_later rl.windowMs now t ts hlater]
  · intro e he
    rw [hform] at he
    exact mem_attemptsEntries_map_cleanRecord rl.windowMs now rl.attempts e he

/-- C29 (amended), on the sample limiter: `cleanup` at time 100000 drops the attempts of
times 0 and 1000, and with them the whole record of `10.0.0.2`. -/
theorem cleanup_transparent_witness :
    (sampleLimiter.cleanup 100000).recorded "10.0.0.1" = [50000, 70000] ∧
    (sampleLimiter.cleanup 100000).getRemaining 100005 "10.0.0.2"
      = sampleLimiter.getRemaining 100005 "10.0.0.2" ∧
    attemptsEntries (sampleLimiter.cleanup 100000).attempts
      = [("10.0.0.1", [50000, 70000])] :=
  have h := cleanup_transparent 100000 100005 "10.0.0.1" sampleLimiter (by decide) (by decide)
  have h2 := cleanup_transparent 100000 100005 "10.0.0.2" sampleLimiter (by decide)
    (by decide)
  ⟨h.2.2.1.trans (by decide), h2.2.1 (by decide), by decide⟩

/-! ## The rate limiter: the sliding window -/

theorem ensureRecord_wf (m : AttemptsData) (ip : String) (h : AttemptsWF m) :
    AttemptsWF (ensureRecord m ip) := by
  unfold ensureRecord
  split
  · exact attemptsSet_wf m ip [] h
  · exact h

theorem isAllowed_wf (now : Int) (ip : String) (rl : RateLimiter)
    (h : AttemptsWF rl.attempts) : AttemptsWF (rl.isAllowed now ip).2.attempts := by
  by_cases hr : ((validTimestamps rl.windowMs now (rl.recorded ip)).length : Int)
      < rl.maxAttempts
  · rw [isAllowed_of_room now ip rl hr]
    exact attemptsSet_wf _ ip _ (ensureRecord_wf rl.attempts ip h)
  · rw [isAllowed_of_full now ip rl (not_lt.mp hr)]
    exact ensureRecord_wf rl.attempts ip h

theorem map_cleanRecord_wf (windowMs now : Int) (m : AttemptsData) (h : AttemptsWF m) :
    AttemptsWF (m.map (cleanRecord windowMs now)) := by
  induction m with
  | nil => exact h
  | cons e rest ih =>
    cases e with
    | none =>
      have h' : AttemptsWF rest := by simpa [AttemptsWF, attemptsKeys_cons_none] using h
      simpa [AttemptsWF, attemptsKeys_cons_none, cleanRecord] using ih h'
    | some kv =>
      obtain ⟨k, v⟩ := kv
      have h2 : k ∉ attemptsKeys rest ∧ AttemptsWF rest := by
        simpa [AttemptsWF, attemptsKeys_cons_some] using h
      have ih' := ih h2.2
      by_cases hk : (validTimestamps windowMs now v).length = 0
      · simpa [AttemptsWF, attemptsKeys_cons_none, cleanRecord, hk] using ih'
      · have hsub : k ∉ attemptsKeys (rest.map (cleanRecord windowMs now)) := by
          intro hmem
          have hget : attemptsGet (rest.map (cleanRecord windowMs now)) k ≠ none :=
            fun hn => ((attemptsGet_eq_none_iff _ k).mp hn) hmem
          rw [attemptsGet_map_cleanRecord windowMs now rest h2.2 k,
            (attemptsGet_eq_none_iff rest k).mpr h2.1] at hget
          exact hget rfl
        unfold AttemptsWF at ih' ⊢
        simp only [List.map_cons, cleanRecord, hk, if_false, attemptsKeys_cons_some]
        exact List.nodup_cons.mpr ⟨hsub, ih'⟩

theorem limiter_cleanup_wf (now : Int) (rl : RateLimiter) (h : AttemptsWF rl.attempts) :
    AttemptsWF (rl.cleanup now).attempts := by
  rw [limiter_cleanup_closed_form now rl h]
  exact map_cleanRecord_wf rl.windowMs now rl.attempts h

theorem isAllowed_config (now : Int) (ip : String) (rl : RateLimiter) :
    (rl.isAllowed now ip).2.maxAttempts = rl.maxAttempts ∧
    (rl.isAllowed now ip).2.windowMs = rl.windowMs := by
  by_cases hr : ((validTimestamps rl.windowMs now (rl.recorded ip)).length : Int)
      < rl.maxAttempts
  · rw [isAllowed_of_room now ip rl hr]
    exact ⟨rfl, rfl⟩
  · rw [isAllowed_of_full now ip rl (not_lt.mp hr)]
    exact ⟨rfl, rfl⟩

theorem step_config (rl : RateLimiter) (op : Int × LimiterOp)
    (h : AttemptsWF rl.attempts) :
    (rl.step op).maxAttempts = rl.maxAttempts ∧ (rl.step op).windowMs = rl.windowMs ∧
    AttemptsWF (rl.step op).attempts := by
  obtain ⟨t, o⟩ := op
  cases o with
  | isAllowed ip =>
    have hs := isAllowed_config t ip rl
    exact ⟨hs.1, hs.2, isAllowed_wf t ip rl h⟩
  | getRemaining ip => exact ⟨rfl, rfl, h⟩
  | cleanup =>
    refine ⟨?_, ?_, limiter_cleanup_wf t rl h⟩
    · simp only [RateLimiter.step]
      rw [limiter_cleanup_closed_form t rl h]
    · simp only [RateLimiter.step]
      rw [limiter_cleanup_closed_form t rl h]

theorem recorded_isAllowed_same (now : Int) (ip : String) (rl : RateLimiter) :
    (rl.isAllowed now ip).2.recorded ip =
      if (rl.isAllowed now ip).1 = true then
        validTimestamps rl.windowMs now (rl.recorded ip) ++ [now]
      else rl.recorded ip := by
  by_cases hr : ((validTimestamps rl.windowMs now (rl.recorded ip)).length : Int)
      < rl.maxAttempts
  · rw [isAllowed_of_room now ip rl hr]
    simp [RateLimiter.recorded, attemptsGet_attemptsSet_self]
  · rw [isAllowed_of_full now ip rl (not_lt.mp hr)]
    simpa [RateLimiter.recorded] using isAllowed_attempts1_recorded rl ip

theorem recorded_isAllowed_other (now : Int) (ip other : String) (rl : RateLimiter)
    (h : other ≠ ip) : (rl.isAllowed now ip).2.recorded other = rl.recorded other := by
  unfold RateLimiter.recorded
  by_cases hr : ((validTimestamps rl.windowMs now (rl.recorded ip)).length : Int)
      < rl.maxAttempts
  · rw [isAllowed_of_room now ip rl hr]
    simp only
    rw [attemptsGet_attemptsSet_ne _ _ _ _ h, isAllowed_attempts1_other rl ip other h]
  · rw [isAllowed_of_full now ip rl (not_lt.mp hr)]
    simp only
    rw [isAllowed_attempts1_other rl ip other h]

theorem validTimestamps_append (windowMs now : Int) (a b : List Int) :
    validTimestamps windowMs now (a ++ b)
      = validTimestamps windowMs now a ++ validTimestamps windowMs now b := by
  simp [validTimestamps]

theorem recorded_step (ip : String) (rl : RateLimiter) (op : Int × LimiterOp)
    (hwf : AttemptsWF rl.attempts) :
    (rl.step op).recorded ip =
      if op.2 = .isAllowed ip ∧ (rl.isAllowed op.1 ip).1 = true then
        validTimestamps rl.windowMs op.1 (rl.recorded ip) ++ [op.1]
      else if op.2 = .cleanup then validTimestamps rl.windowMs op.1 (rl.recorded ip)
      else rl.recorded ip := by
  obtain ⟨t, o⟩ := op
  cases o with
  | isAllowed ip2 =>
    by_cases hip : ip2 = ip
    · subst hip
      simp only [RateLimiter.step, recorded_isAllowed_same, true_and]
      split <;> simp
    · have hne : ip ≠ ip2 := fun e => hip e.symm
      simp [RateLimiter.step, recorded_isAllowed_other t ip2 ip rl hne, hip]
  | getRemaining ip2 => simp [RateLimiter.step]
  | cleanup => simp [RateLimiter.step, recorded_cleanup t rl hwf ip]

/-- The invariant behind the sliding window: at every time from the last call on, the
recorded timestamps that are still valid are the granted calls that are still valid; and no
interval shorter than the window holds more than `maxAttempts` granted calls. -/
theorem granted_window_invariant (ip : String) (a b : Int)
    (ops : List (Int × LimiterOp)) :
    ∀ (rl : RateLimiter) (hist : List Int) (last : Int),
      AttemptsWF rl.attempts →
      (∀ t, last ≤ t → validTimestamps rl.windowMs t (rl.recorded ip)
        = validTimestamps rl.windowMs t hist) →
      ((hist.countP (fun x => decide (a ≤ x ∧ x ≤ b)) : Nat) : Int) ≤ rl.maxAttempts →
      (∀ x ∈ hist, x ≤ last) →
      b - a < rl.windowMs →
      List.Chain (· ≤ ·) last (ops.map Prod.fst) →
      (((hist ++ RateLimiter.granted ip rl ops).countP
        (fun x => decide (a ≤ x ∧ x ≤ b)) : Nat) : Int) ≤ rl.maxAttempts := by
  induction ops with
  | nil =>
    intro rl hist last _ _ hcount _ _ _
    simpa [RateLimiter.granted] using hcount
  | cons op rest ih =>
    intro rl hist last hwf hvalid hcount hle hshort hchain
    have hchain' : last ≤ op.1 ∧ List.Chain (· ≤ ·) op.1 (rest.map Prod.fst) := by
      simpa [List.chain_cons] using hchain
    have hcfg := step_config rl op hwf
    have hrec := recorded_step ip rl op hwf
    by_cases hg : op.2 = .isAllowed ip ∧ (rl.isAllowed op.1 ip).1 = true
    · -- the call is granted and recorded
      have hroom := (isAllowed_iff op.1 ip rl).mp hg.2
      rw [if_pos hg] at hrec
      have hnow := hvalid op.1 hchain'.1
      have hnext := ih (rl.step op) (hist ++ [op.1]) op.1 hcfg.2.2
        (by
          intro t ht
          rw [hcfg.2.1, hrec, validTimestamps_append, validTimestamps_append,
            validTimestamps_later rl.windowMs op.1 t _ ht, hvalid t (le_trans hchain'.1 ht)])
        (by
          rw [hcfg.1, List.countP_append]
          by_cases hin : a ≤ op.1 ∧ op.1 ≤ b
          · have hmono : hist.countP (fun x => decide (a ≤ x ∧ x ≤ b))
                ≤ hist.countP (fun x => decide (op.1 - x < rl.windowMs)) := by
              apply List.countP_mono_left
              intro x _ hx
              simp only [decide_eq_true_eq] at hx ⊢
              omega
            have hlen : hist.countP (fun x => decide (op.1 - x < rl.windowMs))
                = (validTimestamps rl.windowMs op.1 (rl.recorded ip)).length := by
              rw [hnow]
              simp [validTimestamps, List.countP_eq_length_filter]
            simp only [List.countP_cons, List.countP_nil, hin, and_self, decide_True,
              if_true]
            omega
          · simp only [List.countP_cons, List.countP_nil, hin, decide_False]
            simpa using hcount)
        (by
          intro x hx
          rcases List.mem_append.mp hx with h1 | h1
          · exact le_trans (hle x h1) hchain'.1
          · have : x = op.1 := by simpa using h1
            rw [this])
        (by rw [hcfg.2.1]; exact hshort) hchain'.2
      rw [hcfg.1] at hnext
      simpa [RateLimiter.granted, hg, List.append_assoc] using hnext
    · -- nothing is granted: the record of the ip is kept or cleaned
      rw [if_neg hg] at hrec
      have hnext := ih (rl.step op) hist op.1 hcfg.2.2
        (by
          intro t ht
          rw [hcfg.2.1, hrec]
          by_cases hc : op.2 = .cleanup
          · rw [if_pos hc, validTimestamps_later rl.windowMs op.1 t _ ht]
            exact hvalid t (le_trans hchain'.1 ht)
          · rw [if_neg hc]
            exact hvalid t (le_trans hchain'.1 ht))
        (by rw [hcfg.1]; exact hcount)
        (fun x hx => le_trans (hle x hx) hchain'.1)
        (by rw [hcfg.2.1]; exact hshort) hchain'.2
      rw [hcfg.1] at hnext
      simpa [RateLimiter.granted, hg] using hnext

theorem recorded_length_step (rl : RateLimiter) (op : Int × LimiterOp)
    (hwf : AttemptsWF rl.attempts)
    (h : ∀ ip, (((rl.recorded ip).length : Nat) : Int) ≤ rl.maxAttempts) :
    ∀ ip, ((((rl.step op).recorded ip).length : Nat) : Int) ≤ (rl.step op).maxAttempts := by
  intro ip
  have hcfg := step_config rl op hwf
  have hrec := recorded_step ip rl op hwf
  have hfilter : (validTimestamps rl.windowMs op.1 (rl.recorded ip)).length
      ≤ (rl.recorded ip).length := List.length_filter_le _ _
  rw [hcfg.1, hrec]
  by_cases hg : op.2 = .isAllowed ip ∧ (rl.isAllowed op.1 ip).1 = true
  · have hroom := (isAllowed_iff op.1 ip rl).mp hg.2
    rw [if_pos hg]
    simp only [List.length_append, List.length_singleton]
    omega
  · rw [if_neg hg]
    have := h ip
    split
    · omega
    · exact this

theorem recorded_length_run (ops : List (Int × LimiterOp)) :
    ∀ rl : RateLimiter, AttemptsWF rl.attempts →
      (∀ ip, (((rl.recorded ip).length : Nat) : Int) ≤ rl.maxAttempts) →
      (rl.run ops).maxAttempts = rl.maxAttempts ∧
      ∀ ip, ((((rl.run ops).recorded ip).length : Nat) : Int) ≤ rl.maxAttempts := by
  induction ops with
  | nil => intro rl _ h; exact ⟨rfl, h⟩
  | cons op rest ih =>
    intro rl hwf h
    have hcfg := step_config rl op hwf
    have := ih (rl.step op) hcfg.2.2 (recorded_length_step rl op hwf h)
    rw [hcfg.1] at this
    exact this

/-- C28: for every ip, every `maxAttempts >= 0`, every window and every sequence of
`isAllowed`, `getRemaining` and `cleanup` calls made at non-decreasing times on a fresh
limiter, for this ip and for others, the calls `isAllowed(ip)` that return true and whose
times lie in an interval `[a, b]` shorter than `windowMs` number at most `maxAttempts`; and
the list stored for the ip never holds more than `maxAttempts` timestamps. -/
theorem limiter_window_bound (maxAttempts windowMs : Int) (ip : String)
    (ops : List (Int × LimiterOp)) (a b : Int)
    (hmax : 0 ≤ maxAttempts)
    (htimes : List.Chain' (· ≤ ·) (ops.map Prod.fst))
    (hshort : b - a < windowMs) :
    ((((RateLimiter.granted ip ⟨maxAttempts, windowMs, []⟩ ops).countP
      (fun x => decide (a ≤ x ∧ x ≤ b)) : Nat) : Int) ≤ maxAttempts) ∧
    (((((RateLimiter.run ⟨maxAttempts, windowMs, []⟩ ops).recorded ip).length : Nat) : Int)
      ≤ maxAttempts) := by
  have hwf : AttemptsWF ([] : AttemptsData) := by
    simp [AttemptsWF, attemptsKeys_nil]
  refine ⟨?_, ?_⟩
  · cases ops with
    | nil => simpa [RateLimiter.granted] using hmax
    | cons op rest =>
      have hchain : List.Chain (· ≤ ·) op.1 ((op :: rest).map Prod.fst) := by
        simp only [List.map_cons, List.chain_cons, le_refl, true_and]
        simpa [List.Chain'] using htimes
      have := granted_window_invariant ip a b (op :: rest) ⟨maxAttempts, windowMs, []⟩ []
        op.1 hwf (fun _ _ => by simp [RateLimiter.recorded, attemptsGet])
        (by simpa using hmax) (by simp) hshort hchain
      simpa using this
  · exact (recorded_length_run ops ⟨maxAttempts, windowMs, []⟩ hwf
      (fun _ => by simpa [RateLimiter.recorded, attemptsGet] using hmax)).2 ip

/-- C28, for the sample calls with the defaults (5 attempts per 60,000 ms): of the seven
attempts of `10.0.0.1` the first five and the one at time 61000 are granted, and the interval
[0, 59999] holds five granted calls. -/
theorem limiter_window_bound_witness :
    RateLimiter.granted "10.0.0.1" ⟨5, 60000, []⟩ sampleLimiterOps = [0, 10, 20, 40, 50, 61000]
    ∧ ((((RateLimiter.granted "10.0.0.1" ⟨5, 60000, []⟩ sampleLimiterOps).countP
      (fun x => decide (0 ≤ x ∧ x ≤ 59999)) : Nat) : Int) ≤ 5) :=
  ⟨by decide,
   (limiter_window_bound 5 60000 "10.0.0.1" sampleLimiterOps 0 59999 (by decide)
    (by simp [sampleLimiterOps]) (by decide)).1⟩

/-! ## Credential validation -/

theorem suspiciousChars_eq :
    suspiciousChars = ['<', '>', '"', Char.ofNat 96, '$', '(', ')', Char.ofNat 123,
      Char.ofNat 125, '[', ']', '|', ';', '&'] := by
  decide

theorem jsLength_pos (s : String) (h : s ≠ "") : 1 ≤ jsLength s := by
  obtain ⟨l⟩ := s
  cases l with
  | nil => exact absurd rfl h
  | cons c rest =>
    simp only [jsLength, List.map_cons, List.sum_cons]
    split <;> omega

theorem forbiddenInUsername_eq :
    forbiddenInUsername = '\n' :: '\r' :: Char.ofNat 0 :: suspiciousChars := by
  decide

theorem forbidden_iff (l : List Char) :
    (∀ c ∈ forbiddenInUsername, c ∉ l) ↔
      (l.contains '\n' = false ∧ l.contains '\r' = false ∧ l.contains (Char.ofNat 0) = false
        ∧ l.any (fun c => suspiciousChars.contains c) = false) := by
  rw [forbiddenInUsername_eq]
  simp only [List.mem_cons, forall_eq_or_imp, List.contains_eq_any_beq, List.any_eq_false,
    beq_iff_eq, List.any_eq_true, not_exists, not_and]
  constructor
  · rintro ⟨h1, h2, h3, h4⟩
    refine ⟨fun x hx e => h1 (e ▸ hx), fun x hx e => h2 (e ▸ hx), fun x hx e => h3 (e ▸ hx), ?_⟩
    intro x hx y hy e
    exact h4 y hy (e ▸ hx)
  · rintro ⟨h1, h2, h3, h4⟩
    refine ⟨fun hx => h1 _ hx rfl, fun hx => h2 _ hx rfl, fun hx => h3 _ hx rfl, ?_⟩
    intro c hc hcl
    exact h4 c hcl c hc rfl

theorem ite_some_eq_none {c : Prop} [Decidable c] {x : String} {r : Option String}
    (h : (if c then some x else r) = none) : ¬ c ∧ r = none := by
  by_cases hc : c
  · rw [if_pos hc] at h
    exact Option.noConfusion h
  · rw [if_neg hc] at h
    exact ⟨hc, h⟩

theorem nonEmptyString_iff (v : JsVal) :
    ¬ ((!v.truthy || !v.isString) = true) ↔ ∃ s, v = .str s ∧ s ≠ "" := by
  cases v with
  | str s =>
    by_cases hs : s = ""
    · simp [JsVal.truthy, JsVal.isString, hs]
    · simp [JsVal.truthy, JsVal.isString, hs]
  | undefined => simp [JsVal.truthy, JsVal.isString]
  | null => simp [JsVal.truthy, JsVal.isString]
  | bool b => simp [JsVal.truthy, JsVal.isString]
  | num n => simp [JsVal.truthy, JsVal.isString]

/-- C23: `validateCredentials(username, password)` returns null if and only if both are
non-empty strings, the username has at most 255 and the password at most 1024 UTF-16 code
units (the `length` of a JavaScript string), the username contains none of newline, carriage
return, NUL and the characters of the class of the pattern, and the password contains no NUL;
in every other case it returns an error message. -/
theorem validateCredentials_spec (username password : JsVal) :
    (validateCredentials username password = none ↔
      ∃ u p, username = .str u ∧ password = .str p ∧ u ≠ "" ∧ p ≠ "" ∧
        jsLength u ≤ 255 ∧ jsLength p ≤ 1024 ∧
        (∀ c ∈ forbiddenInUsername, c ∉ u.data) ∧ Char.ofNat 0 ∉ p.data) ∧
    (validateCredentials username password ≠ none →
      ∃ message, validateCredentials username password = some message) := by
  refine ⟨⟨?_, ?_⟩, ?_⟩
  · intro h
    unfold validateCredentials at h
    obtain ⟨n1, h⟩ := ite_some_eq_none h
    obtain ⟨n2, h⟩ := ite_some_eq_none h
    obtain ⟨n3, h⟩ := ite_some_eq_none h
    obtain ⟨n4, h⟩ := ite_some_eq_none h
    obtain ⟨n5, h⟩ := ite_some_eq_none h
    obtain ⟨n6, h⟩ := ite_some_eq_none h
    obtain ⟨n7, _⟩ := ite_some_eq_none h
    obtain ⟨u, hu, hune⟩ := (nonEmptyString_iff username).mp n1
    obtain ⟨p, hp, hpne⟩ := (nonEmptyString_iff password).mp n2
    subst hu
    subst hp
    simp only [JsVal.asString, Bool.or_eq_true, decide_eq_true_eq, not_or, not_lt,
      Bool.not_eq_true] at n3 n4 n5 n6 n7
    refine ⟨u, p, rfl, rfl, hune, hpne, by omega, by omega, ?_, ?_⟩
    · exact (forbidden_iff u.data).mpr ⟨n5.1.1, n5.1.2, n5.2, n7⟩
    · simpa using n6
  · rintro ⟨u, p, hu, hp, hune, hpne, hul, hpl, hforb, hnul⟩
    subst hu
    subst hp
    have hf := (forbidden_iff u.data).mp hforb
    have h1 := jsLength_pos u hune
    have h2 := jsLength_pos p hpne
    have hn : p.data.contains (Char.ofNat 0) = false := by simpa using hnul
    unfold validateCredentials
    rw [if_neg ((nonEmptyString_iff (.str u)).mpr ⟨u, rfl, hune⟩),
      if_neg ((nonEmptyString_iff (.str p)).mpr ⟨p, rfl, hpne⟩)]
    simp only [JsVal.asString]
    rw [if_neg (by simp only [Bool.or_eq_true, decide_eq_true_eq]; omega),
      if_neg (by simp only [Bool.or_eq_true, decide_eq_true_eq]; omega),
      if_neg (by rw [hf.1, hf.2.1, hf.2.2.1]; decide), if_neg (by rw [hn]; decide),
      if_neg (by rw [hf.2.2.2]; decide)]
  · intro h
    cases hv : validateCredentials username password with
    | none => exact absurd hv h
    | some m => exact ⟨m, rfl⟩

/-- C23, for a plain login and for a username that carries a shell substitution. -/
theorem validateCredentials_spec_witness :
    validateCredentials (.str "alice") (.str "correct horse") = none ∧
    validateCredentials (.str "alice$(reboot)") (.str "pw")
      = some "Invalid username characters" :=
  ⟨(validateCredentials_spec (.str "alice") (.str "correct horse")).1.mpr
      ⟨"alice", "correct horse", rfl, rfl, by decide, by decide, by decide, by decide,
        by decide, by decide⟩,
   by decide⟩

/-! ## The firewall service -/

theorem test_sample_sources :
    ipCidrRegex.test "10.0.0.0/8".data = true ∧ ipCidrRegex.test "192.168.1.20".data = true ∧
    ipCidrRegex.test "my-host.example.org".data = true ∧ ipCidrRegex.test "".data = false ∧
    ipCidrRegex.test "1.2.3.4; reboot".data = false ∧ ipCidrRegex.test "1.2.3.4/123".data = false ∧
    ipCidrRegex.test "a b".data = false ∧ ipCidrRegex.test "a/b".data = false := by
  decide

theorem addRule_sample :
    addRule Shell.permissive sampleRule (FirewallService.new .undefined)
      = (.ok (), { firewallTool := some "ufw", enabled := true,
                   executed := ["which ufw > /dev/null 2>&1",
                     "sudo -n ufw status > /dev/null 2>&1",
                     "sudo ufw allow tcp/22 from 10.0.0.0/8"],
                   logs := [.log .info "Detected ufw firewall tool with sudo access" none,
                     .log .info "Added firewall rule: allow tcp/22" none] }) := by
  decide

theorem Rx.dead_not_nullable (r : Rx) (h : r.dead = true) : r.nullable = false := by
  induction r with
  | empty => rfl
  | eps => simp [Rx.dead] at h
  | cls ranges => rfl
  | seq a b iha ihb =>
    simp only [Rx.dead, Bool.or_eq_true] at h
    simp only [Rx.nullable, Bool.and_eq_false_iff]
    exact h.imp iha ihb
  | alt a b iha ihb =>
    simp only [Rx.dead, Bool.and_eq_true] at h
    simp only [Rx.nullable, Bool.or_eq_false_iff]
    exact ⟨iha h.1, ihb h.2⟩
  | star a _ => simp [Rx.dead] at h

theorem Rx.dead_deriv (c : Char) (r : Rx) (h : r.dead = true) : (r.deriv c).dead = true := by
  induction r with
  | empty => rfl
  | eps => simp [Rx.dead] at h
  | cls ranges => simp [Rx.dead] at h
  | seq a b iha ihb =>
    simp only [Rx.dead, Bool.or_eq_true] at h
    simp only [Rx.deriv]
    split
    · rename_i hn
      rcases h with h | h
      · rw [Rx.dead_not_nullable a h] at hn
        exact absurd hn (by decide)
      · simp [Rx.dead, h, ihb h]
    · rcases h with h | h
      · simp [Rx.dead, iha h]
      · simp [Rx.dead, h]
  | alt a b iha ihb =>
    simp only [Rx.dead, Bool.and_eq_true] at h
    simp [Rx.deriv, Rx.dead, iha h.1, ihb h.2]
  | star a _ => simp [Rx.dead] at h

theorem Rx.dead_test (s : List Char) : ∀ r : Rx, r.dead = true → r.test s = false := by
  induction s with
  | nil => exact fun r h => Rx.dead_not_nullable r h
  | cons c cs ih => exact fun r h => ih (r.deriv c) (Rx.dead_deriv c r h)

theorem Rx.within_deriv (ok : Char → Bool) (c : Char) (r : Rx) (h : r.within ok) :
    (r.deriv c).within ok := by
  induction r with
  | empty => trivial
  | eps => trivial
  | cls ranges =>
    simp only [Rx.deriv]
    split <;> trivial
  | seq a b iha ihb =>
    simp only [Rx.deriv]
    split
    · exact ⟨⟨iha h.1, h.2⟩, ihb h.2⟩
    · exact ⟨iha h.1, h.2⟩
  | alt a b iha ihb => exact ⟨iha h.1, ihb h.2⟩
  | star a iha => exact ⟨iha h, h⟩

theorem Rx.deriv_dead_of_not_ok (ok : Char → Bool) (c : Char) (r : Rx) (h : r.within ok)
    (hc : ok c = false) : (r.deriv c).dead = true := by
  induction r with
  | empty => rfl
  | eps => rfl
  | cls ranges =>
    have hr : inRanges ranges c = false := by
      cases hin : inRanges ranges c with
      | false => rfl
      | true => rw [h c hin] at hc; exact absurd hc (by decide)
    simp [Rx.deriv, hr, Rx.dead]
  | seq a b iha ihb =>
    simp only [Rx.deriv]
    split
    · simp [Rx.dead, iha h.1, ihb h.2]
    · simp [Rx.dead, iha h.1]
  | alt a b iha ihb => simp [Rx.deriv, Rx.dead, iha h.1, ihb h.2]
  | star a iha => simp [Rx.deriv, Rx.dead, iha h]

/-- A string accepted by an expression uses only characters of the classes of that
expression. -/
theorem Rx.test_chars (ok : Char → Bool) (s : List Char) :
    ∀ r : Rx, r.within ok → r.test s = true → ∀ c ∈ s, ok c = true := by
  induction s with
  | nil => intro r _ _ c hc; cases hc
  | cons d ds ih =>
    intro r hw ht c hc
    have hd : ok d = true := by
      cases hok : ok d with
      | true => rfl
      | false =>
        have := Rx.dead_test ds (r.deriv d) (Rx.deriv_dead_of_not_ok ok d r hw hok)
        simp only [Rx.test] at ht
        rw [this] at ht
        exact absurd ht (by decide)
    rcases List.mem_cons.mp hc with rfl | hc
    · exact hd
    · exact ih (r.deriv d) (Rx.within_deriv ok d r hw) ht c hc

theorem char_of_toNat (c : Char) (n : Nat) (h : c.toNat = n) : c = Char.ofNat n := by
  rw [← h, Char.ofNat_toNat]

theorem ipCidrRegex_within : ipCidrRegex.within isSourceChar := by
  have hdigit : ∀ c, inRanges [(48, 57)] c = true → isSourceChar c = true := by
    intro c h
    simp only [inRanges, List.any_cons, List.any_nil, Bool.or_false, Bool.and_eq_true,
      decide_eq_true_eq] at h
    simp only [isSourceChar, inRanges, List.any_cons, List.any_nil, Bool.or_false,
      Bool.or_eq_true, Bool.and_eq_true, decide_eq_true_eq]
    omega
  have hdot : ∀ c, inRanges [(46, 46)] c = true → isSourceChar c = true := by
    intro c h
    simp only [inRanges, List.any_cons, List.any_nil, Bool.or_false, Bool.and_eq_true,
      decide_eq_true_eq] at h
    have : c = Char.ofNat 46 := char_of_toNat c 46 (by omega)
    subst this
    decide
  have hslash : ∀ c, inRanges [(47, 47)] c = true → isSourceChar c = true := by
    intro c h
    simp only [inRanges, List.any_cons, List.any_nil, Bool.or_false, Bool.and_eq_true,
      decide_eq_true_eq] at h
    have : c = Char.ofNat 47 := char_of_toNat c 47 (by omega)
    subst this
    decide
  have hhost : ∀ c, inRanges [(97, 122), (65, 90), (48, 57), (45, 45), (46, 46)] c = true →
      isSourceChar c = true := by
    intro c h
    simp only [inRanges, List.any_cons, List.any_nil, Bool.or_false, Bool.and_eq_true,
      Bool.or_eq_true, decide_eq_true_eq] at h
    rcases h with h | h | h | h | h
    · simp only [isSourceChar, inRanges, List.any_cons, List.any_nil, Bool.or_false,
        Bool.or_eq_true, Bool.and_eq_true, decide_eq_true_eq]
      omega
    · simp only [isSourceChar, inRanges, List.any_cons, List.any_nil, Bool.or_false,
        Bool.or_eq_true, Bool.and_eq_true, decide_eq_true_eq]
      omega
    · simp only [isSourceChar, inRanges, List.any_cons, List.any_nil, Bool.or_false,
        Bool.or_eq_true, Bool.and_eq_true, decide_eq_true_eq]
      omega
    · have : c = Char.ofNat 45 := char_of_toNat c 45 (by omega)
      subst this
      decide
    · have : c = Char.ofNat 46 := char_of_toNat c 46 (by omega)
      subst this
      decide
  have hd13 : rxDigits13.within isSourceChar :=
    ⟨hdigit, ⟨hdigit, hdigit, trivial⟩, trivial⟩
  have hd12 : rxDigits12.within isSourceChar := ⟨hdigit, hdigit, trivial⟩
  have hoct : rxOctetDot.within isSourceChar := ⟨hd13, hdot⟩
  exact ⟨⟨hoct, hoct, hoct, hd13, ⟨hslash, hd12⟩, trivial⟩, hhost, hhost⟩

theorem isSourceChar_not_special : ∀ c ∈ shellSpecial, isSourceChar c = false := by
  decide

/-- A source that passes the pattern check consists of letters, digits, `.`, `-` and `/`, and
so holds no white space and no character special to a shell. -/
theorem ipCidrRegex_chars (s : List Char) (h : ipCidrRegex.test s = true) :
    ∀ c ∈ s, isSourceChar c = true ∧ c ∉ shellSpecial := by
  intro c hc
  have hok := Rx.test_chars isSourceChar s ipCidrRegex ipCidrRegex_within h c hc
  refine ⟨hok, fun hsp => ?_⟩
  rw [isSourceChar_not_special c hsp] at hok
  exact absurd hok (by decide)

theorem ite_error_eq_ok {c : Prop} [Decidable c] {x : String} {r : Except String Unit}
    (h : (if c then Except.error x else r) = .ok ()) : ¬ c ∧ r = .ok () := by
  by_cases hc : c
  · rw [if_pos hc] at h
    exact Except.noConfusion h
  · rw [if_neg hc] at h
    exact ⟨hc, h⟩

/-- What a rule that passes the validation of lines 205-222 looks like. -/
theorem validateRule_ok (rule : Rule) (h : validateRule rule = .ok ()) :
    (rule.action = .str "allow" ∨ rule.action = .str "deny") ∧
    (rule.protocol = .str "tcp" ∨ rule.protocol = .str "udp") ∧
    1 ≤ rule.port ∧ rule.port ≤ 65535 ∧
    (sourceGiven (ruleSource rule) = true →
      ipCidrRegex.test (ruleSource rule).render.data = true) := by
  unfold validateRule at h
  obtain ⟨n1, h⟩ := ite_error_eq_ok h
  obtain ⟨n2, h⟩ := ite_error_eq_ok h
  obtain ⟨n3, h⟩ := ite_error_eq_ok h
  obtain ⟨n4, _⟩ := ite_error_eq_ok h
  simp only [Bool.or_eq_true, Bool.not_eq_true', not_or, Bool.not_eq_false, List.contains_cons,
    List.contains_nil, Bool.or_false, beq_iff_eq, decide_eq_true_eq, not_lt,
    Bool.and_eq_true, not_and, Bool.not_eq_true] at n1 n2 n3 n4
  refine ⟨n1.2, n2.2, by omega, by omega, ?_⟩
  intro hg
  have := n4 hg
  simpa using this

theorem ruleSource_of_truthy (rule : Rule) (h : rule.source.truthy = true) :
    ruleSource rule = rule.source := by
  unfold ruleSource
  split
  · rename_i hu
    rw [hu] at h
    exact absurd h (by decide)
  · rfl

theorem tryUfw_executed (sh : Shell) (fw : FirewallService) :
    ∃ l, (tryUfw sh fw).2.executed = fw.executed ++ l ∧ ∀ c ∈ l, c ∈ probeCommands := by
  unfold tryUfw FirewallService.execAsync
  cases sh.run fw.executed "which ufw > /dev/null 2>&1" with
  | error e => exact ⟨["which ufw > /dev/null 2>&1"], rfl, by simp [probeCommands]⟩
  | ok o =>
    simp only []
    cases sh.run (fw.executed ++ ["which ufw > /dev/null 2>&1"])
        "sudo -n ufw status > /dev/null 2>&1" with
    | ok o2 =>
      exact ⟨["which ufw > /dev/null 2>&1", "sudo -n ufw status > /dev/null 2>&1"],
        by simp [FirewallService.log], by simp [probeCommands]⟩
    | error e =>
      exact ⟨["which ufw > /dev/null 2>&1", "sudo -n ufw status > /dev/null 2>&1"],
        by simp [FirewallService.log], by simp [probeCommands]⟩

theorem tryIptables_executed (sh : Shell) (fw : FirewallService) :
    ∃ l, (tryIptables sh fw).2.executed = fw.executed ++ l ∧ ∀ c ∈ l, c ∈ probeCommands := by
  unfold tryIptables FirewallService.execAsync
  cases sh.run fw.executed "which iptables > /dev/null 2>&1" with
  | error e => exact ⟨["which iptables > /dev/null 2>&1"], rfl, by simp [probeCommands]⟩
  | ok o =>
    simp only []
    cases sh.run (fw.executed ++ ["which iptables > /dev/null 2>&1"])
        "sudo -n iptables -L > /dev/null 2>&1" with
    | ok o2 =>
      exact ⟨["which iptables > /dev/null 2>&1", "sudo -n iptables -L > /dev/null 2>&1"],
        by simp [FirewallService.log], by simp [probeCommands]⟩
    | error e =>
      exact ⟨["which iptables > /dev/null 2>&1", "sudo -n iptables -L > /dev/null 2>&1"],
        by simp [FirewallService.log], by simp [probeCommands]⟩

/-- Detection runs probe commands only. -/
theorem detect_executed (sh : Shell) (fw : FirewallService) :
    ∃ l, (_detectFirewallTool sh fw).2.executed = fw.executed ++ l ∧
      ∀ c ∈ l, c ∈ probeCommands := by
  unfold _detectFirewallTool
  split
  · exact ⟨[], by simp, by simp⟩
  · obtain ⟨l1, h1, hp1⟩ := tryUfw_executed sh fw
    cases hu : tryUfw sh fw with
    | mk r1 fw1 =>
      rw [hu] at h1
      cases r1 with
      | ok tool => exact ⟨l1, h1, hp1⟩
      | error e =>
        simp only []
        obtain ⟨l2, h2, hp2⟩ := tryIptables_executed sh fw1
        cases hi : tryIptables sh fw1 with
        | mk r2 fw2 =>
          rw [hi] at h2
          cases r2 with
          | ok tool =>
            refine ⟨l1 ++ l2, ?_, ?_⟩
            · simp only [] at h1 h2 ⊢
              rw [h2, h1, List.append_assoc]
            · intro c hc
              rcases List.mem_append.mp hc with hc | hc
              · exact hp1 c hc
              · exact hp2 c hc
          | error e2 =>
            refine ⟨l1 ++ l2, ?_, ?_⟩
            · simp only [FirewallService.log] at h1 h2 ⊢
              rw [h2, h1, List.append_assoc]
            · intro c hc
              rcases List.mem_append.mp hc with hc | hc
              · exact hp1 c hc
              · exact hp2 c hc

theorem tryUfw_result (sh : Shell) (fw : FirewallService) (tool : String)
    (h : (tryUfw sh fw).1 = .ok tool) : tool = "ufw" := by
  unfold tryUfw FirewallService.execAsync at h
  cases h1 : sh.run fw.executed "which ufw > /dev/null 2>&1" with
  | error e => rw [h1] at h; exact Except.noConfusion h
  | ok o =>
    rw [h1] at h
    simp only [] at h
    cases h2 : sh.run (fw.executed ++ ["which ufw > /dev/null 2>&1"])
        "sudo -n ufw status > /dev/null 2>&1" with
    | ok o2 =>
      rw [h2] at h
      simp only [Except.ok.injEq] at h
      exact h.symm
    | error e => rw [h2] at h; exact Except.noConfusion h

/-- The error of line 37 and of line 53 never leaves `_detectFirewallTool`: the only error it
throws is the one of line 58. -/
theorem detect_error (sh : Shell) (fw : FirewallService) (e : String)
    (h : (_detectFirewallTool sh fw).1 = .error e) :
    e = "No supported firewall tool found (ufw or iptables)" := by
  unfold _detectFirewallTool at h
  split at h
  · exact Except.noConfusion h
  · cases hu : tryUfw sh fw with
    | mk r1 fw1 =>
      rw [hu] at h
      cases r1 with
      | ok tool => exact Except.noConfusion h
      | error e1 =>
        simp only [] at h
        cases hi : tryIptables sh fw1 with
        | mk r2 fw2 =>
          rw [hi] at h
          cases r2 with
          | ok tool => exact Except.noConfusion h
          | error e2 =>
            simp only [Except.error.injEq] at h
            exact h.symm

theorem sourceGiven_ruleSource (rule : Rule) (h : sourceGiven (ruleSource rule) = true) :
    ruleSource rule = rule.source := by
  unfold ruleSource at h ⊢
  split
  · rename_i hu
    rw [if_pos hu] at h
    exact absurd h (by decide)
  · rfl

/-- The command built for a rule that passed the validation. -/
theorem buildCommand_shape (tool : String) (rule : Rule) (h : validateRule rule = .ok ()) :
    ∃ a p src,
      rule.action = .str a ∧ (a = "allow" ∨ a = "deny") ∧
      rule.protocol = .str p ∧ (p = "tcp" ∨ p = "udp") ∧
      (src = "" ∨ src = rule.source.render) ∧
      (∀ c ∈ src.data, isSourceChar c = true ∧ c ∉ shellSpecial) ∧
      (buildCommand tool rule
          = "sudo ufw " ++ a ++ " " ++ p ++ "/" ++ toString rule.port
              ++ (if src = "" then "" else " from " ++ src) ∨
       buildCommand tool rule
          = "sudo iptables -I INPUT -p " ++ p ++ " --dport " ++ toString rule.port
              ++ " -j " ++ (if a = "allow" then "ACCEPT" else "DROP")
              ++ (if src = "" then "" else " -s " ++ src)) := by
  obtain ⟨ha, hp, _, _, hsrc⟩ := validateRule_ok rule h
  obtain ⟨a, haeq, haval⟩ : ∃ a, rule.action = .str a ∧ (a = "allow" ∨ a = "deny") := by
    rcases ha with ha | ha
    · exact ⟨"allow", ha, Or.inl rfl⟩
    · exact ⟨"deny", ha, Or.inr rfl⟩
  obtain ⟨p, hpeq, hpval⟩ : ∃ p, rule.protocol = .str p ∧ (p = "tcp" ∨ p = "udp") := by
    rcases hp with hp | hp
    · exact ⟨"tcp", hp, Or.inl rfl⟩
    · exact ⟨"udp", hp, Or.inr rfl⟩
  have hact : (rule.action = JsVal.str "allow") ↔ a = "allow" := by
    rw [haeq]
    exact ⟨fun e => JsVal.str.inj e, fun e => congrArg JsVal.str e⟩
  have hra : rule.action.render = a := by rw [haeq]; rfl
  have hrp : rule.protocol.render = p := by rw [hpeq]; rfl
  cases hg : sourceGiven (ruleSource rule) with
  | false =>
    refine ⟨a, p, "", haeq, haval, hpeq, hpval, Or.inl rfl, ?_, ?_⟩
    · intro c hc
      cases hc
    · unfold buildCommand
      by_cases ht : tool = "ufw"
      · left
        simp [ht, hg, hra, hrp]
      · right
        by_cases hal : a = "allow"
        · simp [ht, hg, hra, hrp, hact, hal]
        · simp [ht, hg, hra, hrp, hact, hal]
  | true =>
    have htest := hsrc hg
    have hrs := sourceGiven_ruleSource rule hg
    rw [hrs] at htest
    have hne : rule.source.render ≠ "" := by
      intro he
      rw [he] at htest
      exact absurd htest (by decide)
    refine ⟨a, p, rule.source.render, haeq, haval, hpeq, hpval, Or.inr rfl,
      ipCidrRegex_chars _ htest, ?_⟩
    unfold buildCommand
    rw [hg, hrs]
    by_cases ht : tool = "ufw"
    · left
      simp [ht, hra, hrp, hne]
    · right
      by_cases hal : a = "allow"
      · simp [ht, hra, hrp, hne, hact, hal]
      · simp [ht, hra, hrp, hne, hact, hal]

/-- The commands run by the `try` block of `addRule`: nothing when the validation throws,
otherwise the probes of the detection and then, if a tool was detected, the rule command. -/
theorem addRuleBody_executed (sh : Shell) (rule : Rule) (fw : FirewallService) :
    (∃ e, validateRule rule = .error e ∧ (addRuleBody sh rule fw).1 = .error e ∧
      (addRuleBody sh rule fw).2 = fw) ∨
    (validateRule rule = .ok () ∧
      ∃ l, (∀ c ∈ l, c ∈ probeCommands) ∧
        ((addRuleBody sh rule fw).2.executed = fw.executed ++ l ∨
         ∃ tool, (addRuleBody sh rule fw).2.executed
            = fw.executed ++ l ++ [buildCommand tool rule])) := by
  unfold addRuleBody
  cases hv : validateRule rule with
  | error e => exact Or.inl ⟨e, rfl, rfl, rfl⟩
  | ok u =>
    refine Or.inr ⟨rfl, ?_⟩
    obtain ⟨l, hl, hp⟩ := detect_executed sh fw
    refine ⟨l, hp, ?_⟩
    cases hd : _detectFirewallTool sh fw with
    | mk r fw1 =>
      rw [hd] at hl
      simp only [] at hl
      cases r with
      | error e => exact Or.inl hl
      | ok tool =>
        refine Or.inr ⟨tool, ?_⟩
        simp only [FirewallService.execAsync]
        cases sh.run fw1.executed (buildCommand tool rule) with
        | error e => simp only [hl]
        | ok o => simp only [FirewallService.log, hl]

theorem addRule_executed (sh : Shell) (rule : Rule) (fw : FirewallService) :
    (addRule sh rule fw).2.executed
      = if fw.enabled then (addRuleBody sh rule fw).2.executed else fw.executed := by
  unfold addRule
  cases hen : fw.enabled with
  | false => rfl
  | true =>
    simp only [Bool.not_true, Bool.false_eq_true, if_false, if_true]
    cases hb : addRuleBody sh rule fw with
    | mk r fw1 =>
      cases r with
      | ok u => rfl
      | error e => rfl

/-- C24, counterexample: the empty string is a source that differs from 'any' and fails the
pattern, yet `addRule` succeeds and runs three commands, the last of which opens the port to
every source. -/
theorem addRule_accepts_empty_source :
    emptySourceRule.source = .str "" ∧ emptySourceRule.source ≠ .str "any" ∧
    ipCidrRegex.test emptySourceRule.source.render.data = false ∧
    addRule Shell.permissive emptySourceRule (FirewallService.new .undefined)
      = (.ok (), { firewallTool := some "ufw", enabled := true,
                   executed := ["which ufw > /dev/null 2>&1",
                     "sudo -n ufw status > /dev/null 2>&1", "sudo ufw allow tcp/80"],
                   logs := [.log .info "Detected ufw firewall tool with sudo access" none,
                     .log .info "Added firewall rule: allow tcp/80" none] }) := by
  decide

/-- C24, amended: with firewall management enabled, `addRule` fails with an error and runs no
command, not even a probe, whenever the action is not 'allow' or 'deny', the protocol is not
'tcp' or 'udp', the numeric port is not within 1..65535, or the source is a truthy value (a
non-empty string, say) other than 'any' whose string form fails the pattern. -/
theorem addRule_rejects_invalid (sh : Shell) (fw : FirewallService) (rule : Rule)
    (hen : fw.enabled = true)
    (hbad : (rule.action ≠ .str "allow" ∧ rule.action ≠ .str "deny") ∨
      (rule.protocol ≠ .str "tcp" ∧ rule.protocol ≠ .str "udp") ∨
      rule.port < 1 ∨ 65535 < rule.port ∨
      (rule.source.truthy = true ∧ rule.source ≠ .str "any" ∧
        ipCidrRegex.test rule.source.render.data = false)) :
    (∃ message, (addRule sh rule fw).1 = .error message) ∧
    (addRule sh rule fw).2.executed = fw.executed := by
  have hinv : ∃ e, validateRule rule = .error e := by
    cases hv : validateRule rule with
    | error e => exact ⟨e, rfl⟩
    | ok u =>
      obtain ⟨ha, hp, h1, h2, hsrc⟩ := validateRule_ok rule hv
      rcases hbad with hb | hb | hb | hb | ⟨ht, hne, hfail⟩
      · rcases ha with ha | ha
        · exact absurd ha hb.1
        · exact absurd ha hb.2
      · rcases hp with hp | hp
        · exact absurd hp hb.1
        · exact absurd hp hb.2
      · omega
      · omega
      · have hrs := ruleSource_of_truthy rule ht
        have hg : sourceGiven (ruleSource rule) = true := by
          rw [hrs]
          simp [sourceGiven, ht, hne]
        have := hsrc hg
        rw [hrs, hfail] at this
        exact absurd this (by decide)
  obtain ⟨e, he⟩ := hinv
  rcases addRuleBody_executed sh rule fw with ⟨e2, _, hres, hst⟩ | ⟨hok, _⟩
  · constructor
    · unfold addRule
      rw [hen]
      simp only [Bool.not_true, Bool.false_eq_true, if_false]
      cases hb : addRuleBody sh rule fw with
      | mk r fw1 =>
        rw [hb] at hres
        simp only [] at hres
        rw [hres]
        exact ⟨_, rfl⟩
    · rw [addRule_executed, hen, hst]
      rfl
  · rw [he] at hok
    exact Except.noConfusion hok

/-- C24, amended, for a source that carries a second command. -/
theorem addRule_rejects_invalid_witness :
    (∃ message, (addRule Shell.permissive injectionRule (FirewallService.new .undefined)).1
      = .error message) ∧
    (addRule Shell.permissive injectionRule (FirewallService.new .undefined)).2.executed = [] :=
  addRule_rejects_invalid Shell.permissive (FirewallService.new .undefined) injectionRule
    (by decide) (Or.inr (Or.inr (Or.inr (Or.inr ⟨by decide, by decide, by decide⟩))))

/-- C27: the error 'sudo access required' never leaves `_detectFirewallTool`.  With ufw
installed, its sudo probe failing and no iptables, detection fails with 'No supported firewall
tool found (ufw or iptables)' (firewallTool is 'ufw'); with iptables usable it returns
'iptables'; with only iptables installed and its sudo probe failing it fails with the same
'No supported firewall tool found' error. -/
theorem detect_swallows_sudo_error :
    (∀ sh fw, (_detectFirewallTool sh fw).1 ≠ .error "sudo access required") ∧
    _detectFirewallTool Shell.ufwWithoutSudo (FirewallService.new .undefined)
      = (.error "No supported firewall tool found (ufw or iptables)",
         { firewallTool := some "ufw", enabled := true,
           executed := ["which ufw > /dev/null 2>&1", "sudo -n ufw status > /dev/null 2>&1",
             "which iptables > /dev/null 2>&1"],
           logs := [.log .warn ("Detected ufw firewall tool but sudo access not configured: "
               ++ "Command failed: sudo -n ufw status > /dev/null 2>&1") none,
             .log .error "No firewall tools found on system" none] }) ∧
    ((_detectFirewallTool Shell.ufwWithoutSudoIptablesOk (FirewallService.new .undefined)).1
        = .ok "iptables" ∧
      (_detectFirewallTool Shell.ufwWithoutSudoIptablesOk
        (FirewallService.new .undefined)).2.firewallTool = some "iptables") ∧
    ((_detectFirewallTool Shell.iptablesWithoutSudo (FirewallService.new .undefined)).1
        = .error "No supported firewall tool found (ufw or iptables)" ∧
      (_detectFirewallTool Shell.iptablesWithoutSudo
        (FirewallService.new .undefined)).2.firewallTool = some "iptables") := by
  refine ⟨?_, by decide, by decide, by decide⟩
  intro sh fw h
  have := detect_error sh fw _ h
  exact absurd this (by decide)

/-- C30: every command that `addRule` runs is one of the four fixed probes of the detection
or the rule command, and the rule command is assembled from the action 'allow' or 'deny', the
protocol 'tcp' or 'udp', the port, and, when a source is appended, a source made of letters,
digits, '.', '-' and '/' only, hence without white space or a character special to a shell. -/
theorem addRule_commands_validated (sh : Shell) (fw : FirewallService) (rule : Rule)
    (cmd : String) (hcmd : cmd ∈ (addRule sh rule fw).2.executed) :
    cmd ∈ fw.executed ∨ cmd ∈ probeCommands ∨
    ∃ a p src,
      rule.action = .str a ∧ (a = "allow" ∨ a = "deny") ∧
      rule.protocol = .str p ∧ (p = "tcp" ∨ p = "udp") ∧
      (src = "" ∨ src = rule.source.render) ∧
      (∀ c ∈ src.data, isSourceChar c = true ∧ c ∉ shellSpecial) ∧
      (cmd = "sudo ufw " ++ a ++ " " ++ p ++ "/" ++ toString rule.port
              ++ (if src = "" then "" else " from " ++ src) ∨
       cmd = "sudo iptables -I INPUT -p " ++ p ++ " --dport " ++ toString rule.port
              ++ " -j " ++ (if a = "allow" then "ACCEPT" else "DROP")
              ++ (if src = "" then "" else " -s " ++ src)) := by
  rw [addRule_executed] at hcmd
  split at hcmd
  · rcases addRuleBody_executed sh rule fw with ⟨e, _, _, hst⟩ | ⟨hok, l, hp, hex | ⟨tool, hex⟩⟩
    · rw [hst] at hcmd
      exact Or.inl hcmd
    · rw [hex] at hcmd
      rcases List.mem_append.mp hcmd with h | h
      · exact Or.inl h
      · exact Or.inr (Or.inl (hp cmd h))
    · rw [hex] at hcmd
      rcases List.mem_append.mp hcmd with h | h
      · rcases List.mem_append.mp h with h | h
        · exact Or.inl h
        · exact Or.inr (Or.inl (hp cmd h))
      · have hc : cmd = buildCommand tool rule := by simpa using h
        obtain ⟨a, p, src, h1, h2, h3, h4, h5, h6, h7⟩ := buildCommand_shape tool rule hok
        rw [← hc] at h7
        exact Or.inr (Or.inr ⟨a, p, src, h1, h2, h3, h4, h5, h6, h7⟩)
  · exact Or.inl hcmd

/-- C30, for the rule that opens port 22 for one network. -/
theorem addRule_commands_validated_witness :
    "sudo ufw allow tcp/22 from 10.0.0.0/8"
      ∈ (addRule Shell.permissive sampleRule (FirewallService.new .undefined)).2.executed ∧
    ("sudo ufw allow tcp/22 from 10.0.0.0/8" ∈ (FirewallService.new .undefined).executed ∨
     "sudo ufw allow tcp/22 from 10.0.0.0/8" ∈ probeCommands ∨
     ∃ a p src,
      sampleRule.action = .str a ∧ (a = "allow" ∨ a = "deny") ∧
      sampleRule.protocol = .str p ∧ (p = "tcp" ∨ p = "udp") ∧
      (src = "" ∨ src = sampleRule.source.render) ∧
      (∀ c ∈ src.data, isSourceChar c = true ∧ c ∉ shellSpecial) ∧
      ("sudo ufw allow tcp/22 from 10.0.0.0/8"
          = "sudo ufw " ++ a ++ " " ++ p ++ "/" ++ toString sampleRule.port
              ++ (if src = "" then "" else " from " ++ src) ∨
       "sudo ufw allow tcp/22 from 10.0.0.0/8"
          = "sudo iptables -I INPUT -p " ++ p ++ " --dport " ++ toString sampleRule.port
              ++ " -j " ++ (if a = "allow" then "ACCEPT" else "DROP")
              ++ (if src = "" then "" else " -s " ++ src))) :=
  ⟨by decide,
   addRule_commands_validated Shell.permissive (FirewallService.new .undefined) sampleRule
     "sudo ufw allow tcp/22 from 10.0.0.0/8" (by decide)⟩

end PanelOS
